import Mathlib

/-!
# Verification of the unnamed-snes-engine resource compiler and linker

Shallow embedding, in Lean 4, of the parts of `tools/convert_metasprite.py`
and `tools/unnamed_snes_game/insert_resources.py` that the specification's
claims are about, together with theorems settling those claims.

Conventions of the embedding:
* Python byte strings / memoryviews become `List Nat` (each element a byte)
  or, for a large sparse ROM image, a total function `Nat → Nat` from ROM
  offsets to bytes.
* Python ints become `Nat` or `Int`; masking (`& 0xffff`) becomes `% 0x10000`.
* Fallible code (exceptions, failing `assert`s) returns `Except String _`
  or `Option _`.
* Python dicts used purely as lookup tables become functions into `Option`.
-/

set_option maxHeartbeats 1600000
set_option maxRecDepth 8192

/-! ## Part 1: definitions

### Bank allocator / linker (`insert_resources.py`, class `ResourceInserter`)

The `memoryview` of the sfc file is modelled as a total function from ROM
offsets to byte values.  The `symbols` dict is only ever consulted (by the
code involved in the claims) at the two fixed labels
`resources.__NResourcesPerTypeTable` and `resources.__ResourceEntryTable`;
the two resolved addresses are stored directly in the structure.
-/

def BANK_END : Nat := 0x10000

def BLANK_RESOURCE_ENTRY : List Nat := [0, 0, 0, 0, 0]

structure ResourceInserter where
  address_to_rom_offset : Nat → Nat
  bank_start : Nat
  bank_size : Nat
  bank_offset : Nat
  bank_positions : List Nat
  view : Nat → Nat
  symNResourcesPerTypeTable : Nat
  symResourceEntryTable : Nat

/-- Overwrite `blob.length` bytes of `view` starting at offset `off`
(the slice assignment `view[off : off + len(blob)] = blob`). -/
def writeBytes (view : Nat → Nat) (off : Nat) (blob : List Nat) : Nat → Nat :=
  fun j => if off ≤ j ∧ j < off + blob.length then blob.getD (j - off) 0 else view j

def ResourceInserter.read_u8 (s : ResourceInserter) (addr : Nat) : Nat :=
  s.view (s.address_to_rom_offset addr)

def ResourceInserter.read_u16 (s : ResourceInserter) (addr : Nat) : Nat :=
  s.view (s.address_to_rom_offset addr) ||| (s.view (s.address_to_rom_offset addr + 1)) <<< 8

/-- `ResourceInserter.insert_blob`.  The failing `assert` on the blob size and
the "Cannot fit" `RuntimeError` are both modelled as `Except.error`. -/
def ResourceInserter.insert_blob (s : ResourceInserter) (blob : List Nat) :
    Except String (ResourceInserter × Nat) :=
  let blob_size := blob.length
  if ¬(0 < blob_size ∧ blob_size ≤ s.bank_size) then
    .error "assert failed: blob_size > 0 and blob_size <= self.bank_size"
  else
    match (List.range s.bank_positions.length).find?
        (fun i => s.bank_positions.getD i 0 + blob_size ≤ BANK_END) with
    | some i =>
      let addr := ((s.bank_offset + i) <<< 16) + s.bank_positions.getD i 0
      let rom_offset := s.address_to_rom_offset addr
      .ok ({ s with
              view := writeBytes s.view rom_offset blob,
              bank_positions :=
                s.bank_positions.set i (s.bank_positions.getD i 0 + blob_size) },
           addr)
    | none => .error "Cannot fit blob into binary"

/-- `ResourceInserter.insert_blob_into_start_of_bank`. -/
def ResourceInserter.insert_blob_into_start_of_bank (s : ResourceInserter)
    (bank_id : Nat) (blob : List Nat) : Except String (ResourceInserter × Nat) :=
  let blob_size := blob.length
  if ¬0 < blob_size then .error "assert failed: blob_size > 0"
  else
    let u16_addr := s.bank_positions.getD bank_id 0
    if u16_addr ≠ s.bank_start then .error "Bank is not empty"
    else if BANK_END < blob_size then .error "Cannot fit blob of size into binary"
    else
      let addr := ((s.bank_offset + bank_id) <<< 16) + u16_addr
      let rom_offset := s.address_to_rom_offset addr
      .ok ({ s with
              view := writeBytes s.view rom_offset blob,
              bank_positions := s.bank_positions.set bank_id (u16_addr + blob_size) },
           addr)

/-- `ResourceInserter.resource_table_for_type`, returning
`(resource_table_addr, expected_n_resources)`. -/
def ResourceInserter.resource_table_for_type (s : ResourceInserter)
    (resource_type_id : Nat) : Nat × Nat :=
  let nrptt_addr := s.symNResourcesPerTypeTable
  let retable_addr := s.symResourceEntryTable
  let expected_n_resources := s.read_u8 (nrptt_addr + resource_type_id)
  let resource_table_addr :=
    s.read_u16 (retable_addr + resource_type_id * 2) ||| (retable_addr &&& 0xFF0000)
  (resource_table_addr, expected_n_resources)

/-- One iteration of the loop in `ResourceInserter.insert_resources`:
insert one resource blob and patch its 5-byte table entry at `table_pos`. -/
def ResourceInserter.insert_resources_step (s : ResourceInserter) (table_pos : Nat)
    (data : List Nat) : Except String ResourceInserter :=
  let size := data.length
  if ¬(0 < size ∧ size < 0xFFFF) then
    .error "assert failed: size > 0 and size < 0xFFFF"
  else
    match s.insert_blob data with
    | .error e => .error e
    | .ok (s1, addr) =>
      if (List.range 5).map (fun j => s1.view (table_pos + j)) ≠ BLANK_RESOURCE_ENTRY then
        .error "assert failed: table entry is not blank"
      else
        .ok { s1 with
              view := writeBytes s1.view table_pos
                [addr % 256, (addr >>> 8) % 256, addr >>> 16, size % 256, size >>> 8] }

def ResourceInserter.insert_resources_go :
    ResourceInserter → Nat → List (List Nat) → Except String ResourceInserter
  | s, _, [] => .ok s
  | s, table_pos, d :: ds =>
    match s.insert_resources_step table_pos d with
    | .error e => .error e
    | .ok s' => s'.insert_resources_go (table_pos + 5) ds

/-- `ResourceInserter.insert_resources`. -/
def ResourceInserter.insert_resources (s : ResourceInserter) (resource_type_id : Nat)
    (resource_data : List (List Nat)) : Except String ResourceInserter :=
  let table := s.resource_table_for_type resource_type_id
  if resource_data.length ≠ table.2 then
    .error "NResourcesPerTypeTable mismatch in sfc_file"
  else
    s.insert_resources_go (s.address_to_rom_offset table.1) resource_data

/-- Sequentially insert a list of blobs with `insert_blob`,
collecting the returned addresses. -/
def ResourceInserter.insert_blob_seq :
    ResourceInserter → List (List Nat) → Except String (ResourceInserter × List Nat)
  | s, [] => .ok (s, [])
  | s, b :: bs =>
    match s.insert_blob b with
    | .error e => .error e
    | .ok (s', addr) =>
      match s'.insert_blob_seq bs with
      | .error e => .error e
      | .ok (s'', addrs) => .ok (s'', addr :: addrs)

/-- A sequence of calls on a `ResourceInserter`, for stating state invariants. -/
inductive RIOp
  | blob (b : List Nat)
  | atStart (bank_id : Nat) (b : List Nat)

def RIOp.apply (s : ResourceInserter) : RIOp → Except String ResourceInserter
  | .blob b => (s.insert_blob b).map (·.1)
  | .atStart i b => (s.insert_blob_into_start_of_bank i b).map (·.1)

def RIOp.applyList : ResourceInserter → List RIOp → Except String ResourceInserter
  | s, [] => .ok s
  | s, op :: ops =>
    match op.apply s with
    | .error e => .error e
    | .ok s' => RIOp.applyList s' ops

/-! ### Checksum finalizer (`insert_resources.py`, `update_checksum`)

The sfc image is a `List Nat` of bytes; `cs_header_offset` is the ROM offset
of the checksum header slot (`address_to_rom_offset(0x00FFDC)` in the source,
a fixed value once the addressing mode is fixed). -/

/-- Python's `int.bit_count()` (population count) for naturals. -/
def bit_count (n : Nat) : Nat :=
  if h : n = 0 then 0
  else bit_count (n / 2) + n % 2
decreasing_by exact Nat.div_lt_self (Nat.pos_of_ne_zero h) (by omega)

/-- `update_checksum`.  On success returns the patched image. -/
def update_checksum (sfc_view : List Nat) (bank_size : Nat) (cs_header_offset : Nat) :
    Except String (List Nat) :=
  if sfc_view.length % bank_size ≠ 0 then
    .error "sfc file has an invalid size (expected a multiple of the bank size)"
  else if bit_count sfc_view.length ≠ 1 then
    .error "Invalid sfc file size (must be a power of two in size)"
  else
    let checksum0 := sfc_view.sum
    let checksum1 := checksum0 - ((sfc_view.drop cs_header_offset).take 4).sum
    let checksum2 := checksum1 + 0xFF + 0xFF
    let checksum := checksum2 % 0x10000
    let complement := checksum ^^^ 0xFFFF
    .ok ((((sfc_view.set cs_header_offset (complement % 256)).set
            (cs_header_offset + 1) (complement / 256)).set
            (cs_header_offset + 2) (checksum % 256)).set
            (cs_header_offset + 3) (checksum / 256))

/-! ### Frame id assignment (`convert_metasprite.py`, `build_frameset`)

The closure `get_frame_id` assigns exported frame ids in first-use order
across all animations.  Frame names are modelled as `Nat`; the frame-bytes
dict `frames` is irrelevant to the id bookkeeping, so `exported_frames`
records the names of the appended frames (one entry per appended record,
preserving the length, which is all `build_frameset` inspects). -/

def MAX_FRAME_ID : Nat := 0xfc

def MAX_N_FRAMES : Nat := MAX_FRAME_ID + 1

def MAX_N_ANIMATIONS : Nat := 0xff

structure FrameIdState where
  exported_frame_ids : List (Nat × Nat)
  exported_frames : List Nat

def get_frame_id (st : FrameIdState) (frame_name : Nat) : FrameIdState × Nat :=
  match st.exported_frame_ids.lookup frame_name with
  | some fid => (st, fid)
  | none =>
    let fid := st.exported_frames.length
    if MAX_FRAME_ID < fid then (st, 0)
    else
      ({ exported_frame_ids := st.exported_frame_ids ++ [(frame_name, fid)],
         exported_frames := st.exported_frames ++ [frame_name] }, fid)

/-- Run `get_frame_id` over the whole sequence of frame references made by
the exported animations, in order. -/
def get_frame_ids (st : FrameIdState) : List Nat → FrameIdState
  | [] => st
  | n :: ns => get_frame_ids (get_frame_id st n).1 ns

/-- The `build_frameset` check that appends the
`"Too many frames"` error after all animations are processed. -/
def too_many_frames_error (st : FrameIdState) : Bool :=
  MAX_N_FRAMES < st.exported_frames.length

/-! ### AABB encoding (`convert_metasprite.py`, `i8_cast` / `add_i8aabb`)

Coordinates are `Int` (the JSON loader delivers plain ints; the code guards
against negatives itself).  `bytearray.extend` raises `ValueError` on any
value outside `range(0, 256)`; that check is modelled in `byte_extend4`. -/

structure Aabb where
  x : Int
  y : Int
  width : Int
  height : Int

structure MsFrameset where
  frame_width : Int
  frame_height : Int
  x_origin : Int
  y_origin : Int

def i8_cast (i : Int) : Int := if i < 0 then 0x100 + i else i

def NO_AABB_VALUE : Int := 0x80

/-- `data.extend((x1, x2, y1, y2))` on a `bytearray`. -/
def byte_extend4 (data : List Int) (x1 x2 y1 y2 : Int) : Except String (List Int) :=
  if 0 ≤ x1 ∧ x1 < 256 ∧ 0 ≤ x2 ∧ x2 < 256 ∧ 0 ≤ y1 ∧ y1 < 256 ∧ 0 ≤ y2 ∧ y2 < 256 then
    .ok (data ++ [x1, x2, y1, y2])
  else .error "byte must be in range(0, 256)"

def add_i8aabb (data : List Int) (box : Option Aabb) (fs : MsFrameset) :
    Except String (List Int) :=
  match box with
  | some box =>
    if box.x < 0 ∨ box.y < 0 ∨ box.width ≤ 0 ∨ box.height ≤ 0 then
      .error "AABB box is invalid"
    else
      let x1 := box.x
      let x2 := box.x + box.width
      let y1 := box.y
      let y2 := box.y + box.height
      if fs.frame_width < x2 ∨ fs.frame_height < y2 then
        .error "AABB box out of bounds"
      else
        let x1 := i8_cast (x1 - fs.x_origin)
        let x2 := i8_cast (x2 - fs.x_origin)
        let y1 := i8_cast (y1 - fs.y_origin)
        let y2 := i8_cast (y2 - fs.y_origin)
        if x1 = NO_AABB_VALUE then
          .error "Invalid AABB (x1 cannot be 0x80)"
        else byte_extend4 data x1 x2 y1 y2
  | none => byte_extend4 data NO_AABB_VALUE NO_AABB_VALUE NO_AABB_VALUE NO_AABB_VALUE

/-! ### Animation encoding (`convert_metasprite.py`, `build_animation_data`)

Delay values (Python floats from JSON) are modelled as rationals.
`pyTrunc` is Python's `int(d)` (truncation towards zero) and `pyRound` is
Python's `round` (round-half-to-even). -/

inductive DelayType
  | none
  | frame
  | distance_x
  | distance_y
  | distance_xy
deriving DecidableEq

/-- Python `int(d)`: truncation towards zero. -/
def pyTrunc (q : ℚ) : ℤ := q.num / (q.den : ℤ)

/-- Python `round(d)`: round half to even. -/
def pyRound (q : ℚ) : ℤ :=
  if q - ⌊q⌋ < 1/2 then ⌊q⌋
  else if 1/2 < q - ⌊q⌋ then ⌊q⌋ + 1
  else if 2 ∣ ⌊q⌋ then ⌊q⌋ else ⌊q⌋ + 1

def animation_delay__distance (d : ℚ) : Except String ℤ :=
  if d < 0 ∨ 16 ≤ d then
    .error "Invalid animation frame delay (must be between 0 and 16)"
  else .ok (pyRound (d * 16))

def ANIMATION_DELAY_FUNCTIONS : DelayType → ℚ → Except String ℤ
  | .none => fun _ => .ok 0
  | .frame => fun d => .ok (pyTrunc d)
  | .distance_x => animation_delay__distance
  | .distance_y => animation_delay__distance
  | .distance_xy => animation_delay__distance

def LOOPING_ANIMATION_DELAY_IDS : DelayType → Nat
  | .none => 0
  | .frame => 2
  | .distance_x => 4
  | .distance_y => 6
  | .distance_xy => 8

def NON_LOOPING_ANIMATION_DELAY_IDS : DelayType → Nat
  | .none => 0
  | .frame => 10
  | .distance_x => 12
  | .distance_y => 14
  | .distance_xy => 16

def END_OF_ANIMATION_BYTE : Nat := 0xff

structure MsAnimation where
  delay_type : DelayType
  loop : Bool
  frames : List Nat
  fixed_delay : Option ℚ
  frame_delays : Option (List ℚ)

/-- `bytearray.append(v)`: `v` must be in `range(0, 256)`. -/
def append_byte (data : List Nat) (v : ℤ) : Except String (List Nat) :=
  if 0 ≤ v ∧ v < 256 then .ok (data ++ [v.toNat])
  else .error "byte must be in range(0, 256)"

/-- The per-frame body of the two loops in `build_animation_data`:
append the frame id, then the converted delay (exception propagation is the
`Except` monad's bind). -/
def build_animation_pairs (get_frame_id : Nat → Nat) (conv : ℚ → Except String ℤ) :
    List Nat → List (Nat × ℚ) → Except String (List Nat)
  | acc, [] => .ok acc
  | acc, (f, d) :: rest =>
    (append_byte acc (get_frame_id f : ℤ)).bind fun acc1 =>
      (conv d).bind fun dv =>
        (append_byte acc1 dv).bind fun acc2 =>
          build_animation_pairs get_frame_id conv acc2 rest

def build_animation_data (ani : MsAnimation) (get_frame_id : Nat → Nat) :
    Except String (List Nat) :=
  if ani.delay_type = DelayType.none ∧ ani.frames.length ≠ 1 then
    .error "A 'none' delay type can only contain a single animation frame"
  else
    let conv := ANIMATION_DELAY_FUNCTIONS ani.delay_type
    let process_function :=
      if ani.frames.length = 1 then LOOPING_ANIMATION_DELAY_IDS DelayType.none
      else if ani.loop then LOOPING_ANIMATION_DELAY_IDS ani.delay_type
      else NON_LOOPING_ANIMATION_DELAY_IDS ani.delay_type
    let body : Except String (List Nat) :=
      match ani.fixed_delay with
      | Option.none =>
        match ani.frame_delays with
        | Option.none => .error "assert failed: ani.frame_delays is not None"
        | some ds =>
          if ds.length ≠ ani.frames.length then
            .error "assert failed: len(ani.frame_delays) == len(ani.frames)"
          else build_animation_pairs get_frame_id conv [process_function] (ani.frames.zip ds)
      | some fd =>
        (conv fd).bind fun d =>
          build_animation_pairs get_frame_id (fun _ => .ok d) [process_function]
            (ani.frames.zip (ani.frames.map fun _ => fd))
    body.bind fun acc => append_byte acc (END_OF_ANIMATION_BYTE : ℤ)

/-! ### Tile store (`convert_metasprite.py`, class `Tileset`)

Tile buffers (`SmallTileData` = 64 bytes, `LargeTileData` = 256 bytes) are
`List Nat`.  The two intern dicts become functions `TileData → Option _`.

The flip/split helpers live in `_snes.py`, which is not among the provided
sources; they are modelled from the spec ("Four orientation variants
(identity, h-flip, v-flip, both) are content-derived from one canonical
buffer", tiles are row-major 8×8 / 16×16 pixel-index buffers, §4.1).  The
interning logic proved about below treats them as plain functions and does
not depend on their pixel-level behaviour. -/

abbrev TileData := List Nat

/-- Modelled from the spec: `hflip_tile` (`_snes.py` is not in the provided
sources).  Horizontal flip of a row-major 8×8 tile: reverse each row. -/
def hflip_tile (t : TileData) : TileData :=
  (List.range 8).flatMap fun y => (List.range 8).map fun x => t.getD (y * 8 + (7 - x)) 0

/-- Modelled from the spec: `vflip_tile`.  Vertical flip of a row-major 8×8
tile: reverse the order of the rows. -/
def vflip_tile (t : TileData) : TileData :=
  (List.range 8).flatMap fun y => (List.range 8).map fun x => t.getD ((7 - y) * 8 + x) 0

/-- Modelled from the spec: `hflip_large_tile` (16×16, 256 bytes). -/
def hflip_large_tile (t : TileData) : TileData :=
  (List.range 16).flatMap fun y => (List.range 16).map fun x => t.getD (y * 16 + (15 - x)) 0

/-- Modelled from the spec: `vflip_large_tile` (16×16, 256 bytes). -/
def vflip_large_tile (t : TileData) : TileData :=
  (List.range 16).flatMap fun y => (List.range 16).map fun x => t.getD ((15 - y) * 16 + x) 0

/-- Modelled from the spec: `split_large_tile`, cutting a 16×16 tile into its
four 8×8 quadrants (top-left, top-right, bottom-left, bottom-right; §4.1's
"packed four-to-a-large-tile-cell in row-major 2×2 sub-placement"). -/
def split_large_tile (t : TileData) : TileData × TileData × TileData × TileData :=
  let quad := fun (qy qx : Nat) =>
    (List.range 8).flatMap fun y =>
      (List.range 8).map fun x => t.getD ((qy * 8 + y) * 16 + (qx * 8 + x)) 0
  (quad 0 0, quad 0 1, quad 1 0, quad 1 1)

def TileMap := TileData → Option (Nat × Bool × Bool)

/-- Python dict assignment `m[k] = v` (in the code below it is only reached
when `k` is not yet a key, so plain functional override is exact). -/
def dict_set (m : TileMap) (k : TileData) (v : Nat × Bool × Bool) : TileMap :=
  fun k' => if k' = k then some v else m k'

/-- Python `m.setdefault(k, v)`. -/
def dict_setdefault (m : TileMap) (k : TileData) (v : Nat × Bool × Bool) : TileMap :=
  match m k with
  | some _ => m
  | Option.none => dict_set m k v

structure Tileset where
  starting_tile : Nat
  max_tiles : Nat
  tiles : List (Option TileData)
  large_tile_pos : Nat
  small_tile_pos : Nat
  small_tile_offset : Nat
  small_tiles_map : TileMap
  large_tiles_map : TileMap

/-- `Tileset.__init__` (the `assert`s on the arguments are preconditions of
the constructor, not behaviour of the interning operations). -/
def Tileset.init (starting_tile end_tile : Nat) : Tileset :=
  { starting_tile := starting_tile
    max_tiles := end_tile - starting_tile
    tiles := List.replicate 0x20 Option.none
    large_tile_pos := 0
    small_tile_pos := 4
    small_tile_offset := 0
    small_tiles_map := fun _ => Option.none
    large_tiles_map := fun _ => Option.none }

def Tileset._allocate_large_tile (s : Tileset) : Tileset × Nat :=
  let tile_pos := s.large_tile_pos
  let p := s.large_tile_pos + 2
  if p % 0x10 = 0 then
    ({ s with large_tile_pos := p + 0x10,
              tiles := s.tiles ++ List.replicate 0x20 Option.none }, tile_pos)
  else
    ({ s with large_tile_pos := p }, tile_pos)

def _SMALL_TILE_OFFSETS : List Nat := [0x00, 0x01, 0x10, 0x11]

def Tileset._allocate_small_tile (s : Tileset) : Tileset × Nat :=
  let s :=
    if 4 ≤ s.small_tile_pos then
      let t := { s with small_tile_pos := 0 }._allocate_large_tile
      { t.1 with small_tile_offset := t.2 }
    else s
  let tile_pos := s.small_tile_offset + _SMALL_TILE_OFFSETS.getD s.small_tile_pos 0
  ({ s with small_tile_pos := s.small_tile_pos + 1 }, tile_pos)

def Tileset.add_small_tile (s : Tileset) (tile_data : TileData) : Tileset × Nat :=
  let t := s._allocate_small_tile
  ({ t.1 with tiles := t.1.tiles.set t.2 (some tile_data) }, t.2 + s.starting_tile)

def Tileset.add_large_tile (s : Tileset) (tile_data : TileData) : Tileset × Nat :=
  let q := split_large_tile tile_data
  let t := s._allocate_large_tile
  ({ t.1 with tiles :=
      (((t.1.tiles.set t.2 (some q.1)).set (t.2 + 0x01) (some q.2.1)).set
        (t.2 + 0x10) (some q.2.2.1)).set (t.2 + 0x11) (some q.2.2.2) },
   t.2 + s.starting_tile)

def Tileset.add_or_get_small_tile (s : Tileset) (tile_data : TileData) :
    Tileset × (Nat × Bool × Bool) :=
  match s.small_tiles_map tile_data with
  | some m => (s, m)
  | Option.none =>
    let a := s.add_small_tile tile_data
    let s1 := a.1
    let tile_id := a.2
    let m := (tile_id, false, false)
    let h_tile_data := hflip_tile tile_data
    let v_tile_data := vflip_tile tile_data
    let hv_tile_data := vflip_tile h_tile_data
    let m1 := dict_set s1.small_tiles_map tile_data m
    let m2 := dict_setdefault m1 h_tile_data (tile_id, true, false)
    let m3 := dict_setdefault m2 v_tile_data (tile_id, false, true)
    let m4 := dict_setdefault m3 hv_tile_data (tile_id, true, true)
    ({ s1 with small_tiles_map := m4 }, m)

def Tileset.add_or_get_large_tile (s : Tileset) (tile_data : TileData) :
    Tileset × (Nat × Bool × Bool) :=
  match s.large_tiles_map tile_data with
  | some m => (s, m)
  | Option.none =>
    let a := s.add_large_tile tile_data
    let s1 := a.1
    let tile_id := a.2
    let m := (tile_id, false, false)
    let h_tile_data := hflip_large_tile tile_data
    let v_tile_data := vflip_large_tile tile_data
    let hv_tile_data := vflip_large_tile h_tile_data
    let m1 := dict_set s1.large_tiles_map tile_data m
    let m2 := dict_setdefault m1 h_tile_data (tile_id, true, false)
    let m3 := dict_setdefault m2 v_tile_data (tile_id, false, true)
    let m4 := dict_setdefault m3 hv_tile_data (tile_id, true, true)
    ({ s1 with large_tiles_map := m4 }, m)

/-- Sequentially `setdefault` a list of key/value pairs (the three flipped
derivatives registered by one intern, in registration order). -/
def setdefault_list (m : TileMap) : List (TileData × (Nat × Bool × Bool)) → TileMap
  | [] => m
  | (k, v) :: rest => setdefault_list (dict_setdefault m k v) rest

/-- The "first writer wins" value a freshly-interned tile's flipped variant
resolves to: an entry registered by an earlier intern (`pre`) wins; otherwise
the earliest same-intern registration for the same buffer (the canonical
buffer first, then the h/v variants, in registration order) wins; otherwise
the variant gets its own intended `(id, flips)` value. -/
def variant_result (pre : TileMap) (earlier : List (TileData × (Nat × Bool × Bool)))
    (k : TileData) (v : Nat × Bool × Bool) : Nat × Bool × Bool :=
  match pre k with
  | some e => e
  | Option.none =>
    match earlier.lookup k with
    | some e => e
    | Option.none => v

/-! ### MsFs intermediate text format (`convert_metasprite.py`,
`msfs_entries_to_text` / `text_to_msfs_entries`)

Python strings are `List Char`; byte strings are `List Nat`.  `split_char`
is Python's `str.split(sep)` for a one-character separator (keeping empty
pieces), `join_char` is `sep.join`. -/

structure MsFsEntry where
  fullname : List Char
  ms_export_order : List Char
  header : List Nat
  pattern : List Char
  frames : List (List Nat)
  animations : List (List Nat)
deriving DecidableEq

def hex_digit (n : Nat) : Char :=
  if n < 10 then Char.ofNat (48 + n) else Char.ofNat (87 + n)

/-- `bytes.hex()` of a single byte: two lowercase hex digits. -/
def byte_hex (b : Nat) : List Char := [hex_digit (b / 16), hex_digit (b % 16)]

/-- `bytes.hex()`. -/
def bytes_hex (bs : List Nat) : List Char := bs.flatMap byte_hex

def hex_digit_val (c : Char) : Option Nat :=
  if 48 ≤ c.toNat ∧ c.toNat ≤ 57 then some (c.toNat - 48)
  else if 97 ≤ c.toNat ∧ c.toNat ≤ 102 then some (c.toNat - 87)
  else if 65 ≤ c.toNat ∧ c.toNat ≤ 70 then some (c.toNat - 55)
  else Option.none

/-- `bytes.fromhex` on a string containing no whitespace: pairs of hex
digits; odd length or a non-hex character raises `ValueError` (`none`). -/
def bytes_fromhex : List Char → Option (List Nat)
  | [] => some []
  | c1 :: c2 :: rest =>
    match hex_digit_val c1, hex_digit_val c2, bytes_fromhex rest with
    | some h, some l, some bs => some ((h * 16 + l) :: bs)
    | _, _, _ => Option.none
  | [_] => Option.none

/-- Python `s.split(c)` for a single-character separator: empty pieces are
kept and the result is never empty. -/
def split_char (c : Char) : List Char → List (List Char)
  | [] => [[]]
  | x :: xs =>
    match split_char c xs with
    | [] => [[]]
    | r :: rs => if x = c then [] :: r :: rs else (x :: r) :: rs

/-- Python `c.join(xs)` for a single-character separator. -/
def join_char (c : Char) (xs : List (List Char)) : List Char :=
  List.intercalate [c] xs

/-- `msfs_entries_to_text`: one line per entry, fields space-separated,
hex blobs comma-separated, each line terminated by a newline. -/
def msfs_entries_to_text (msfs_entries : List MsFsEntry) : List Char :=
  msfs_entries.flatMap fun entry =>
    let frames := join_char ',' (entry.frames.map bytes_hex)
    let animations := join_char ',' (entry.animations.map bytes_hex)
    entry.fullname ++ [' '] ++ entry.ms_export_order ++ [' '] ++
      bytes_hex entry.header ++ [' '] ++ entry.pattern ++ [' '] ++
      frames ++ [' '] ++ animations ++ ['\n']

/-- One loop iteration of `text_to_msfs_entries`: parse a single line
(without its line terminator). -/
def text_to_msfs_entry (line : List Char) : Option MsFsEntry :=
  match split_char ' ' line with
  | [f0, f1, f2, f3, f4, f5] =>
    match bytes_fromhex f2, (split_char ',' f4).mapM bytes_fromhex,
        (split_char ',' f5).mapM bytes_fromhex with
    | some header, some frames, some animations =>
      some { fullname := f0, ms_export_order := f1, header := header,
             pattern := f3, frames := frames, animations := animations }
    | _, _, _ => Option.none
  | _ => Option.none

/-- `text_to_msfs_entries` over an iterator of lines. -/
def text_to_msfs_entries (line_iterator : List (List Char)) : Option (List MsFsEntry) :=
  line_iterator.mapM text_to_msfs_entry

/-- The lines of a text, without their line terminators (how a text written
by `msfs_entries_to_text` is iterated when read back). -/
def text_lines (t : List Char) : List (List Char) :=
  let p := split_char '\n' t
  if p.getLastD [] = [] then p.dropLast else p

/-! ### Pattern matcher (`convert_metasprite.py`,
`test_pattern_grid` / `find_best_pattern`)

The frame image together with `is_small_tile_not_transparent` (from the
out-of-tree `_snes.py`) enters `find_best_pattern` only through the boolean
occupancy of each 8×8 cell, so the image is modelled as the occupancy
function `occ : Nat → Nat → Bool` of its pixel coordinates. -/

structure MsPatternObject where
  xpos : Int
  ypos : Int
  size : Nat
deriving DecidableEq

/-- `MsPattern` (`_json_formats.py`); the `name` field is never inspected by
the embedded functions and is omitted. -/
structure MsPattern where
  id : Nat
  objects : List MsPatternObject
deriving DecidableEq

structure PatternGrid where
  tile_count : Nat
  width : Nat
  height : Nat
  data : List Bool
  pattern : Option MsPattern
deriving DecidableEq

/-- The cells `(x, y)` of a `height × width` grid in the scan order of the
nested `for y: for x:` loops. -/
def cellList (height width : Nat) : List (Nat × Nat) :=
  (List.range height).flatMap fun y => (List.range width).map fun x => (x, y)

/-- The loop of `test_pattern_grid`: `none` models the early
`return False, -1`; otherwise the final `(n_matches, n_unused_tiles)`. -/
def test_pattern_grid_loop (p_grid i_grid : PatternGrid) (x_offset y_offset : Nat) :
    List (Nat × Nat) → Nat → Nat → Option (Nat × Nat)
  | [], n_matches, n_unused => some (n_matches, n_unused)
  | c :: rest, n_matches, n_unused =>
    let p_tile := p_grid.data.getD (c.2 * p_grid.width + c.1) false
    let i_tile := i_grid.data.getD ((c.2 + y_offset) * i_grid.width + (c.1 + x_offset)) false
    if i_tile then
      if p_tile then
        test_pattern_grid_loop p_grid i_grid x_offset y_offset rest (n_matches + 1) n_unused
      else Option.none
    else
      if p_tile then
        test_pattern_grid_loop p_grid i_grid x_offset y_offset rest n_matches (n_unused + 1)
      else
        test_pattern_grid_loop p_grid i_grid x_offset y_offset rest n_matches n_unused

def test_pattern_grid (p_grid i_grid : PatternGrid) (x_offset y_offset : Nat) :
    Bool × Int :=
  match test_pattern_grid_loop p_grid i_grid x_offset y_offset
      (cellList p_grid.height p_grid.width) 0 0 with
  | Option.none => (false, -1)
  | some r => (r.1 == i_grid.tile_count, (r.2 : Int))

/-- The image grid built at the top of `find_best_pattern`
(`i_grid_data` / `i_grid`). -/
def frame_i_grid (occ : Nat → Nat → Bool) (x_offset y_offset frame_width frame_height : Nat) :
    PatternGrid :=
  let i_grid_data :=
    (List.range (frame_height / 8)).flatMap fun ry =>
      (List.range (frame_width / 8)).map fun rx =>
        occ (x_offset + 8 * rx) (y_offset + 8 * ry)
  { tile_count := i_grid_data.count true
    width := frame_width / 8
    height := frame_height / 8
    data := i_grid_data
    pattern := Option.none }

/-- The `(p_grid, x, y)` triples visited by the three nested loops of the
search, in visit order (patterns in catalogue order; for each, offsets in
row-major order).  A pattern failing the tile-count / bounding-box
pre-filter contributes no triples. -/
def find_best_pattern_candidates (pattern_grids : List PatternGrid)
    (i_grid : PatternGrid) : List (PatternGrid × Nat × Nat) :=
  pattern_grids.flatMap fun p_grid =>
    if i_grid.tile_count ≤ p_grid.tile_count ∧ p_grid.width ≤ i_grid.width ∧
        p_grid.height ≤ i_grid.height then
      (List.range (i_grid.height - p_grid.height + 1)).flatMap fun y =>
        (List.range (i_grid.width - p_grid.width + 1)).map fun x => (p_grid, x, y)
    else []

/-- The accumulator of the search:
`(best_n_unused_tiles, best_pattern, best_x, best_y)`. -/
def find_best_pattern_fold (i_grid : PatternGrid)
    (cands : List (PatternGrid × Nat × Nat)) : Int × Option MsPattern × Nat × Nat :=
  cands.foldl
    (fun best c =>
      let r := test_pattern_grid c.1 i_grid c.2.1 c.2.2
      if r.1 = true ∧ r.2 < best.1 then (r.2, c.1.pattern, c.2.1 * 8, c.2.2 * 8)
      else best)
    (0xffff, Option.none, 0, 0)

def cannot_find_pattern_msg (x_offset y_offset : Nat) : String :=
  s!"Cannot find pattern for frame at ({ x_offset }, { y_offset }).  (NOTE: Only the first colour in the palette image is considered transparent)"

def find_best_pattern (occ : Nat → Nat → Bool) (pattern_grids : List PatternGrid)
    (x_offset y_offset frame_width frame_height : Nat) :
    Except String (MsPattern × Nat × Nat) :=
  if frame_width % 8 ≠ 0 ∨ frame_height % 8 ≠ 0 then
    .error "find_best_pattern only works with frames that are a multiple of 8 in width and height"
  else
    let i_grid := frame_i_grid occ x_offset y_offset frame_width frame_height
    let best := find_best_pattern_fold i_grid (find_best_pattern_candidates pattern_grids i_grid)
    match best.2.1 with
    | Option.none => .error (cannot_find_pattern_msg x_offset y_offset)
    | some p => .ok (p, best.2.2.1, best.2.2.2)

/-! Specification-side notions for the pattern matcher (the claim's
vocabulary, to be proved equivalent to what the code computes). -/

/-- Cell `(x, y)` of a grid is occupied. -/
def OccCell (g : PatternGrid) (x y : Nat) : Bool :=
  g.data.getD (y * g.width + x) false

/-- The claim's notion of a valid placement of pattern grid `p_grid` over
image grid `i_grid` at (cell) offset `(xo, yo)`: the pattern window is in
bounds, and every occupied image cell falls inside the window on an occupied
pattern cell. -/
def ValidPlacement (p_grid i_grid : PatternGrid) (xo yo : Nat) : Prop :=
  xo + p_grid.width ≤ i_grid.width ∧ yo + p_grid.height ≤ i_grid.height ∧
  ∀ cx cy, cx < i_grid.width → cy < i_grid.height → OccCell i_grid cx cy = true →
    xo ≤ cx ∧ cx < xo + p_grid.width ∧ yo ≤ cy ∧ cy < yo + p_grid.height ∧
    OccCell p_grid (cx - xo) (cy - yo) = true

/-- The claim's notion of waste: the number of pattern cells whose image
cell is unoccupied. -/
def Waste (p_grid i_grid : PatternGrid) (xo yo : Nat) : Nat :=
  (cellList p_grid.height p_grid.width).countP fun c =>
    OccCell p_grid c.1 c.2 && !OccCell i_grid (c.1 + xo) (c.2 + yo)

/-- A default candidate triple (for positional access into the scan list). -/
def defaultCandidate : PatternGrid × Nat × Nat :=
  ({ tile_count := 0, width := 0, height := 0, data := [], pattern := Option.none }, 0, 0)

/-! Specification-side notions for the animation encoder (the claim's
vocabulary for the delay byte of each pair). -/

/-- The per-frame delay list an animation effectively uses: the fixed delay
repeated per frame, or the explicit per-frame list. -/
def delaysOf (ani : MsAnimation) : Option (List ℚ) :=
  match ani.fixed_delay with
  | some fd => some (ani.frames.map fun _ => fd)
  | Option.none => ani.frame_delays

def delay_byte_int (dt : DelayType) (d : ℚ) : ℤ :=
  match dt with
  | .none => 0
  | .frame => pyTrunc d
  | .distance_x => pyRound (d * 16)
  | .distance_y => pyRound (d * 16)
  | .distance_xy => pyRound (d * 16)

/-- The claim's delay byte: 0 for `none`, truncation for `frame`,
`round(d * 16)` for the distance policies. -/
def delay_byte (dt : DelayType) (d : ℚ) : Nat := (delay_byte_int dt d).toNat

/-- A delay value the policy accepts and that encodes into one byte. -/
def delay_ok (dt : DelayType) (d : ℚ) : Prop :=
  match dt with
  | .none => True
  | .frame => 0 ≤ pyTrunc d ∧ pyTrunc d < 256
  | .distance_x => 0 ≤ d ∧ d < 16 ∧ pyRound (d * 16) < 256
  | .distance_y => 0 ≤ d ∧ d < 16 ∧ pyRound (d * 16) < 256
  | .distance_xy => 0 ≤ d ∧ d < 16 ∧ pyRound (d * 16) < 256

/-! ### Concrete instances used by witnesses and counterexamples -/

/-- A memory map with `bank_start + bank_size = 0x10000` but a non-zero
`bank_start` (the LoRom shape, scaled down), one empty resource bank. -/
def riLoRomCex : ResourceInserter :=
  { address_to_rom_offset := fun a => a
    bank_start := 0xFF00
    bank_size := 0x100
    bank_offset := 0x80
    bank_positions := [0xFF00]
    view := fun _ => 0
    symNResourcesPerTypeTable := 0
    symResourceEntryTable := 0 }

/-- A HiRom-shaped memory map (`bank_start = 0`, `bank_size = 0x10000`),
two empty resource banks. -/
def riHiRomWitness : ResourceInserter :=
  { address_to_rom_offset := fun a => a
    bank_start := 0
    bank_size := 0x10000
    bank_offset := 0xC0
    bank_positions := [0, 0]
    view := fun _ => 0
    symNResourcesPerTypeTable := 0
    symResourceEntryTable := 0 }

/-- The state of `riHiRomWitness` after inserting one 1-byte blob. -/
def riHiRomWitnessAfter : ResourceInserter :=
  { riHiRomWitness with
    view := writeBytes riHiRomWitness.view
      (riHiRomWitness.address_to_rom_offset ((0xC0 <<< 16) : Nat)) [5]
    bank_positions := [1, 0] }

/-- The pattern-grid tile read by the `test_pattern_grid` loop at cell `c`. -/
def pTileAt (p : PatternGrid) (c : Nat × Nat) : Bool :=
  p.data.getD (c.2 * p.width + c.1) false

/-- The image-grid tile read by the `test_pattern_grid` loop at cell `c`
under offset `(xo, yo)`. -/
def iTileAt (i : PatternGrid) (xo yo : Nat) (c : Nat × Nat) : Bool :=
  i.data.getD ((c.2 + yo) * i.width + (c.1 + xo)) false

/-- The line written by `msfs_entries_to_text` for one entry, without its
terminating newline. -/
def msfs_line (entry : MsFsEntry) : List Char :=
  entry.fullname ++ [' '] ++ entry.ms_export_order ++ [' '] ++
    bytes_hex entry.header ++ [' '] ++ entry.pattern ++ [' '] ++
    join_char ',' (entry.frames.map bytes_hex) ++ [' '] ++
    join_char ',' (entry.animations.map bytes_hex)

/-- The 5-byte resource table record written by `insert_resources`:
3-byte little-endian address followed by 2-byte little-endian size. -/
def resource_entry_bytes (addr size : Nat) : List Nat :=
  [addr % 256, (addr >>> 8) % 256, addr >>> 16, size % 256, size >>> 8]

/-! ## Part 2: theorems

### Shared list/arithmetic helper lemmas -/

theorem list_getD_set_self {α : Type} (l : List α) (i : Nat) (v d : α)
    (h : i < l.length) : (l.set i v).getD i d = v := by
  simp [List.getD_eq_getElem?_getD, List.getElem?_set_self, h]

theorem list_getD_set_ne {α : Type} (l : List α) (i j : Nat) (v d : α)
    (h : i ≠ j) : (l.set i v).getD j d = l.getD j d := by
  simp [List.getD_eq_getElem?_getD, List.getElem?_set_ne h]

theorem find?_range_spec :
    ∀ (n : Nat) (p : Nat → Bool) (i : Nat), (List.range n).find? p = some i →
      i < n ∧ p i = true ∧ ∀ j, j < i → p j = false := by
  intro n
  induction n with
  | zero => intro p i h; simp [List.range_zero] at h
  | succ n ih =>
    intro p i h
    rw [List.range_succ_eq_map] at h
    rw [List.find?_cons] at h
    cases hp : p 0 with
    | true =>
      rw [hp] at h
      simp at h
      subst h
      exact ⟨Nat.succ_pos n, hp, fun j hj => absurd hj (Nat.not_lt_zero j)⟩
    | false =>
      rw [hp] at h
      simp only at h
      rw [List.find?_map] at h
      cases hfind : (List.range n).find? (p ∘ Nat.succ) with
      | none => rw [hfind] at h; simp at h
      | some i' =>
        rw [hfind] at h
        obtain ⟨hi', hpi', hprev⟩ := ih (p ∘ Nat.succ) i' hfind
        have h' : some (Nat.succ i') = some i := h
        have hii : i = i' + 1 := (Option.some.inj h').symm
        subst hii
        refine ⟨Nat.succ_lt_succ hi', hpi', ?_⟩
        intro j hj
        cases j with
        | zero => exact hp
        | succ k => exact hprev k (Nat.lt_of_succ_lt_succ hj)

theorem shiftLeft16_add_shiftRight (b r : Nat) (h : r < 0x10000) :
    ((b <<< 16) + r) >>> 16 = b := by
  rw [Nat.shiftLeft_eq, Nat.shiftRight_eq_div_pow]
  have : (2 : Nat) ^ 16 = 65536 := by norm_num
  rw [this]
  rw [Nat.mul_comm]
  rw [Nat.mul_add_div (by norm_num)]
  omega

/-! ### C3: first-fit bank allocation -/

theorem insert_blob_seq_bank0 :
    ∀ (blobs : List (List Nat)) (s : ResourceInserter),
      0 < s.bank_positions.length →
      (∀ b ∈ blobs, 0 < b.length) →
      (blobs.map List.length).sum ≤ s.bank_size →
      s.bank_positions.getD 0 0 + (blobs.map List.length).sum ≤ BANK_END →
      ∃ s' addrs, s.insert_blob_seq blobs = .ok (s', addrs) ∧
        (∀ a ∈ addrs, a >>> 16 = s.bank_offset) ∧
        s'.bank_offset = s.bank_offset ∧
        s'.bank_size = s.bank_size ∧
        s'.bank_positions.length = s.bank_positions.length ∧
        s'.bank_positions.getD 0 0 = s.bank_positions.getD 0 0 + (blobs.map List.length).sum := by
  intro blobs
  induction blobs with
  | nil =>
    intro s _ _ _ _
    exact ⟨s, [], rfl, by simp, rfl, rfl, rfl, by simp⟩
  | cons b bs ih =>
    intro s hn hpos hsum hfit
    simp only [List.map_cons, List.sum_cons] at hsum hfit
    have hb : 0 < b.length := hpos b (List.mem_cons_self b bs)
    have hbs : b.length ≤ s.bank_size := by omega
    have hfit0 : s.bank_positions.getD 0 0 + b.length ≤ BANK_END := by omega
    -- the first bank already fits, so `find?` returns index 0
    obtain ⟨m, hm⟩ : ∃ m, s.bank_positions.length = m + 1 :=
      ⟨s.bank_positions.length - 1, by omega⟩
    have hfind : (List.range s.bank_positions.length).find?
        (fun i => s.bank_positions.getD i 0 + b.length ≤ BANK_END) = some 0 := by
      rw [hm, List.range_succ_eq_map]
      exact List.find?_cons_of_pos _ (decide_eq_true hfit0)
    have hstep : s.insert_blob b = .ok
        ({ s with
            view := writeBytes s.view
              (s.address_to_rom_offset ((s.bank_offset <<< 16) + s.bank_positions.getD 0 0)) b,
            bank_positions :=
              s.bank_positions.set 0 (s.bank_positions.getD 0 0 + b.length) },
          (s.bank_offset <<< 16) + s.bank_positions.getD 0 0) := by
      unfold ResourceInserter.insert_blob
      rw [if_neg (by simp [hb, hbs]), hfind]
      simp
    set s1 : ResourceInserter :=
      { s with
          view := writeBytes s.view
            (s.address_to_rom_offset ((s.bank_offset <<< 16) + s.bank_positions.getD 0 0)) b,
          bank_positions :=
            s.bank_positions.set 0 (s.bank_positions.getD 0 0 + b.length) } with hs1
    have hn1 : 0 < s1.bank_positions.length := by
      simp [hs1]; omega
    have hget1 : s1.bank_positions.getD 0 0 = s.bank_positions.getD 0 0 + b.length := by
      have h0 : (0 : Nat) < s.bank_positions.length := hn
      simp [hs1, List.getD_eq_getElem?_getD, List.getElem?_set_self h0]
    have hsum1 : (bs.map List.length).sum ≤ s1.bank_size := by
      simp [hs1]; omega
    have hfit1 : s1.bank_positions.getD 0 0 + (bs.map List.length).sum ≤ BANK_END := by
      rw [hget1]; omega
    obtain ⟨s', addrs, hseq, haddrs, hboff, hbsize, hblen, hbpos⟩ :=
      ih s1 hn1 (fun x hx => hpos x (List.mem_cons_of_mem b hx)) hsum1 hfit1
    refine ⟨s', ((s.bank_offset <<< 16) + s.bank_positions.getD 0 0) :: addrs, ?_, ?_, ?_, ?_, ?_, ?_⟩
    · simp only [ResourceInserter.insert_blob_seq, hstep, hseq]
    · intro a ha
      rcases List.mem_cons.mp ha with rfl | ha
      · have hr : s.bank_positions.getD 0 0 < 0x10000 := by
          have hbe : BANK_END = 0x10000 := rfl
          omega
        rw [shiftLeft16_add_shiftRight _ _ hr]
      · have := haddrs a ha
        rw [this]
    · rw [hboff]
    · rw [hbsize]
    · rw [hblen]; simp [hs1]
    · rw [hbpos, hget1]; simp only [List.map_cons, List.sum_cons]; omega

/-- C3: `insert_blob` uses strict first-fit: it places the blob at the
current cursor of the first bank (in index order) whose remaining capacity
reaches `BANK_END` after the blob, returning the corresponding address;
N blobs whose sizes sum to exactly one bank's capacity all land in bank 0 of
a fresh inserter; a blob larger than one bank is a fatal condition; and
`insert_blob_into_start_of_bank` fails whenever the target bank's cursor is
not at the bank origin. -/
theorem insert_blob_strict_first_fit (s : ResourceInserter) (blob : List Nat) :
    (s.bank_size < blob.length →
      s.insert_blob blob =
        .error "assert failed: blob_size > 0 and blob_size <= self.bank_size") ∧
    (∀ s' addr, s.insert_blob blob = .ok (s', addr) →
      ∃ i, i < s.bank_positions.length ∧
        s.bank_positions.getD i 0 + blob.length ≤ BANK_END ∧
        (∀ j, j < i → BANK_END < s.bank_positions.getD j 0 + blob.length) ∧
        addr = ((s.bank_offset + i) <<< 16) + s.bank_positions.getD i 0 ∧
        s'.bank_positions =
          s.bank_positions.set i (s.bank_positions.getD i 0 + blob.length)) ∧
    (∀ bank_id, 0 < blob.length → s.bank_positions.getD bank_id 0 ≠ s.bank_start →
      s.insert_blob_into_start_of_bank bank_id blob = .error "Bank is not empty") ∧
    (∀ blobs : List (List Nat),
      s.bank_start + s.bank_size = BANK_END →
      0 < s.bank_positions.length →
      s.bank_positions.getD 0 0 = s.bank_start →
      (∀ b ∈ blobs, 0 < b.length) →
      (blobs.map List.length).sum = s.bank_size →
      ∃ s' addrs, s.insert_blob_seq blobs = .ok (s', addrs) ∧
        ∀ a ∈ addrs, a >>> 16 = s.bank_offset) := by
  refine ⟨?_, ?_, ?_, ?_⟩
  · intro hbig
    simp only [ResourceInserter.insert_blob]
    rw [if_pos (by omega)]
  · intro s' addr h
    simp only [ResourceInserter.insert_blob] at h
    by_cases hc : 0 < blob.length ∧ blob.length ≤ s.bank_size
    · rw [if_neg (not_not_intro hc)] at h
      cases hfind : (List.range s.bank_positions.length).find?
          (fun i => s.bank_positions.getD i 0 + blob.length ≤ BANK_END) with
      | none => rw [hfind] at h; cases h
      | some i =>
        rw [hfind] at h
        obtain ⟨hi, hpi, hprev⟩ := find?_range_spec _ _ i hfind
        have h2 := Except.ok.inj h
        simp only [Prod.mk.injEq] at h2
        obtain ⟨hA, hB⟩ := h2
        refine ⟨i, hi, of_decide_eq_true hpi, ?_, hB.symm, ?_⟩
        · intro j hj
          have := of_decide_eq_false (hprev j hj)
          omega
        · rw [← hA]
    · rw [if_pos hc] at h
      cases h
  · intro bank_id hpos hne
    simp only [ResourceInserter.insert_blob_into_start_of_bank]
    rw [if_neg (not_not_intro hpos), if_pos hne]
  · intro blobs hbe hn hfresh hpos hsum
    obtain ⟨s', addrs, hseq, haddrs, _, _, _, _⟩ :=
      insert_blob_seq_bank0 blobs s hn hpos (le_of_eq hsum)
        (by rw [hfresh, hsum]; omega)
    exact ⟨s', addrs, hseq, haddrs⟩

/-- Witness for C3 at a concrete inserter: two one-byte blobs exactly filling
a two-byte bank both land in bank 0. -/
theorem insert_blob_strict_first_fit_witness :
    ∃ s' addrs,
      ({ address_to_rom_offset := fun a => a, bank_start := 0xFFFE, bank_size := 2,
         bank_offset := 0xC0, bank_positions := [0xFFFE, 0xFFFE], view := fun _ => 0,
         symNResourcesPerTypeTable := 0, symResourceEntryTable := 0 } :
           ResourceInserter).insert_blob_seq [[1], [2]] = .ok (s', addrs) ∧
      ∀ a ∈ addrs, a >>> 16 = 0xC0 :=
  (insert_blob_strict_first_fit
      { address_to_rom_offset := fun a => a, bank_start := 0xFFFE, bank_size := 2,
        bank_offset := 0xC0, bank_positions := [0xFFFE, 0xFFFE], view := fun _ => 0,
        symNResourcesPerTypeTable := 0, symResourceEntryTable := 0 } [7]).2.2.2
    [[1], [2]] (by decide) (by decide) (by decide) (by decide) (by decide)

/-! ### C5: cursor monotonicity and capacity -/

theorem insert_blob_ok_shape (s : ResourceInserter) (b : List Nat)
    (s' : ResourceInserter) (addr : Nat) (h : s.insert_blob b = .ok (s', addr)) :
    ∃ i, i < s.bank_positions.length ∧
      s.bank_positions.getD i 0 + b.length ≤ BANK_END ∧
      0 < b.length ∧ b.length ≤ s.bank_size ∧
      s'.bank_start = s.bank_start ∧ s'.bank_size = s.bank_size ∧
      s'.bank_offset = s.bank_offset ∧
      s'.bank_positions =
        s.bank_positions.set i (s.bank_positions.getD i 0 + b.length) := by
  simp only [ResourceInserter.insert_blob] at h
  by_cases hc : 0 < b.length ∧ b.length ≤ s.bank_size
  · rw [if_neg (not_not_intro hc)] at h
    cases hfind : (List.range s.bank_positions.length).find?
        (fun i => s.bank_positions.getD i 0 + b.length ≤ BANK_END) with
    | none => rw [hfind] at h; cases h
    | some i =>
      rw [hfind] at h
      obtain ⟨hi, hpi, _⟩ := find?_range_spec _ _ i hfind
      have h2 := Except.ok.inj h
      simp only [Prod.mk.injEq] at h2
      obtain ⟨hA, _⟩ := h2
      exact ⟨i, hi, of_decide_eq_true hpi, hc.1, hc.2, by rw [← hA], by rw [← hA],
        by rw [← hA], by rw [← hA]⟩
  · rw [if_pos hc] at h
    cases h

theorem insert_start_ok_shape (s : ResourceInserter) (bank_id : Nat) (b : List Nat)
    (s' : ResourceInserter) (addr : Nat)
    (h : s.insert_blob_into_start_of_bank bank_id b = .ok (s', addr)) :
    0 < b.length ∧ b.length ≤ BANK_END ∧
    s.bank_positions.getD bank_id 0 = s.bank_start ∧
    s'.bank_start = s.bank_start ∧ s'.bank_size = s.bank_size ∧
    s'.bank_offset = s.bank_offset ∧
    s'.bank_positions = s.bank_positions.set bank_id (s.bank_start + b.length) := by
  simp only [ResourceInserter.insert_blob_into_start_of_bank] at h
  by_cases h1 : 0 < b.length
  · rw [if_neg (not_not_intro h1)] at h
    by_cases h2 : s.bank_positions.getD bank_id 0 ≠ s.bank_start
    · rw [if_pos h2] at h; cases h
    · rw [if_neg h2] at h
      push_neg at h2
      by_cases h3 : BANK_END < b.length
      · rw [if_pos h3] at h; cases h
      · rw [if_neg h3] at h
        have h4 := Except.ok.inj h
        simp only [Prod.mk.injEq] at h4
        obtain ⟨hA, _⟩ := h4
        refine ⟨h1, by omega, h2, by rw [← hA], by rw [← hA], by rw [← hA], ?_⟩
        rw [← hA, h2]
  · rw [if_pos h1] at h
    cases h

theorem riop_apply_step (op : RIOp) (s s' : ResourceInserter)
    (h : op.apply s = .ok s') :
    s'.bank_start = s.bank_start ∧ s'.bank_size = s.bank_size ∧
    (∀ i, s.bank_positions.getD i 0 ≤ s'.bank_positions.getD i 0) ∧
    (s.bank_start = 0 →
      (∀ i, s.bank_positions.getD i 0 ≤ 0x10000) →
      ∀ i, s'.bank_positions.getD i 0 ≤ 0x10000) := by
  cases op with
  | blob b =>
    simp only [RIOp.apply] at h
    cases hres : s.insert_blob b with
    | error e => rw [hres] at h; cases h
    | ok p =>
      rw [hres] at h
      have hs' : p.1 = s' := Except.ok.inj h
      obtain ⟨i, hi, hfit, hb, _, h1, h2, _, hpos⟩ := insert_blob_ok_shape s b p.1 p.2 hres
      subst hs'
      refine ⟨h1, h2, ?_, ?_⟩
      · intro j
        by_cases hij : i = j
        · subst hij
          rw [hpos, list_getD_set_self _ i _ 0 hi]
          omega
        · rw [hpos, list_getD_set_ne _ i j _ 0 hij]
      · intro _ hbound j
        by_cases hij : i = j
        · subst hij
          rw [hpos, list_getD_set_self _ i _ 0 hi]
          have : BANK_END = 0x10000 := rfl
          omega
        · rw [hpos, list_getD_set_ne _ i j _ 0 hij]
          exact hbound j
  | atStart bank_id b =>
    simp only [RIOp.apply] at h
    cases hres : s.insert_blob_into_start_of_bank bank_id b with
    | error e => rw [hres] at h; cases h
    | ok p =>
      rw [hres] at h
      have hs' : p.1 = s' := Except.ok.inj h
      obtain ⟨hb, hbe, hcur, h1, h2, _, hpos⟩ :=
        insert_start_ok_shape s bank_id b p.1 p.2 hres
      subst hs'
      refine ⟨h1, h2, ?_, ?_⟩
      · intro j
        by_cases hij : bank_id = j
        · subst hij
          by_cases hlen : bank_id < s.bank_positions.length
          · rw [hpos, list_getD_set_self _ bank_id _ 0 hlen, hcur]
            omega
          · rw [hpos, List.set_eq_of_length_le (by omega)]
        · rw [hpos, list_getD_set_ne _ bank_id j _ 0 hij]
      · intro hzero hbound j
        by_cases hij : bank_id = j
        · subst hij
          by_cases hlen : bank_id < s.bank_positions.length
          · rw [hpos, list_getD_set_self _ bank_id _ 0 hlen, hzero]
            have hbev : BANK_END = 0x10000 := rfl
            omega
          · rw [hpos, List.set_eq_of_length_le (by omega)]
            exact hbound bank_id
        · rw [hpos, list_getD_set_ne _ bank_id j _ 0 hij]
          exact hbound j

/-- C5 counterexample: on a map with `bank_start + bank_size = 0x10000` but
`bank_start = 0xFF00` (a LoRom-shaped map), a single non-raising
`insert_blob_into_start_of_bank` of a 0x200-byte blob leaves the bank's
cursor at 0x10100, past `bank_start + bank_size = 0x10000`: the capacity
half of the claim fails as stated.  (`insert_blob_into_start_of_bank`
compares the blob size against `BANK_END = 0x10000`, not against
`bank_size`.) -/
theorem riop_capacity_counterexample :
    (RIOp.applyList riLoRomCex [RIOp.atStart 0 (List.replicate 0x200 0)]).toOption.map
        (fun s => s.bank_positions.getD 0 0) = some 0x10100 ∧
    riLoRomCex.bank_start + riLoRomCex.bank_size = 0x10000 ∧
    0x10000 < 0x10100 := by
  refine ⟨by decide, rfl, by norm_num⟩

/-- C5 (amended): over any sequence of non-raising `insert_blob` /
`insert_blob_into_start_of_bank` operations, every bank cursor only
increases; and under the HiRom mapping the code assumes (`bank_start = 0`,
`bank_size = 0x10000`), no cursor ever passes `bank_start + bank_size`. -/
theorem riop_cursor_invariants :
    ∀ (ops : List RIOp) (s s' : ResourceInserter),
      RIOp.applyList s ops = .ok s' →
      (∀ i, s.bank_positions.getD i 0 ≤ s'.bank_positions.getD i 0) ∧
      (s.bank_start = 0 → s.bank_size = 0x10000 →
        (∀ i, s.bank_positions.getD i 0 ≤ s.bank_start + s.bank_size) →
        ∀ i, s'.bank_positions.getD i 0 ≤ s.bank_start + s.bank_size) := by
  intro ops
  induction ops with
  | nil =>
    intro s s' h
    have hs : s = s' := Except.ok.inj h
    subst hs
    exact ⟨fun i => le_refl _, fun _ _ hb i => hb i⟩
  | cons op rest ih =>
    intro s s' h
    simp only [RIOp.applyList] at h
    cases happ : op.apply s with
    | error e => rw [happ] at h; cases h
    | ok s1 =>
      rw [happ] at h
      obtain ⟨hst, hsz, hmono, hcap⟩ := riop_apply_step op s s1 happ
      obtain ⟨hmono', hcap'⟩ := ih s1 s' h
      refine ⟨fun i => le_trans (hmono i) (hmono' i), ?_⟩
      intro hzero hsize hbound i
      have hcap1 : ∀ j, s1.bank_positions.getD j 0 ≤ 0x10000 := by
        intro j
        exact hcap hzero (fun k => by have := hbound k; omega) j
      have := hcap' (by omega) (by omega) (fun j => by have := hcap1 j; omega) i
      omega

/-- Witness for C5 (amended) at a concrete HiRom inserter and a one-blob
sequence. -/
theorem riop_cursor_invariants_witness :
    (∀ i, riHiRomWitness.bank_positions.getD i 0 ≤
        riHiRomWitnessAfter.bank_positions.getD i 0) ∧
    (∀ i, riHiRomWitnessAfter.bank_positions.getD i 0 ≤
        riHiRomWitness.bank_start + riHiRomWitness.bank_size) := by
  have h := riop_cursor_invariants [RIOp.blob [5]] riHiRomWitness riHiRomWitnessAfter rfl
  refine ⟨h.1, h.2 rfl rfl ?_⟩
  intro i
  have h0 : riHiRomWitness.bank_positions.getD i 0 = 0 := by
    cases i with
    | zero => rfl
    | succ n =>
      cases n with
      | zero => rfl
      | succ m => rfl
  rw [h0]
  exact Nat.zero_le _

/-! ### C4: checksum finalizer -/

theorem xor_allones (k : Nat) : ∀ c, c < 2 ^ k → c + (c ^^^ (2 ^ k - 1)) = 2 ^ k - 1 := by
  induction k with
  | zero =>
    intro c hc
    have : c = 0 := by omega
    subst this
    rfl
  | succ k ih =>
    intro c hc
    have hd := Nat.bit_decomp c
    rw [← hd] at hc ⊢
    have h2 : (2 ^ (k + 1) - 1) = Nat.bit true (2 ^ k - 1) := by
      have h1 := Nat.two_pow_pos k
      rw [Nat.bit_val, pow_succ]
      simp only [Bool.toNat_true]
      omega
    rw [h2, Nat.xor_bit]
    have hlt : c.div2 < 2 ^ k := Nat.bit_lt_two_pow_succ_iff.mp hc
    have hih := ih c.div2 hlt
    cases hb : c.bodd with
    | true =>
      rw [show ((true : Bool) != true) = false from rfl]
      simp only [Nat.bit_val, Bool.toNat_true, Bool.toNat_false]
      omega
    | false =>
      rw [show ((false : Bool) != true) = true from rfl]
      simp only [Nat.bit_val, Bool.toNat_true, Bool.toNat_false]
      omega

theorem xor_ffff_complement (c : Nat) (h : c < 0x10000) :
    c + (c ^^^ 0xFFFF) = 0xFFFF := by
  have h16 : (2 : Nat) ^ 16 = 65536 := by norm_num
  have hx := xor_allones 16 c (by omega)
  rw [h16] at hx
  norm_num at hx ⊢
  omega

theorem sum_set_getD (v : Nat) :
    ∀ (l : List Nat) (i : Nat), i < l.length →
      (l.set i v).sum + l.getD i 0 = l.sum + v := by
  intro l
  induction l with
  | nil => intro i hi; simp at hi
  | cons a l ih =>
    intro i hi
    cases i with
    | zero => simp [List.getD]; omega
    | succ i =>
      have := ih i (by simpa using hi)
      simp only [List.set_cons_succ, List.sum_cons, List.getD_cons_succ]
      omega

theorem sum_take4_getD :
    ∀ (d : List Nat), 4 ≤ d.length →
      (d.take 4).sum = d.getD 0 0 + d.getD 1 0 + d.getD 2 0 + d.getD 3 0 := by
  intro d hd
  rcases d with _ | ⟨a, _ | ⟨b, _ | ⟨c, _ | ⟨e, rest⟩⟩⟩⟩ <;> simp at hd ⊢
  omega

theorem sum_header_slice (l : List Nat) (cs : Nat) (h : cs + 4 ≤ l.length) :
    ((l.drop cs).take 4).sum =
      l.getD cs 0 + l.getD (cs + 1) 0 + l.getD (cs + 2) 0 + l.getD (cs + 3) 0 := by
  have hd : 4 ≤ (l.drop cs).length := by
    rw [List.length_drop]
    omega
  rw [sum_take4_getD _ hd]
  have hg : ∀ j, (l.drop cs).getD j 0 = l.getD (cs + j) 0 := by
    intro j
    rw [List.getD_eq_getElem?_getD, List.getD_eq_getElem?_getD, List.getElem?_drop]
  rw [hg 0, hg 1, hg 2, hg 3, Nat.add_zero]

theorem slice_sum_le_sum (l : List Nat) (cs : Nat) :
    ((l.drop cs).take 4).sum ≤ l.sum := by
  have h1 : ((l.drop cs).take 4).sum + ((l.drop cs).drop 4).sum = (l.drop cs).sum :=
    List.sum_take_add_sum_drop _ _
  have h2 : (l.take cs).sum + (l.drop cs).sum = l.sum :=
    List.sum_take_add_sum_drop _ _
  omega

theorem list_set_getElem_eq_self :
    ∀ (l : List Nat) (i v : Nat), l[i]? = some v → l.set i v = l := by
  intro l
  induction l with
  | nil => intro i v h; simp at h
  | cons a l ih =>
    intro i v h
    cases i with
    | zero => simp at h; simp [h]
    | succ i =>
      simp only [List.getElem?_cons_succ] at h
      simp [ih i v h]

theorem getElem?_eq_some_getD (l : List Nat) (i : Nat) (h : i < l.length) :
    l[i]? = some (l.getD i 0) := by
  rw [List.getD_eq_getElem?_getD]
  cases hx : l[i]? with
  | none =>
    have := List.getElem?_eq_none_iff.mp hx
    omega
  | some v => rfl

/-- C4: `update_checksum` rejects images whose length is not a multiple of
the bank size or not a power of two (returning an error, the image
untouched); otherwise it writes complement then checksum as little-endian
byte pairs at the header offset, where
`checksum = (sum - header4 + 0x1FE) % 2^16` and
`complement = checksum ^^^ 0xFFFF` (so `checksum + complement = 0xFFFF`),
and a second application leaves the image unchanged. -/
theorem update_checksum_spec (sfc : List Nat) (bank_size cs : Nat)
    (hcs : cs + 4 ≤ bank_size) :
    (sfc.length % bank_size ≠ 0 ∨ bit_count sfc.length ≠ 1 →
      ∃ e, update_checksum sfc bank_size cs = .error e) ∧
    (sfc.length % bank_size = 0 → bit_count sfc.length = 1 →
      ∃ out, update_checksum sfc bank_size cs = .ok out ∧
        out.length = sfc.length ∧
        (out.getD cs 0 =
            (((sfc.sum - ((sfc.drop cs).take 4).sum + 0x1FE) % 0x10000) ^^^ 0xFFFF) % 256 ∧
         out.getD (cs + 1) 0 =
            (((sfc.sum - ((sfc.drop cs).take 4).sum + 0x1FE) % 0x10000) ^^^ 0xFFFF) / 256 ∧
         out.getD (cs + 2) 0 =
            ((sfc.sum - ((sfc.drop cs).take 4).sum + 0x1FE) % 0x10000) % 256 ∧
         out.getD (cs + 3) 0 =
            ((sfc.sum - ((sfc.drop cs).take 4).sum + 0x1FE) % 0x10000) / 256 ∧
         ((sfc.sum - ((sfc.drop cs).take 4).sum + 0x1FE) % 0x10000) +
            (((sfc.sum - ((sfc.drop cs).take 4).sum + 0x1FE) % 0x10000) ^^^ 0xFFFF) =
            0xFFFF) ∧
        update_checksum out bank_size cs = .ok out) := by
  constructor
  · intro h
    simp only [update_checksum]
    by_cases h1 : sfc.length % bank_size ≠ 0
    · rw [if_pos h1]
      exact ⟨_, rfl⟩
    · rw [if_neg h1]
      have h2 : bit_count sfc.length ≠ 1 := by tauto
      rw [if_pos h2]
      exact ⟨_, rfl⟩
  · intro h1 h2
    have hlen_pos : 0 < sfc.length := by
      by_contra h
      have h0 : sfc.length = 0 := by omega
      rw [h0] at h2
      simp [bit_count] at h2
    have hbs_pos : 0 < bank_size := by
      by_contra h
      have hb0 : bank_size = 0 := by omega
      rw [hb0, Nat.mod_zero] at h1
      omega
    have hbs_le : bank_size ≤ sfc.length :=
      Nat.le_of_dvd hlen_pos (Nat.dvd_of_mod_eq_zero h1)
    have hcs4 : cs + 4 ≤ sfc.length := by omega
    have hHle : ((sfc.drop cs).take 4).sum ≤ sfc.sum := slice_sum_le_sum sfc cs
    -- code-side checksum and complement values
    have hc510 : sfc.sum - ((sfc.drop cs).take 4).sum + 0xFF + 0xFF =
        sfc.sum - ((sfc.drop cs).take 4).sum + 0x1FE := by omega
    set c := (sfc.sum - ((sfc.drop cs).take 4).sum + 0x1FE) % 0x10000 with hcdef
    set comp := c ^^^ 0xFFFF with hcompdef
    set out := (((sfc.set cs (comp % 256)).set (cs + 1) (comp / 256)).set
        (cs + 2) (c % 256)).set (cs + 3) (c / 256) with houtdef
    have hstep : update_checksum sfc bank_size cs = .ok out := by
      simp only [update_checksum]
      rw [if_neg (not_not_intro h1), if_neg (not_not_intro h2), hc510]
    have hlout : out.length = sfc.length := by
      simp [houtdef, List.length_set]
    have hg0 : out.getD cs 0 = comp % 256 := by
      rw [houtdef,
        list_getD_set_ne _ (cs + 3) cs _ 0 (by omega),
        list_getD_set_ne _ (cs + 2) cs _ 0 (by omega),
        list_getD_set_ne _ (cs + 1) cs _ 0 (by omega),
        list_getD_set_self _ cs _ 0 (by omega)]
    have hg1 : out.getD (cs + 1) 0 = comp / 256 := by
      rw [houtdef,
        list_getD_set_ne _ (cs + 3) (cs + 1) _ 0 (by omega),
        list_getD_set_ne _ (cs + 2) (cs + 1) _ 0 (by omega),
        list_getD_set_self _ (cs + 1) _ 0 (by simp [List.length_set]; omega)]
    have hg2 : out.getD (cs + 2) 0 = c % 256 := by
      rw [houtdef,
        list_getD_set_ne _ (cs + 3) (cs + 2) _ 0 (by omega),
        list_getD_set_self _ (cs + 2) _ 0 (by simp [List.length_set]; omega)]
    have hg3 : out.getD (cs + 3) 0 = c / 256 := by
      rw [houtdef,
        list_getD_set_self _ (cs + 3) _ 0 (by simp [List.length_set]; omega)]
    have hclt : c < 0x10000 := Nat.mod_lt _ (by norm_num)
    have hxor : c + comp = 0xFFFF := xor_ffff_complement c hclt
    -- sums: out.sum + (old header bytes) = sfc.sum + (new header bytes)
    have hs0 := sum_set_getD (comp % 256) sfc cs (by omega)
    have hne01 : (sfc.set cs (comp % 256)).getD (cs + 1) 0 = sfc.getD (cs + 1) 0 :=
      list_getD_set_ne _ cs (cs + 1) _ 0 (by omega)
    have hs1 := sum_set_getD (comp / 256) (sfc.set cs (comp % 256)) (cs + 1)
      (by simp [List.length_set]; omega)
    have hne02 : ((sfc.set cs (comp % 256)).set (cs + 1) (comp / 256)).getD (cs + 2) 0 =
        sfc.getD (cs + 2) 0 := by
      rw [list_getD_set_ne _ (cs + 1) (cs + 2) _ 0 (by omega),
        list_getD_set_ne _ cs (cs + 2) _ 0 (by omega)]
    have hs2 := sum_set_getD (c % 256) ((sfc.set cs (comp % 256)).set (cs + 1) (comp / 256))
      (cs + 2) (by simp [List.length_set]; omega)
    have hne03 : (((sfc.set cs (comp % 256)).set (cs + 1) (comp / 256)).set
        (cs + 2) (c % 256)).getD (cs + 3) 0 = sfc.getD (cs + 3) 0 := by
      rw [list_getD_set_ne _ (cs + 2) (cs + 3) _ 0 (by omega),
        list_getD_set_ne _ (cs + 1) (cs + 3) _ 0 (by omega),
        list_getD_set_ne _ cs (cs + 3) _ 0 (by omega)]
    have hs3 := sum_set_getD (c / 256) (((sfc.set cs (comp % 256)).set
        (cs + 1) (comp / 256)).set (cs + 2) (c % 256)) (cs + 3)
      (by simp [List.length_set]; omega)
    rw [hne01] at hs1
    rw [hne02] at hs2
    rw [hne03] at hs3
    have hHold : ((sfc.drop cs).take 4).sum =
        sfc.getD cs 0 + sfc.getD (cs + 1) 0 + sfc.getD (cs + 2) 0 + sfc.getD (cs + 3) 0 :=
      sum_header_slice sfc cs hcs4
    have hHnew : ((out.drop cs).take 4).sum =
        comp % 256 + comp / 256 + c % 256 + c / 256 := by
      rw [sum_header_slice out cs (by omega), hg0, hg1, hg2, hg3]
    have hsum_out : out.sum + (sfc.getD cs 0 + sfc.getD (cs + 1) 0 +
        sfc.getD (cs + 2) 0 + sfc.getD (cs + 3) 0) =
        sfc.sum + (comp % 256 + comp / 256 + c % 256 + c / 256) := by
      rw [houtdef]
      omega
    have hHnew_le : ((out.drop cs).take 4).sum ≤ out.sum := slice_sum_le_sum out cs
    -- second run computes the same checksum
    have hc' : (out.sum - ((out.drop cs).take 4).sum + 0xFF + 0xFF) % 0x10000 = c := by
      rw [hHnew]
      have : out.sum - (comp % 256 + comp / 256 + c % 256 + c / 256) =
          sfc.sum - ((sfc.drop cs).take 4).sum := by omega
      rw [this, hc510, hcdef]
    have hidem : update_checksum out bank_size cs = .ok out := by
      simp only [update_checksum]
      rw [if_neg (not_not_intro (by rw [hlout]; exact h1)),
        if_neg (not_not_intro (by rw [hlout]; exact h2)),
        hc']
      have e0 : out.set cs (comp % 256) = out :=
        list_set_getElem_eq_self out cs _ (by rw [getElem?_eq_some_getD out cs (by omega), hg0])
      rw [e0]
      have e1 : out.set (cs + 1) (comp / 256) = out :=
        list_set_getElem_eq_self out (cs + 1) _
          (by rw [getElem?_eq_some_getD out (cs + 1) (by omega), hg1])
      rw [e1]
      have e2 : out.set (cs + 2) (c % 256) = out :=
        list_set_getElem_eq_self out (cs + 2) _
          (by rw [getElem?_eq_some_getD out (cs + 2) (by omega), hg2])
      rw [e2]
      have e3 : out.set (cs + 3) (c / 256) = out :=
        list_set_getElem_eq_self out (cs + 3) _
          (by rw [getElem?_eq_some_getD out (cs + 3) (by omega), hg3])
      rw [e3]
    exact ⟨out, hstep, hlout, ⟨hg0, hg1, hg2, hg3, hxor⟩, hidem⟩

theorem bit_count_zero : bit_count 0 = 0 := by
  rw [bit_count.eq_def, dif_pos rfl]

theorem bit_count_step (n : Nat) (hn : n ≠ 0) :
    bit_count n = bit_count (n / 2) + n % 2 := by
  rw [bit_count.eq_def, dif_neg hn]

theorem bit_count_eight : bit_count 8 = 1 := by
  rw [bit_count_step 8 (by norm_num), show (8 : Nat) / 2 = 4 from rfl,
    show (8 : Nat) % 2 = 0 from rfl,
    bit_count_step 4 (by norm_num), show (4 : Nat) / 2 = 2 from rfl,
    show (4 : Nat) % 2 = 0 from rfl,
    bit_count_step 2 (by norm_num), show (2 : Nat) / 2 = 1 from rfl,
    show (2 : Nat) % 2 = 0 from rfl,
    bit_count_step 1 (by norm_num), show (1 : Nat) / 2 = 0 from rfl,
    show (1 : Nat) % 2 = 1 from rfl,
    bit_count_zero]

/-- Witness for C4 at a concrete 8-byte image (`bank_size = 8`, header
offset 0). -/
theorem update_checksum_spec_witness :
    (0 : Nat) + 4 ≤ 8 ∧
    ([1, 2, 3, 4, 5, 6, 7, 8] : List Nat).length % 8 = 0 ∧
    bit_count ([1, 2, 3, 4, 5, 6, 7, 8] : List Nat).length = 1 ∧
    ∃ out, update_checksum [1, 2, 3, 4, 5, 6, 7, 8] 8 0 = .ok out ∧
      out.length = ([1, 2, 3, 4, 5, 6, 7, 8] : List Nat).length ∧
      (out.getD 0 0 =
          ((([1, 2, 3, 4, 5, 6, 7, 8] : List Nat).sum -
            ((([1, 2, 3, 4, 5, 6, 7, 8] : List Nat).drop 0).take 4).sum + 0x1FE) % 0x10000 ^^^
              0xFFFF) % 256 ∧
       out.getD (0 + 1) 0 =
          ((([1, 2, 3, 4, 5, 6, 7, 8] : List Nat).sum -
            ((([1, 2, 3, 4, 5, 6, 7, 8] : List Nat).drop 0).take 4).sum + 0x1FE) % 0x10000 ^^^
              0xFFFF) / 256 ∧
       out.getD (0 + 2) 0 =
          (([1, 2, 3, 4, 5, 6, 7, 8] : List Nat).sum -
            ((([1, 2, 3, 4, 5, 6, 7, 8] : List Nat).drop 0).take 4).sum + 0x1FE) % 0x10000 % 256 ∧
       out.getD (0 + 3) 0 =
          (([1, 2, 3, 4, 5, 6, 7, 8] : List Nat).sum -
            ((([1, 2, 3, 4, 5, 6, 7, 8] : List Nat).drop 0).take 4).sum + 0x1FE) % 0x10000 / 256 ∧
       (([1, 2, 3, 4, 5, 6, 7, 8] : List Nat).sum -
            ((([1, 2, 3, 4, 5, 6, 7, 8] : List Nat).drop 0).take 4).sum + 0x1FE) % 0x10000 +
          ((([1, 2, 3, 4, 5, 6, 7, 8] : List Nat).sum -
            ((([1, 2, 3, 4, 5, 6, 7, 8] : List Nat).drop 0).take 4).sum + 0x1FE) % 0x10000 ^^^
              0xFFFF) = 0xFFFF) ∧
      update_checksum out 8 0 = .ok out :=
  ⟨by decide, by decide, bit_count_eight,
    (update_checksum_spec [1, 2, 3, 4, 5, 6, 7, 8] 8 0 (by decide)).2 (by decide)
      bit_count_eight⟩

/-! ### C6: frame-id assignment and the unreachable "Too many frames" error -/

/-- C6 (code bug): when the exported animations reference 254 distinct
frames, `get_frame_id` assigns ids 0..252 in first-use order to the first
253 frames and silently returns id 0 for the rest, leaving
`exported_frames` capped at 253 entries, so the `build_frameset` check
`len(exported_frames) > MAX_N_FRAMES` (253) is false and the
"Too many frames" error the code's own comment promises is never raised. -/
theorem too_many_frames_never_raised :
    (get_frame_ids { exported_frame_ids := [], exported_frames := [] }
        (List.range 254)).exported_frames.length = 253 ∧
    too_many_frames_error
      (get_frame_ids { exported_frame_ids := [], exported_frames := [] }
        (List.range 254)) = false ∧
    MAX_N_FRAMES = 253 ∧
    ((List.range 253).all fun i =>
      (get_frame_ids { exported_frame_ids := [], exported_frames := [] }
          (List.range 254)).exported_frame_ids.lookup i == some i) = true := by
  refine ⟨by decide, by decide, rfl, by decide⟩

/-! ### C7: AABB encoding -/

theorem i8_cast_byte_bounds (v : Int) (h1 : -256 ≤ v) (h2 : v ≤ 255) :
    0 ≤ i8_cast v ∧ i8_cast v < 256 := by
  unfold i8_cast
  split <;> omega

/-- C7 counterexample: a present box whose computed `y1` offset is exactly
the sentinel `0x80` is *not* rejected (only `x1` is checked): the encoder
happily appends the reserved value `0x80` as `y1`. -/
theorem add_i8aabb_sentinel_y1_not_rejected :
    add_i8aabb []
        (some { x := 0, y := 0x80, width := 8, height := 8 })
        { frame_width := 0xD0, frame_height := 0xD0, x_origin := 0, y_origin := 0 } =
      .ok [0, 8, 0x80, 0x88] ∧
    (0x80 : Int) = NO_AABB_VALUE := by
  exact ⟨rfl, rfl⟩

/-- C7 (amended): `add_i8aabb` appends exactly four bytes
`x1, x2, y1, y2 = i8_cast (edge - origin)`; an absent box appends four
sentinel `0x80` bytes; a present box is rejected (error, nothing appended)
iff its width or height is non-positive, its `x` or `y` is negative, it
extends beyond the frame bounds, or the computed `x1` (and only `x1`)
equals the reserved sentinel `0x80`.  (Stated for origins inside the byte
range, as produced by the frameset loader.) -/
theorem add_i8aabb_spec (data : List Int) (box : Aabb) (fs : MsFrameset)
    (hxo0 : 0 ≤ fs.x_origin) (hyo0 : 0 ≤ fs.y_origin)
    (hxo : fs.x_origin ≤ 256) (hyo : fs.y_origin ≤ 256)
    (hfw : fs.frame_width ≤ fs.x_origin + 255)
    (hfh : fs.frame_height ≤ fs.y_origin + 255) :
    add_i8aabb data Option.none fs =
      .ok (data ++ [NO_AABB_VALUE, NO_AABB_VALUE, NO_AABB_VALUE, NO_AABB_VALUE]) ∧
    (add_i8aabb data (some box) fs =
        .ok (data ++ [i8_cast (box.x - fs.x_origin),
                      i8_cast (box.x + box.width - fs.x_origin),
                      i8_cast (box.y - fs.y_origin),
                      i8_cast (box.y + box.height - fs.y_origin)]) ↔
      (0 ≤ box.x ∧ 0 ≤ box.y ∧ 0 < box.width ∧ 0 < box.height ∧
       box.x + box.width ≤ fs.frame_width ∧ box.y + box.height ≤ fs.frame_height ∧
       i8_cast (box.x - fs.x_origin) ≠ NO_AABB_VALUE)) ∧
    (∀ out, add_i8aabb data (some box) fs = .ok out →
      out = data ++ [i8_cast (box.x - fs.x_origin),
                     i8_cast (box.x + box.width - fs.x_origin),
                     i8_cast (box.y - fs.y_origin),
                     i8_cast (box.y + box.height - fs.y_origin)]) := by
  have habsent : add_i8aabb data Option.none fs =
      .ok (data ++ [NO_AABB_VALUE, NO_AABB_VALUE, NO_AABB_VALUE, NO_AABB_VALUE]) := by
    simp only [add_i8aabb, byte_extend4]
    rw [if_pos (by norm_num [NO_AABB_VALUE])]
  have hdissect : ∀ out, add_i8aabb data (some box) fs = .ok out →
      (0 ≤ box.x ∧ 0 ≤ box.y ∧ 0 < box.width ∧ 0 < box.height ∧
       box.x + box.width ≤ fs.frame_width ∧ box.y + box.height ≤ fs.frame_height ∧
       i8_cast (box.x - fs.x_origin) ≠ NO_AABB_VALUE ∧
       out = data ++ [i8_cast (box.x - fs.x_origin),
                      i8_cast (box.x + box.width - fs.x_origin),
                      i8_cast (box.y - fs.y_origin),
                      i8_cast (box.y + box.height - fs.y_origin)]) := by
    intro out h
    simp only [add_i8aabb, byte_extend4] at h
    by_cases h1 : box.x < 0 ∨ box.y < 0 ∨ box.width ≤ 0 ∨ box.height ≤ 0
    · rw [if_pos h1] at h; cases h
    · rw [if_neg h1] at h
      by_cases h2 : fs.frame_width < box.x + box.width ∨
          fs.frame_height < box.y + box.height
      · rw [if_pos h2] at h; cases h
      · rw [if_neg h2] at h
        by_cases h3 : i8_cast (box.x - fs.x_origin) = NO_AABB_VALUE
        · rw [if_pos h3] at h; cases h
        · rw [if_neg h3] at h
          by_cases h4 : 0 ≤ i8_cast (box.x - fs.x_origin) ∧
              i8_cast (box.x - fs.x_origin) < 256 ∧
              0 ≤ i8_cast (box.x + box.width - fs.x_origin) ∧
              i8_cast (box.x + box.width - fs.x_origin) < 256 ∧
              0 ≤ i8_cast (box.y - fs.y_origin) ∧
              i8_cast (box.y - fs.y_origin) < 256 ∧
              0 ≤ i8_cast (box.y + box.height - fs.y_origin) ∧
              i8_cast (box.y + box.height - fs.y_origin) < 256
          · rw [if_pos h4] at h
            push_neg at h1 h2
            exact ⟨h1.1, h1.2.1, h1.2.2.1, h1.2.2.2, h2.1, h2.2, h3,
              (Except.ok.inj h).symm⟩
          · rw [if_neg h4] at h; cases h
  refine ⟨habsent, ⟨?_, ?_⟩, fun out h => (hdissect out h).2.2.2.2.2.2.2⟩
  · intro h
    have := hdissect _ h
    exact ⟨this.1, this.2.1, this.2.2.1, this.2.2.2.1, this.2.2.2.2.1,
      this.2.2.2.2.2.1, this.2.2.2.2.2.2.1⟩
  · rintro ⟨hx, hy, hw, hh, hx2, hy2, hx1⟩
    simp only [add_i8aabb, byte_extend4]
    rw [if_neg (by push_neg; exact ⟨hx, hy, hw, hh⟩)]
    rw [if_neg (by push_neg; exact ⟨by omega, by omega⟩)]
    rw [if_neg hx1]
    have b1 := i8_cast_byte_bounds (box.x - fs.x_origin) (by omega) (by omega)
    have b2 := i8_cast_byte_bounds (box.x + box.width - fs.x_origin) (by omega) (by omega)
    have b3 := i8_cast_byte_bounds (box.y - fs.y_origin) (by omega) (by omega)
    have b4 := i8_cast_byte_bounds (box.y + box.height - fs.y_origin) (by omega) (by omega)
    rw [if_pos ⟨b1.1, b1.2, b2.1, b2.2, b3.1, b3.2, b4.1, b4.2⟩]

/-- Witness for C7 at a concrete box and frameset. -/
theorem add_i8aabb_spec_witness :
    ((0 : Int) ≤ 8 ∧ (0 : Int) ≤ 8 ∧ (8 : Int) ≤ 256 ∧ (8 : Int) ≤ 256 ∧
      (16 : Int) ≤ 8 + 255 ∧ (16 : Int) ≤ 8 + 255) ∧
    add_i8aabb [] Option.none
        { frame_width := 16, frame_height := 16, x_origin := 8, y_origin := 8 } =
      .ok ([] ++ [NO_AABB_VALUE, NO_AABB_VALUE, NO_AABB_VALUE, NO_AABB_VALUE]) ∧
    (add_i8aabb [] (some { x := 1, y := 2, width := 3, height := 4 })
        { frame_width := 16, frame_height := 16, x_origin := 8, y_origin := 8 } =
        .ok ([] ++ [i8_cast ((1 : Int) - 8), i8_cast ((1 : Int) + 3 - 8),
                    i8_cast ((2 : Int) - 8), i8_cast ((2 : Int) + 4 - 8)]) ↔
      ((0 : Int) ≤ 1 ∧ (0 : Int) ≤ 2 ∧ (0 : Int) < 3 ∧ (0 : Int) < 4 ∧
       (1 : Int) + 3 ≤ 16 ∧ (2 : Int) + 4 ≤ 16 ∧
       i8_cast ((1 : Int) - 8) ≠ NO_AABB_VALUE)) :=
  ⟨⟨by decide, by decide, by decide, by decide, by decide, by decide⟩,
    (add_i8aabb_spec [] { x := 1, y := 2, width := 3, height := 4 }
      { frame_width := 16, frame_height := 16, x_origin := 8, y_origin := 8 }
      (by decide) (by decide) (by decide) (by decide) (by decide) (by decide)).1,
    (add_i8aabb_spec [] { x := 1, y := 2, width := 3, height := 4 }
      { frame_width := 16, frame_height := 16, x_origin := 8, y_origin := 8 }
      (by decide) (by decide) (by decide) (by decide) (by decide) (by decide)).2.1⟩

/-! ### C8: animation encoding -/

theorem list_flatMap_congr {α β : Type} (f g : α → List β) :
    ∀ (l : List α), (∀ x ∈ l, f x = g x) → l.flatMap f = l.flatMap g := by
  intro l
  induction l with
  | nil => intro _; rfl
  | cons a l ih =>
    intro h
    simp only [List.flatMap_cons]
    rw [h a (List.mem_cons_self a l), ih (fun x hx => h x (List.mem_cons_of_mem a hx))]

theorem pyRound_ge_floor (q : ℚ) : ⌊q⌋ ≤ pyRound q := by
  unfold pyRound
  split
  · exact le_refl _
  · split
    · omega
    · split <;> omega

theorem delay_conv_ok (dt : DelayType) (d : ℚ) (h : delay_ok dt d) :
    ANIMATION_DELAY_FUNCTIONS dt d = .ok (delay_byte_int dt d) ∧
    0 ≤ delay_byte_int dt d ∧ delay_byte_int dt d < 256 := by
  cases dt with
  | none => exact ⟨rfl, by norm_num [delay_byte_int], by norm_num [delay_byte_int]⟩
  | frame =>
    obtain ⟨h1, h2⟩ := h
    exact ⟨rfl, h1, h2⟩
  | distance_x =>
    obtain ⟨h1, h2, h3⟩ := h
    have hge : (0 : ℤ) ≤ pyRound (d * 16) := by
      have hf : (0 : ℤ) ≤ ⌊d * 16⌋ := Int.floor_nonneg.mpr (by positivity)
      have := pyRound_ge_floor (d * 16)
      omega
    refine ⟨?_, hge, h3⟩
    simp only [ANIMATION_DELAY_FUNCTIONS, animation_delay__distance]
    rw [if_neg (by push_neg; exact ⟨h1, h2⟩)]
    rfl
  | distance_y =>
    obtain ⟨h1, h2, h3⟩ := h
    have hge : (0 : ℤ) ≤ pyRound (d * 16) := by
      have hf : (0 : ℤ) ≤ ⌊d * 16⌋ := Int.floor_nonneg.mpr (by positivity)
      have := pyRound_ge_floor (d * 16)
      omega
    refine ⟨?_, hge, h3⟩
    simp only [ANIMATION_DELAY_FUNCTIONS, animation_delay__distance]
    rw [if_neg (by push_neg; exact ⟨h1, h2⟩)]
    rfl
  | distance_xy =>
    obtain ⟨h1, h2, h3⟩ := h
    have hge : (0 : ℤ) ≤ pyRound (d * 16) := by
      have hf : (0 : ℤ) ≤ ⌊d * 16⌋ := Int.floor_nonneg.mpr (by positivity)
      have := pyRound_ge_floor (d * 16)
      omega
    refine ⟨?_, hge, h3⟩
    simp only [ANIMATION_DELAY_FUNCTIONS, animation_delay__distance]
    rw [if_neg (by push_neg; exact ⟨h1, h2⟩)]
    rfl

theorem except_bind_ok {α β : Type} (a : α) (f : α → Except String β) :
    (Except.ok a : Except String α).bind f = f a := rfl

theorem build_animation_pairs_nil (gfi : Nat → Nat) (conv : ℚ → Except String ℤ)
    (acc : List Nat) : build_animation_pairs gfi conv acc [] = .ok acc := rfl

theorem build_animation_pairs_cons (gfi : Nat → Nat) (conv : ℚ → Except String ℤ)
    (acc : List Nat) (f : Nat) (d : ℚ) (rest : List (Nat × ℚ)) :
    build_animation_pairs gfi conv acc ((f, d) :: rest) =
      (append_byte acc (gfi f : ℤ)).bind fun acc1 =>
        (conv d).bind fun dv =>
          (append_byte acc1 dv).bind fun acc2 =>
            build_animation_pairs gfi conv acc2 rest := rfl

theorem build_animation_pairs_ok (gfi : Nat → Nat) (conv : ℚ → Except String ℤ)
    (vd : ℚ → ℤ) :
    ∀ (pairs : List (Nat × ℚ)) (acc : List Nat),
      (∀ p ∈ pairs, gfi p.1 < 256) →
      (∀ p ∈ pairs, conv p.2 = .ok (vd p.2) ∧ 0 ≤ vd p.2 ∧ vd p.2 < 256) →
      build_animation_pairs gfi conv acc pairs =
        .ok (acc ++ pairs.flatMap fun fd => [gfi fd.1, (vd fd.2).toNat]) := by
  intro pairs
  induction pairs with
  | nil =>
    intro acc _ _
    rw [build_animation_pairs_nil]
    simp
  | cons p rest ih =>
    obtain ⟨f, d⟩ := p
    intro acc hfid hconv
    obtain ⟨hc, hv0, hv1⟩ := hconv (f, d) (List.mem_cons_self _ rest)
    have hf : gfi (f, d).1 < 256 := hfid (f, d) (List.mem_cons_self _ rest)
    have happ1 : append_byte acc (gfi f : ℤ) = .ok (acc ++ [gfi f]) := by
      unfold append_byte
      rw [if_pos ⟨Int.natCast_nonneg _, by exact_mod_cast hf⟩]
      rw [Int.toNat_natCast]
    have happ2 : append_byte (acc ++ [gfi f]) (vd d) =
        .ok ((acc ++ [gfi f]) ++ [(vd d).toNat]) := by
      unfold append_byte
      rw [if_pos ⟨hv0, hv1⟩]
    rw [build_animation_pairs_cons, happ1, except_bind_ok, hc, except_bind_ok,
      happ2, except_bind_ok,
      ih _ (fun x hx => hfid x (List.mem_cons_of_mem _ hx))
        (fun x hx => hconv x (List.mem_cons_of_mem _ hx))]
    simp

/-- C8: `build_animation_data` emits exactly one process-function byte (the
`none` id 0 for single-frame animations, otherwise the looping /
non-looping lookup for the delay policy), then one `(frame id, delay byte)`
pair per frame, then the terminator `0xFF`; the delay byte is 0 for `none`,
the truncation of the delay for `frame`, and `round(16 * delay)` for the
distance policies, which reject delays outside `[0, 16)`. -/
theorem build_animation_data_spec (ani : MsAnimation) (gfi : Nat → Nat) (ds : List ℚ)
    (hne : ani.frames ≠ [])
    (hds : delaysOf ani = some ds)
    (hlen : ds.length = ani.frames.length)
    (hnone : ani.delay_type = DelayType.none → ani.frames.length = 1)
    (hfid : ∀ f ∈ ani.frames, gfi f < 256)
    (hdel : ∀ d ∈ ds, delay_ok ani.delay_type d) :
    build_animation_data ani gfi =
      .ok ((if ani.frames.length = 1 then LOOPING_ANIMATION_DELAY_IDS DelayType.none
            else if ani.loop then LOOPING_ANIMATION_DELAY_IDS ani.delay_type
            else NON_LOOPING_ANIMATION_DELAY_IDS ani.delay_type) ::
            (((ani.frames.zip ds).flatMap fun fd =>
              [gfi fd.1, delay_byte ani.delay_type fd.2]) ++ [END_OF_ANIMATION_BYTE])) ∧
    LOOPING_ANIMATION_DELAY_IDS DelayType.none = 0 ∧
    (∀ d : ℚ, d < 0 ∨ 16 ≤ d →
      animation_delay__distance d =
        .error "Invalid animation frame delay (must be between 0 and 16)") := by
  refine ⟨?_, rfl, ?_⟩
  swap
  · intro d hd
    unfold animation_delay__distance
    rw [if_pos hd]
  have hcast : ((END_OF_ANIMATION_BYTE : Nat) : ℤ).toNat = END_OF_ANIMATION_BYTE :=
    Int.toNat_natCast _
  have happEnd : ∀ acc : List Nat,
      append_byte acc (END_OF_ANIMATION_BYTE : ℤ) = .ok (acc ++ [END_OF_ANIMATION_BYTE]) := by
    intro acc
    unfold append_byte
    rw [if_pos (by norm_num [END_OF_ANIMATION_BYTE])]
    rw [hcast]
  simp only [build_animation_data]
  rw [if_neg (fun hcontra => hcontra.2 (hnone hcontra.1))]
  cases hfd : ani.fixed_delay with
  | some fd =>
    have hdseq : ds = ani.frames.map fun _ => fd := by
      unfold delaysOf at hds
      rw [hfd] at hds
      exact (Option.some.inj hds).symm
    have hfdmem : fd ∈ ds := by
      rw [hdseq]
      rcases hfr : ani.frames with _ | ⟨a, l⟩
      · exact absurd hfr hne
      · simp
    have hok := delay_conv_ok ani.delay_type fd (hdel fd hfdmem)
    simp only [hfd]
    rw [hok.1, except_bind_ok]
    rw [build_animation_pairs_ok gfi (fun _ => .ok (delay_byte_int ani.delay_type fd))
      (fun _ => delay_byte_int ani.delay_type fd)
      (ani.frames.zip (ani.frames.map fun _ => fd)) _
      (fun p hp => hfid p.1 (List.of_mem_zip hp).1)
      (fun p hp => ⟨rfl, hok.2.1, hok.2.2⟩)]
    rw [except_bind_ok, happEnd]
    have hcong : ((ani.frames.zip (ani.frames.map fun _ => fd)).flatMap
          fun fd' => [gfi fd'.1, (delay_byte_int ani.delay_type fd).toNat]) =
        ((ani.frames.zip ds).flatMap
          fun fd' => [gfi fd'.1, delay_byte ani.delay_type fd'.2]) := by
      rw [← hdseq]
      apply list_flatMap_congr
      intro p hp
      have hp2 : p.2 ∈ ds := (List.of_mem_zip hp).2
      have : p.2 = fd := by
        rw [hdseq] at hp2
        obtain ⟨a, _, ha⟩ := List.mem_map.mp hp2
        exact ha.symm
      rw [this]
      rfl
    rw [hcong]
    simp
  | none =>
    have hfld : ani.frame_delays = some ds := by
      unfold delaysOf at hds
      rw [hfd] at hds
      exact hds
    simp only [hfd, hfld]
    rw [if_neg (by omega)]
    rw [build_animation_pairs_ok gfi (ANIMATION_DELAY_FUNCTIONS ani.delay_type)
      (delay_byte_int ani.delay_type) (ani.frames.zip ds) _
      (fun p hp => hfid p.1 (List.of_mem_zip hp).1)
      (fun p hp => delay_conv_ok ani.delay_type p.2 (hdel p.2 (List.of_mem_zip hp).2))]
    rw [except_bind_ok, happEnd]
    simp [delay_byte]

/-- Witness for C8 at a concrete two-frame looping `frame`-policy animation
with a fixed delay of 3. -/
theorem build_animation_data_spec_witness :
    build_animation_data
        { delay_type := DelayType.frame, loop := true, frames := [0, 1],
          fixed_delay := some (3 : ℚ), frame_delays := Option.none }
        (fun f => f) =
      .ok ((if ([0, 1] : List Nat).length = 1 then LOOPING_ANIMATION_DELAY_IDS DelayType.none
            else if true then LOOPING_ANIMATION_DELAY_IDS DelayType.frame
            else NON_LOOPING_ANIMATION_DELAY_IDS DelayType.frame) ::
            (((([0, 1] : List Nat).zip [(3 : ℚ), 3]).flatMap fun fd =>
              [fd.1, delay_byte DelayType.frame fd.2]) ++ [END_OF_ANIMATION_BYTE])) :=
  (build_animation_data_spec
    { delay_type := DelayType.frame, loop := true, frames := [0, 1],
      fixed_delay := some (3 : ℚ), frame_delays := Option.none }
    (fun f => f) [(3 : ℚ), 3]
    (by decide) rfl rfl
    (by intro h; exact absurd h (by decide))
    (by decide)
    (by
      intro d hd
      simp at hd
      subst hd
      exact ⟨by decide, by decide⟩)).1

/-! ### C2: tile interning -/

theorem dict_setdefault_preserves (m : TileMap) (k : TileData) (v : Nat × Bool × Bool)
    (k' : TileData) (e : Nat × Bool × Bool) (h : m k' = some e) :
    dict_setdefault m k v k' = some e := by
  cases hk : m k with
  | some x => simpa [dict_setdefault, hk] using h
  | none =>
    have hkk : k' ≠ k := fun he => by rw [he, hk] at h; cases h
    simpa [dict_setdefault, dict_set, hk, hkk] using h

theorem setdefault_list_some :
    ∀ (ps : List (TileData × (Nat × Bool × Bool))) (m : TileMap) (k : TileData)
      (e : Nat × Bool × Bool), m k = some e → setdefault_list m ps k = some e := by
  intro ps
  induction ps with
  | nil => intro m k e h; exact h
  | cons p rest ih =>
    obtain ⟨k1, v1⟩ := p
    intro m k e h
    exact ih _ k e (dict_setdefault_preserves m k1 v1 k e h)

theorem setdefault_list_none :
    ∀ (ps : List (TileData × (Nat × Bool × Bool))) (m : TileMap) (k : TileData),
      m k = Option.none → setdefault_list m ps k = ps.lookup k := by
  intro ps
  induction ps with
  | nil => intro m k h; exact h
  | cons p rest ih =>
    obtain ⟨k1, v1⟩ := p
    intro m k h
    by_cases hkk : k = k1
    · subst hkk
      have hset : dict_setdefault m k v1 k = some v1 := by
        simp [dict_setdefault, dict_set, h]
      rw [setdefault_list, setdefault_list_some rest _ k v1 hset, List.lookup_cons]
      simp
    · have hset : dict_setdefault m k1 v1 k = Option.none := by
        cases hk1 : m k1 with
        | some x => simpa [dict_setdefault, hk1] using h
        | none => simpa [dict_setdefault, dict_set, hk1, hkk] using h
      rw [setdefault_list, ih _ k hset, List.lookup_cons]
      have hbeq : (k == k1) = false := beq_eq_false_iff_ne.mpr hkk
      simp [hbeq]

theorem intern_variant_lookup (pre : TileMap) (t k1 k2 k3 : TileData)
    (mv v1 v2 v3 : Nat × Bool × Bool) (hpre : pre t = Option.none) :
    setdefault_list (dict_set pre t mv) [(k1, v1), (k2, v2), (k3, v3)] t = some mv ∧
    setdefault_list (dict_set pre t mv) [(k1, v1), (k2, v2), (k3, v3)] k1 =
      some (variant_result pre [(t, mv)] k1 v1) ∧
    setdefault_list (dict_set pre t mv) [(k1, v1), (k2, v2), (k3, v3)] k2 =
      some (variant_result pre [(t, mv), (k1, v1)] k2 v2) ∧
    setdefault_list (dict_set pre t mv) [(k1, v1), (k2, v2), (k3, v3)] k3 =
      some (variant_result pre [(t, mv), (k1, v1), (k2, v2)] k3 v3) := by
  have hbase : ∀ k, dict_set pre t mv k = if k = t then some mv else pre k := fun _ => rfl
  refine ⟨?_, ?_, ?_, ?_⟩
  · exact setdefault_list_some _ _ t mv (by simp [dict_set])
  · by_cases h1 : k1 = t
    · subst h1
      rw [setdefault_list_some _ _ k1 mv (by simp [dict_set])]
      simp [variant_result, hpre, List.lookup_cons]
    · cases hp : pre k1 with
      | some e =>
        rw [setdefault_list_some _ _ k1 e (by simp [dict_set, h1, hp])]
        simp [variant_result, hp]
      | none =>
        rw [setdefault_list_none _ _ k1 (by simp [dict_set, h1, hp])]
        have hb : (k1 == t) = false := beq_eq_false_iff_ne.mpr h1
        simp [variant_result, hp, List.lookup_cons, hb]
  · by_cases h2 : k2 = t
    · subst h2
      rw [setdefault_list_some _ _ k2 mv (by simp [dict_set])]
      simp [variant_result, hpre, List.lookup_cons]
    · cases hp : pre k2 with
      | some e =>
        rw [setdefault_list_some _ _ k2 e (by simp [dict_set, h2, hp])]
        simp [variant_result, hp]
      | none =>
        rw [setdefault_list_none _ _ k2 (by simp [dict_set, h2, hp])]
        have hb : (k2 == t) = false := beq_eq_false_iff_ne.mpr h2
        by_cases h21 : k2 = k1
        · subst h21
          simp [variant_result, hp, List.lookup_cons, hb]
        · have hb1 : (k2 == k1) = false := beq_eq_false_iff_ne.mpr h21
          simp [variant_result, hp, List.lookup_cons, hb, hb1]
  · by_cases h3 : k3 = t
    · subst h3
      rw [setdefault_list_some _ _ k3 mv (by simp [dict_set])]
      simp [variant_result, hpre, List.lookup_cons]
    · cases hp : pre k3 with
      | some e =>
        rw [setdefault_list_some _ _ k3 e (by simp [dict_set, h3, hp])]
        simp [variant_result, hp]
      | none =>
        rw [setdefault_list_none _ _ k3 (by simp [dict_set, h3, hp])]
        have hb : (k3 == t) = false := beq_eq_false_iff_ne.mpr h3
        by_cases h31 : k3 = k1
        · subst h31
          simp [variant_result, hp, List.lookup_cons, hb]
        · have hb1 : (k3 == k1) = false := beq_eq_false_iff_ne.mpr h31
          by_cases h32 : k3 = k2
          · subst h32
            simp [variant_result, hp, List.lookup_cons, hb, hb1]
          · have hb2 : (k3 == k2) = false := beq_eq_false_iff_ne.mpr h32
            simp [variant_result, hp, List.lookup_cons, hb, hb1, hb2]

theorem add_small_tile_map (s : Tileset) (t : TileData) :
    (s.add_small_tile t).1.small_tiles_map = s.small_tiles_map := by
  unfold Tileset.add_small_tile Tileset._allocate_small_tile Tileset._allocate_large_tile
  by_cases h : 4 ≤ s.small_tile_pos <;> simp [h] <;> split <;> rfl

theorem add_large_tile_map (s : Tileset) (t : TileData) :
    (s.add_large_tile t).1.large_tiles_map = s.large_tiles_map := by
  unfold Tileset.add_large_tile Tileset._allocate_large_tile
  dsimp only
  split <;> rfl

theorem add_or_get_small_fresh (s : Tileset) (t : TileData)
    (h : s.small_tiles_map t = Option.none) :
    s.add_or_get_small_tile t =
      ({ (s.add_small_tile t).1 with
          small_tiles_map :=
            setdefault_list
              (dict_set s.small_tiles_map t ((s.add_small_tile t).2, false, false))
              [(hflip_tile t, ((s.add_small_tile t).2, true, false)),
               (vflip_tile t, ((s.add_small_tile t).2, false, true)),
               (vflip_tile (hflip_tile t), ((s.add_small_tile t).2, true, true))] },
       ((s.add_small_tile t).2, false, false)) := by
  unfold Tileset.add_or_get_small_tile
  simp only [h]
  rw [add_small_tile_map s t]
  rfl

theorem add_or_get_large_fresh (s : Tileset) (t : TileData)
    (h : s.large_tiles_map t = Option.none) :
    s.add_or_get_large_tile t =
      ({ (s.add_large_tile t).1 with
          large_tiles_map :=
            setdefault_list
              (dict_set s.large_tiles_map t ((s.add_large_tile t).2, false, false))
              [(hflip_large_tile t, ((s.add_large_tile t).2, true, false)),
               (vflip_large_tile t, ((s.add_large_tile t).2, false, true)),
               (vflip_large_tile (hflip_large_tile t), ((s.add_large_tile t).2, true, true))] },
       ((s.add_large_tile t).2, false, false)) := by
  unfold Tileset.add_or_get_large_tile
  simp only [h]
  rw [add_large_tile_map s t]
  rfl

/-- C2 counterexample: for a tile symmetric under `hflip` (here the all-zero
tile), interning the tile and then interning its h-flip returns flip flags
`(false, false)`, not `(true, false)`, even though the flipped buffer was
not mapped by any earlier intern (the store is fresh): the canonical
buffer's own registration claimed it first. -/
theorem add_or_get_symmetric_tile_counterexample :
    (Tileset.init 0 512).small_tiles_map (hflip_tile (List.replicate 64 0)) = Option.none ∧
    hflip_tile (List.replicate 64 0) = List.replicate 64 0 ∧
    (((Tileset.init 0 512).add_or_get_small_tile (List.replicate 64 0)).1.add_or_get_small_tile
        (hflip_tile (List.replicate 64 0))).2 = (0, false, false) ∧
    ((0 : Nat), false, false) ≠ ((0 : Nat), true, false) := by
  refine ⟨rfl, by decide, by decide, by decide⟩

/-- C2 (amended): interning the same tile twice returns the same triple and
the same state (so the store does not grow); and after a fresh intern of
`t` with id `id`, interning a flipped variant returns `(id, flips)` for
that variant's flips, unless the variant's buffer was already claimed — by
an earlier intern, or by an earlier registration of the same intern (the
canonical buffer first, then h, v, hv in order) — in which case the
earlier claim's triple is returned unchanged (first writer wins). -/
theorem add_or_get_tile_intern_spec (s : Tileset) (t : TileData) :
    ((s.add_or_get_small_tile t).1.add_or_get_small_tile t = s.add_or_get_small_tile t) ∧
    ((s.add_or_get_large_tile t).1.add_or_get_large_tile t = s.add_or_get_large_tile t) ∧
    (((s.add_or_get_small_tile t).1.add_or_get_small_tile t).1.tiles.length =
      (s.add_or_get_small_tile t).1.tiles.length) ∧
    (((s.add_or_get_large_tile t).1.add_or_get_large_tile t).1.tiles.length =
      (s.add_or_get_large_tile t).1.tiles.length) ∧
    (s.small_tiles_map t = Option.none →
      (s.add_or_get_small_tile t).2 = ((s.add_or_get_small_tile t).2.1, false, false) ∧
      (s.add_or_get_small_tile t).1.add_or_get_small_tile (hflip_tile t) =
        ((s.add_or_get_small_tile t).1,
          variant_result s.small_tiles_map
            [(t, ((s.add_or_get_small_tile t).2.1, false, false))]
            (hflip_tile t) ((s.add_or_get_small_tile t).2.1, true, false)) ∧
      (s.add_or_get_small_tile t).1.add_or_get_small_tile (vflip_tile t) =
        ((s.add_or_get_small_tile t).1,
          variant_result s.small_tiles_map
            [(t, ((s.add_or_get_small_tile t).2.1, false, false)),
             (hflip_tile t, ((s.add_or_get_small_tile t).2.1, true, false))]
            (vflip_tile t) ((s.add_or_get_small_tile t).2.1, false, true)) ∧
      (s.add_or_get_small_tile t).1.add_or_get_small_tile (vflip_tile (hflip_tile t)) =
        ((s.add_or_get_small_tile t).1,
          variant_result s.small_tiles_map
            [(t, ((s.add_or_get_small_tile t).2.1, false, false)),
             (hflip_tile t, ((s.add_or_get_small_tile t).2.1, true, false)),
             (vflip_tile t, ((s.add_or_get_small_tile t).2.1, false, true))]
            (vflip_tile (hflip_tile t)) ((s.add_or_get_small_tile t).2.1, true, true))) ∧
    (s.large_tiles_map t = Option.none →
      (s.add_or_get_large_tile t).2 = ((s.add_or_get_large_tile t).2.1, false, false) ∧
      (s.add_or_get_large_tile t).1.add_or_get_large_tile (hflip_large_tile t) =
        ((s.add_or_get_large_tile t).1,
          variant_result s.large_tiles_map
            [(t, ((s.add_or_get_large_tile t).2.1, false, false))]
            (hflip_large_tile t) ((s.add_or_get_large_tile t).2.1, true, false)) ∧
      (s.add_or_get_large_tile t).1.add_or_get_large_tile (vflip_large_tile t) =
        ((s.add_or_get_large_tile t).1,
          variant_result s.large_tiles_map
            [(t, ((s.add_or_get_large_tile t).2.1, false, false)),
             (hflip_large_tile t, ((s.add_or_get_large_tile t).2.1, true, false))]
            (vflip_large_tile t) ((s.add_or_get_large_tile t).2.1, false, true)) ∧
      (s.add_or_get_large_tile t).1.add_or_get_large_tile
          (vflip_large_tile (hflip_large_tile t)) =
        ((s.add_or_get_large_tile t).1,
          variant_result s.large_tiles_map
            [(t, ((s.add_or_get_large_tile t).2.1, false, false)),
             (hflip_large_tile t, ((s.add_or_get_large_tile t).2.1, true, false)),
             (vflip_large_tile t, ((s.add_or_get_large_tile t).2.1, false, true))]
            (vflip_large_tile (hflip_large_tile t))
            ((s.add_or_get_large_tile t).2.1, true, true))) := by
  have hsmall_again : (s.add_or_get_small_tile t).1.add_or_get_small_tile t =
      s.add_or_get_small_tile t := by
    cases hm : s.small_tiles_map t with
    | some m =>
      have h1 : s.add_or_get_small_tile t = (s, m) := by
        unfold Tileset.add_or_get_small_tile
        simp only [hm]
      rw [h1]
      exact h1
    | none =>
      have hfresh := add_or_get_small_fresh s t hm
      have hl := (intern_variant_lookup s.small_tiles_map t (hflip_tile t) (vflip_tile t)
        (vflip_tile (hflip_tile t)) ((s.add_small_tile t).2, false, false)
        ((s.add_small_tile t).2, true, false) ((s.add_small_tile t).2, false, true)
        ((s.add_small_tile t).2, true, true) hm).1
      rw [hfresh]
      unfold Tileset.add_or_get_small_tile
      simp only [hl]
  have hlarge_again : (s.add_or_get_large_tile t).1.add_or_get_large_tile t =
      s.add_or_get_large_tile t := by
    cases hm : s.large_tiles_map t with
    | some m =>
      have h1 : s.add_or_get_large_tile t = (s, m) := by
        unfold Tileset.add_or_get_large_tile
        simp only [hm]
      rw [h1]
      exact h1
    | none =>
      have hfresh := add_or_get_large_fresh s t hm
      have hl := (intern_variant_lookup s.large_tiles_map t (hflip_large_tile t)
        (vflip_large_tile t) (vflip_large_tile (hflip_large_tile t))
        ((s.add_large_tile t).2, false, false) ((s.add_large_tile t).2, true, false)
        ((s.add_large_tile t).2, false, true) ((s.add_large_tile t).2, true, true) hm).1
      rw [hfresh]
      unfold Tileset.add_or_get_large_tile
      simp only [hl]
  refine ⟨hsmall_again, hlarge_again, by rw [hsmall_again], by rw [hlarge_again], ?_, ?_⟩
  · intro hm
    have hfresh := add_or_get_small_fresh s t hm
    have hl := intern_variant_lookup s.small_tiles_map t (hflip_tile t) (vflip_tile t)
      (vflip_tile (hflip_tile t)) ((s.add_small_tile t).2, false, false)
      ((s.add_small_tile t).2, true, false) ((s.add_small_tile t).2, false, true)
      ((s.add_small_tile t).2, true, true) hm
    refine ⟨by rw [hfresh], ?_, ?_, ?_⟩
    · rw [hfresh]
      unfold Tileset.add_or_get_small_tile
      simp only [hl.2.1]
    · rw [hfresh]
      unfold Tileset.add_or_get_small_tile
      simp only [hl.2.2.1]
    · rw [hfresh]
      unfold Tileset.add_or_get_small_tile
      simp only [hl.2.2.2]
  · intro hm
    have hfresh := add_or_get_large_fresh s t hm
    have hl := intern_variant_lookup s.large_tiles_map t (hflip_large_tile t)
      (vflip_large_tile t) (vflip_large_tile (hflip_large_tile t))
      ((s.add_large_tile t).2, false, false) ((s.add_large_tile t).2, true, false)
      ((s.add_large_tile t).2, false, true) ((s.add_large_tile t).2, true, true) hm
    refine ⟨by rw [hfresh], ?_, ?_, ?_⟩
    · rw [hfresh]
      unfold Tileset.add_or_get_large_tile
      simp only [hl.2.1]
    · rw [hfresh]
      unfold Tileset.add_or_get_large_tile
      simp only [hl.2.2.1]
    · rw [hfresh]
      unfold Tileset.add_or_get_large_tile
      simp only [hl.2.2.2]

/-- Witness for C2: on a fresh tileset the all-ones small tile is unmapped,
and its fresh intern reports flips `(false, false)`. -/
theorem add_or_get_tile_intern_spec_witness :
    (Tileset.init 0 512).small_tiles_map (List.replicate 64 1) = Option.none ∧
    (Tileset.init 0 512).large_tiles_map (List.replicate 256 1) =
      Option.none ∧
    ((Tileset.init 0 512).add_or_get_small_tile (List.replicate 64 1)).2 =
      (((Tileset.init 0 512).add_or_get_small_tile (List.replicate 64 1)).2.1,
        false, false) ∧
    ((Tileset.init 0 512).add_or_get_large_tile
        (List.replicate 256 1)).2 =
      (((Tileset.init 0 512).add_or_get_large_tile
          (List.replicate 256 1)).2.1, false, false) :=
  ⟨rfl, rfl,
    ((add_or_get_tile_intern_spec (Tileset.init 0 512)
        (List.replicate 64 1)).2.2.2.2.1 rfl).1,
    ((add_or_get_tile_intern_spec (Tileset.init 0 512)
        (List.replicate 256 1)).2.2.2.2.2 rfl).1⟩

theorem writeBytes_inside (v : Nat → Nat) (off k : Nat) (blob : List Nat)
    (h : k < blob.length) : writeBytes v off blob (off + k) = blob.getD k 0 := by
  unfold writeBytes
  rw [if_pos ⟨Nat.le_add_right off k, by omega⟩, Nat.add_sub_cancel_left]

theorem writeBytes_outside (v : Nat → Nat) (off k : Nat) (blob : List Nat)
    (h : k < off ∨ off + blob.length ≤ k) : writeBytes v off blob k = v k := by
  unfold writeBytes
  rw [if_neg (by omega)]

theorem insert_resources_go_cons (s : ResourceInserter) (p : Nat) (d : List Nat)
    (ds : List (List Nat)) :
    s.insert_resources_go p (d :: ds) =
      match s.insert_resources_step p d with
      | .error e => .error e
      | .ok s' => s'.insert_resources_go (p + 5) ds := rfl

/-- C9: `insert_resources` fails when the number of blobs differs from the
count recorded for the type in the per-type count table, and otherwise runs
the patch loop from the table's rom offset; the loop stops with `.ok` on an
empty list; each step rejects empty or too-large blobs, rejects a table
slot that does not hold the five-zero-byte blank sentinel, and on success
overwrites exactly the 5 slot bytes with the placed address as 3
little-endian bytes followed by the blob size as 2 little-endian bytes
(the bytes reassemble to the address and size), leaving every byte outside
the slot unchanged and continuing at the next slot, 5 bytes further. -/
theorem insert_resources_table_patch_spec (s : ResourceInserter) (rtid : Nat)
    (ds : List (List Nat)) (p : Nat) (d : List Nat) (s1 : ResourceInserter)
    (addr : Nat) :
    (ds.length ≠ (s.resource_table_for_type rtid).2 →
      s.insert_resources rtid ds =
        .error "NResourcesPerTypeTable mismatch in sfc_file") ∧
    (ds.length = (s.resource_table_for_type rtid).2 →
      s.insert_resources rtid ds =
        s.insert_resources_go
          (s.address_to_rom_offset (s.resource_table_for_type rtid).1) ds) ∧
    (s.insert_resources_go p [] = .ok s) ∧
    (¬(0 < d.length ∧ d.length < 0xFFFF) →
      s.insert_resources_step p d =
        .error "assert failed: size > 0 and size < 0xFFFF") ∧
    (0 < d.length → d.length < 0xFFFF → s.insert_blob d = .ok (s1, addr) →
      ((List.range 5).map (fun j => s1.view (p + j)) ≠ BLANK_RESOURCE_ENTRY →
        s.insert_resources_step p d =
          .error "assert failed: table entry is not blank") ∧
      ((List.range 5).map (fun j => s1.view (p + j)) = BLANK_RESOURCE_ENTRY →
        s.insert_resources_step p d =
          .ok { s1 with
                view := writeBytes s1.view p (resource_entry_bytes addr d.length) } ∧
        (∀ ds', s.insert_resources_go p (d :: ds') =
          ResourceInserter.insert_resources_go
            { s1 with
              view := writeBytes s1.view p (resource_entry_bytes addr d.length) }
            (p + 5) ds') ∧
        writeBytes s1.view p (resource_entry_bytes addr d.length) p = addr % 256 ∧
        writeBytes s1.view p (resource_entry_bytes addr d.length) (p + 1) =
          (addr >>> 8) % 256 ∧
        writeBytes s1.view p (resource_entry_bytes addr d.length) (p + 2) =
          addr >>> 16 ∧
        writeBytes s1.view p (resource_entry_bytes addr d.length) (p + 3) =
          d.length % 256 ∧
        writeBytes s1.view p (resource_entry_bytes addr d.length) (p + 4) =
          d.length >>> 8 ∧
        addr % 256 + ((addr >>> 8) % 256) * 256 + (addr >>> 16) * 65536 = addr ∧
        d.length % 256 + (d.length >>> 8) * 256 = d.length ∧
        (∀ j, j < p ∨ p + 5 ≤ j →
          writeBytes s1.view p (resource_entry_bytes addr d.length) j =
            s1.view j))) := by
  refine ⟨?_, ?_, rfl, ?_, ?_⟩
  · intro h
    unfold ResourceInserter.insert_resources
    rw [if_pos h]
  · intro h
    unfold ResourceInserter.insert_resources
    rw [if_neg (fun hc => hc h)]
  · intro h
    unfold ResourceInserter.insert_resources_step
    rw [if_pos h]
  · intro h1 h2 hib
    have hstep0 : s.insert_resources_step p d =
        (if (List.range 5).map (fun j => s1.view (p + j)) ≠ BLANK_RESOURCE_ENTRY then
          .error "assert failed: table entry is not blank"
        else
          .ok { s1 with
                view := writeBytes s1.view p
                  [addr % 256, (addr >>> 8) % 256, addr >>> 16,
                   d.length % 256, d.length >>> 8] }) := by
      unfold ResourceInserter.insert_resources_step
      rw [if_neg (not_not_intro ⟨h1, h2⟩), hib]
    constructor
    · intro hnb
      rw [hstep0, if_pos hnb]
    · intro hb
      have hstep : s.insert_resources_step p d =
          .ok { s1 with
                view := writeBytes s1.view p (resource_entry_bytes addr d.length) } := by
        rw [hstep0, if_neg (not_not_intro hb)]
        rfl
      refine ⟨hstep, ?_, ?_, ?_, ?_, ?_, ?_, ?_, ?_, ?_⟩
      · intro ds'
        rw [insert_resources_go_cons, hstep]
      · have := writeBytes_inside s1.view p 0 (resource_entry_bytes addr d.length)
          (by simp [resource_entry_bytes])
        simpa [resource_entry_bytes] using this
      · have := writeBytes_inside s1.view p 1 (resource_entry_bytes addr d.length)
          (by simp [resource_entry_bytes])
        simpa [resource_entry_bytes] using this
      · have := writeBytes_inside s1.view p 2 (resource_entry_bytes addr d.length)
          (by simp [resource_entry_bytes])
        simpa [resource_entry_bytes] using this
      · have := writeBytes_inside s1.view p 3 (resource_entry_bytes addr d.length)
          (by simp [resource_entry_bytes])
        simpa [resource_entry_bytes] using this
      · have := writeBytes_inside s1.view p 4 (resource_entry_bytes addr d.length)
          (by simp [resource_entry_bytes])
        simpa [resource_entry_bytes] using this
      · have e8 : addr >>> 8 = addr / 256 := Nat.shiftRight_eq_div_pow addr 8
        have e16 : addr >>> 16 = addr / 65536 := Nat.shiftRight_eq_div_pow addr 16
        rw [e8, e16]
        omega
      · have e8 : d.length >>> 8 = d.length / 256 :=
          Nat.shiftRight_eq_div_pow d.length 8
        rw [e8]
        omega
      · intro j hj
        exact writeBytes_outside s1.view p j (resource_entry_bytes addr d.length)
          (by simp only [resource_entry_bytes, List.length_cons, List.length_nil]; omega)

/-- Witness for C9: inserting the 1-byte blob `[7]` into an empty one-bank
HiRom image and patching the blank table slot at offset 0x100 writes the
record for address 0xC00000, size 1. -/
theorem insert_resources_table_patch_spec_witness :
    0 < ([7] : List Nat).length ∧ ([7] : List Nat).length < 0xFFFF ∧
    ResourceInserter.insert_blob
      { address_to_rom_offset := fun a => a, bank_start := 0,
        bank_size := 0x10000, bank_offset := 0xC0, bank_positions := [0],
        view := fun _ => 0, symNResourcesPerTypeTable := 0,
        symResourceEntryTable := 0 } [7] =
      .ok ({ address_to_rom_offset := fun a => a, bank_start := 0,
             bank_size := 0x10000, bank_offset := 0xC0, bank_positions := [1],
             view := writeBytes (fun _ => 0) 0xC00000 [7],
             symNResourcesPerTypeTable := 0, symResourceEntryTable := 0 },
           0xC00000) ∧
    (List.range 5).map
      (fun j => writeBytes (fun _ => 0) 0xC00000 [7] (0x100 + j)) =
        BLANK_RESOURCE_ENTRY ∧
    ResourceInserter.insert_resources_step
      { address_to_rom_offset := fun a => a, bank_start := 0,
        bank_size := 0x10000, bank_offset := 0xC0, bank_positions := [0],
        view := fun _ => 0, symNResourcesPerTypeTable := 0,
        symResourceEntryTable := 0 } 0x100 [7] =
      .ok { address_to_rom_offset := fun a => a, bank_start := 0,
            bank_size := 0x10000, bank_offset := 0xC0, bank_positions := [1],
            view := writeBytes (writeBytes (fun _ => 0) 0xC00000 [7]) 0x100
              (resource_entry_bytes 0xC00000 1),
            symNResourcesPerTypeTable := 0, symResourceEntryTable := 0 } := by
  refine ⟨by decide, by decide, rfl, by decide, ?_⟩
  exact ((insert_resources_table_patch_spec
      { address_to_rom_offset := fun a => a, bank_start := 0,
        bank_size := 0x10000, bank_offset := 0xC0, bank_positions := [0],
        view := fun _ => 0, symNResourcesPerTypeTable := 0,
        symResourceEntryTable := 0 } 0 [] 0x100 [7]
      { address_to_rom_offset := fun a => a, bank_start := 0,
        bank_size := 0x10000, bank_offset := 0xC0, bank_positions := [1],
        view := writeBytes (fun _ => 0) 0xC00000 [7],
        symNResourcesPerTypeTable := 0, symResourceEntryTable := 0 }
      0xC00000).2.2.2.2 (by decide) (by decide) rfl).2 (by decide) |>.1

/-! ### MsFs text round-trip lemmas (C10) -/

theorem hex_digit_val_hex_digit : ∀ n, n < 16 → hex_digit_val (hex_digit n) = some n := by
  decide

theorem hex_digit_char_props :
    ∀ n, n < 16 → hex_digit n ≠ ' ' ∧ hex_digit n ≠ ',' ∧ hex_digit n ≠ '\n' := by
  decide

theorem bytes_fromhex_bytes_hex (bs : List Nat) (h : ∀ b ∈ bs, b < 256) :
    bytes_fromhex (bytes_hex bs) = some bs := by
  induction bs with
  | nil => rfl
  | cons b bs ih =>
    have hb : b < 256 := h b (List.mem_cons_self b bs)
    have hbs : ∀ x ∈ bs, x < 256 := fun x hx => h x (List.mem_cons_of_mem b hx)
    have hshape : bytes_hex (b :: bs) =
        hex_digit (b / 16) :: hex_digit (b % 16) :: bytes_hex bs := by
      simp [bytes_hex, byte_hex]
    rw [hshape]
    show (match hex_digit_val (hex_digit (b / 16)), hex_digit_val (hex_digit (b % 16)),
        bytes_fromhex (bytes_hex bs) with
      | some h, some l, some tl => some ((h * 16 + l) :: tl)
      | _, _, _ => Option.none) = some (b :: bs)
    rw [hex_digit_val_hex_digit (b / 16) (by omega),
      hex_digit_val_hex_digit (b % 16) (by omega), ih hbs]
    show some ((b / 16 * 16 + b % 16) :: bs) = some (b :: bs)
    have : b / 16 * 16 + b % 16 = b := by omega
    rw [this]

theorem mem_bytes_hex (bs : List Nat) (h : ∀ b ∈ bs, b < 256) :
    ∀ ch ∈ bytes_hex bs, ch ≠ ' ' ∧ ch ≠ ',' ∧ ch ≠ '\n' := by
  intro ch hch
  rcases List.mem_flatMap.mp hch with ⟨b, hb, hmem⟩
  have hb256 := h b hb
  simp only [byte_hex, List.mem_cons, List.not_mem_nil, or_false] at hmem
  rcases hmem with h1 | h2
  · subst h1; exact hex_digit_char_props (b / 16) (by omega)
  · subst h2; exact hex_digit_char_props (b % 16) (by omega)

theorem split_char_ne_nil (c : Char) : ∀ l, split_char c l ≠ [] := by
  intro l
  induction l with
  | nil => simp [split_char]
  | cons x xs ih =>
    cases h : split_char c xs with
    | nil => exact absurd h ih
    | cons r rs =>
      by_cases hx : x = c <;> simp [split_char, h, hx]

theorem split_char_cons_sep (c : Char) (ys : List Char) :
    split_char c (c :: ys) = [] :: split_char c ys := by
  cases h : split_char c ys with
  | nil => exact absurd h (split_char_ne_nil c ys)
  | cons r rs => simp [split_char, h]

theorem split_char_append_no_sep (c : Char) :
    ∀ (x ys : List Char) (r : List Char) (rs : List (List Char)),
      (∀ a ∈ x, a ≠ c) → split_char c ys = r :: rs →
      split_char c (x ++ ys) = (x ++ r) :: rs := by
  intro x
  induction x with
  | nil => intro ys r rs _ h; simpa using h
  | cons a x ih =>
    intro ys r rs hx h
    have ha : a ≠ c := hx a (List.mem_cons_self a x)
    have hx' : ∀ b ∈ x, b ≠ c := fun b hb => hx b (List.mem_cons_of_mem a hb)
    have h2 := ih ys r rs hx' h
    simp [split_char, h2, ha]

theorem split_char_no_sep (c : Char) (x : List Char) (hx : ∀ a ∈ x, a ≠ c) :
    split_char c x = [x] := by
  have := split_char_append_no_sep c x [] [] [] hx rfl
  simpa using this

theorem split_char_piece (c : Char) (x ys : List Char) (hx : ∀ a ∈ x, a ≠ c) :
    split_char c (x ++ c :: ys) = x :: split_char c ys := by
  cases h : split_char c ys with
  | nil => exact absurd h (split_char_ne_nil c ys)
  | cons r rs =>
    have hcy : split_char c (c :: ys) = [] :: r :: rs := by
      rw [split_char_cons_sep, h]
    have h2 := split_char_append_no_sep c x (c :: ys) [] (r :: rs) hx hcy
    rw [h2]
    simp [h]

theorem join_char_nil (c : Char) : join_char c [] = [] := rfl

theorem join_char_singleton (c : Char) (x : List Char) : join_char c [x] = x := by
  simp [join_char, List.intercalate]

theorem join_char_cons_cons (c : Char) (x y : List Char) (l : List (List Char)) :
    join_char c (x :: y :: l) = x ++ c :: join_char c (y :: l) := by
  simp [join_char, List.intercalate, List.intersperse]

theorem mem_join_char (c : Char) :
    ∀ (xs : List (List Char)) (ch : Char), ch ∈ join_char c xs →
      ch = c ∨ ∃ x ∈ xs, ch ∈ x := by
  intro xs
  induction xs with
  | nil => intro ch hch; simp [join_char_nil] at hch
  | cons x l ih =>
    intro ch hch
    cases l with
    | nil =>
      rw [join_char_singleton] at hch
      exact Or.inr ⟨x, List.mem_cons_self x [], hch⟩
    | cons y l' =>
      rw [join_char_cons_cons] at hch
      rcases List.mem_append.mp hch with h1 | h2
      · exact Or.inr ⟨x, List.mem_cons_self _ _, h1⟩
      · rcases List.mem_cons.mp h2 with h3 | h4
        · exact Or.inl h3
        · rcases ih ch h4 with h5 | ⟨z, hz, hmem⟩
          · exact Or.inl h5
          · exact Or.inr ⟨z, List.mem_cons_of_mem x hz, hmem⟩

theorem split_join_hex :
    ∀ (fs : List (List Nat)), fs ≠ [] → (∀ f ∈ fs, ∀ b ∈ f, b < 256) →
      (split_char ',' (join_char ',' (fs.map bytes_hex))).mapM bytes_fromhex =
        some fs := by
  intro fs
  induction fs with
  | nil => intro h _; exact absurd rfl h
  | cons f l ih =>
    intro _ hb
    have hf : ∀ b ∈ f, b < 256 := hb f (List.mem_cons_self f l)
    have hl : ∀ g ∈ l, ∀ b ∈ g, b < 256 := fun g hg => hb g (List.mem_cons_of_mem f hg)
    have hnosep : ∀ a ∈ bytes_hex f, a ≠ ',' :=
      fun a ha => (mem_bytes_hex f hf a ha).2.1
    cases l with
    | nil =>
      rw [List.map_cons, List.map_nil, join_char_singleton,
        split_char_no_sep ',' (bytes_hex f) hnosep, List.mapM_cons,
        bytes_fromhex_bytes_hex f hf, List.mapM_nil]
      rfl
    | cons g l' =>
      rw [List.map_cons, List.map_cons, join_char_cons_cons,
        split_char_piece ',' _ _ hnosep]
      have h2 := ih (by simp) hl
      rw [List.map_cons] at h2
      rw [List.mapM_cons, bytes_fromhex_bytes_hex f hf, h2]
      rfl

theorem split_lines_flat (ls : List (List Char))
    (h : ∀ l ∈ ls, ∀ ch ∈ l, ch ≠ '\n') :
    split_char '\n' (ls.flatMap (fun l => l ++ ['\n'])) = ls ++ [[]] := by
  induction ls with
  | nil => rfl
  | cons l ls ih =>
    have hl : ∀ ch ∈ l, ch ≠ '\n' := h l (List.mem_cons_self l ls)
    have hls : ∀ m ∈ ls, ∀ ch ∈ m, ch ≠ '\n' := fun m hm => h m (List.mem_cons_of_mem l hm)
    have ih2 := ih hls
    have hshape : (l :: ls).flatMap (fun m => m ++ ['\n']) =
        l ++ '\n' :: ls.flatMap (fun m => m ++ ['\n']) := by
      simp [List.flatMap_cons]
    rw [hshape, split_char_piece '\n' l _ hl, ih2]
    rfl

theorem text_lines_flat (ls : List (List Char))
    (h : ∀ l ∈ ls, ∀ ch ∈ l, ch ≠ '\n') :
    text_lines (ls.flatMap (fun l => l ++ ['\n'])) = ls := by
  unfold text_lines
  rw [split_lines_flat ls h]
  show (if (ls ++ [[]]).getLastD [] = [] then (ls ++ [[]]).dropLast else ls ++ [[]]) = ls
  rw [List.getLastD_concat, if_pos rfl, List.dropLast_concat]

theorem msfs_entries_to_text_map (es : List MsFsEntry) :
    msfs_entries_to_text es = (es.map msfs_line).flatMap (fun l => l ++ ['\n']) := by
  induction es with
  | nil => rfl
  | cons e l ih =>
    have h1 : msfs_entries_to_text (e :: l) =
        (msfs_line e ++ ['\n']) ++ msfs_entries_to_text l := rfl
    rw [h1, ih, List.map_cons, List.flatMap_cons]

theorem mem_msfs_line (e : MsFsEntry)
    (h0 : ∀ ch ∈ e.fullname, ch ≠ '\n')
    (h1 : ∀ ch ∈ e.ms_export_order, ch ≠ '\n')
    (h3 : ∀ ch ∈ e.pattern, ch ≠ '\n')
    (hh : ∀ b ∈ e.header, b < 256)
    (hfb : ∀ f ∈ e.frames, ∀ b ∈ f, b < 256)
    (hab : ∀ a ∈ e.animations, ∀ b ∈ a, b < 256) :
    ∀ ch ∈ msfs_line e, ch ≠ '\n' := by
  intro ch hch
  simp only [msfs_line, List.mem_append, List.mem_singleton, or_assoc] at hch
  have hjoin : ∀ (fs : List (List Nat)), (∀ f ∈ fs, ∀ b ∈ f, b < 256) →
      ch ∈ join_char ',' (fs.map bytes_hex) → ch ≠ '\n' := by
    intro fs hfs hm
    rcases mem_join_char ',' (fs.map bytes_hex) ch hm with hc | ⟨x, hx, hmem⟩
    · subst hc; decide
    · rcases List.mem_map.mp hx with ⟨f, hf, hfx⟩
      subst hfx
      exact (mem_bytes_hex f (hfs f hf) ch hmem).2.2
  rcases hch with hc | hc | hc | hc | hc | hc | hc | hc | hc | hc | hc
  · exact h0 ch hc
  · subst hc; decide
  · exact h1 ch hc
  · subst hc; decide
  · exact (mem_bytes_hex e.header hh ch hc).2.2
  · subst hc; decide
  · exact h3 ch hc
  · subst hc; decide
  · exact hjoin e.frames hfb hc
  · subst hc; decide
  · exact hjoin e.animations hab hc

theorem split_msfs_line_fields (e : MsFsEntry)
    (h0 : ∀ ch ∈ e.fullname, ch ≠ ' ')
    (h1 : ∀ ch ∈ e.ms_export_order, ch ≠ ' ')
    (h3 : ∀ ch ∈ e.pattern, ch ≠ ' ')
    (hh : ∀ b ∈ e.header, b < 256)
    (hfb : ∀ f ∈ e.frames, ∀ b ∈ f, b < 256)
    (hab : ∀ a ∈ e.animations, ∀ b ∈ a, b < 256) :
    split_char ' ' (msfs_line e) =
      [e.fullname, e.ms_export_order, bytes_hex e.header, e.pattern,
       join_char ',' (e.frames.map bytes_hex),
       join_char ',' (e.animations.map bytes_hex)] := by
  have hjoin : ∀ (fs : List (List Nat)), (∀ f ∈ fs, ∀ b ∈ f, b < 256) →
      ∀ ch ∈ join_char ',' (fs.map bytes_hex), ch ≠ ' ' := by
    intro fs hfs ch hm
    rcases mem_join_char ',' (fs.map bytes_hex) ch hm with hc | ⟨x, hx, hmem⟩
    · subst hc; decide
    · rcases List.mem_map.mp hx with ⟨f, hf, hfx⟩
      subst hfx
      exact (mem_bytes_hex f (hfs f hf) ch hmem).1
  have hhex : ∀ ch ∈ bytes_hex e.header, ch ≠ ' ' :=
    fun ch hm => (mem_bytes_hex e.header hh ch hm).1
  have hshape : msfs_line e =
      e.fullname ++ ' ' :: (e.ms_export_order ++ ' ' :: (bytes_hex e.header ++
        ' ' :: (e.pattern ++ ' ' :: (join_char ',' (e.frames.map bytes_hex) ++
          ' ' :: join_char ',' (e.animations.map bytes_hex))))) := by
    simp [msfs_line]
  rw [hshape, split_char_piece ' ' _ _ h0, split_char_piece ' ' _ _ h1,
    split_char_piece ' ' _ _ hhex, split_char_piece ' ' _ _ h3,
    split_char_piece ' ' _ _ (hjoin e.frames hfb),
    split_char_no_sep ' ' _ (hjoin e.animations hab)]

theorem text_to_msfs_entry_line (e : MsFsEntry)
    (h0 : ∀ ch ∈ e.fullname, ch ≠ ' ')
    (h1 : ∀ ch ∈ e.ms_export_order, ch ≠ ' ')
    (h3 : ∀ ch ∈ e.pattern, ch ≠ ' ')
    (hf : e.frames ≠ []) (ha : e.animations ≠ [])
    (hh : ∀ b ∈ e.header, b < 256)
    (hfb : ∀ f ∈ e.frames, ∀ b ∈ f, b < 256)
    (hab : ∀ a ∈ e.animations, ∀ b ∈ a, b < 256) :
    text_to_msfs_entry (msfs_line e) = some e := by
  unfold text_to_msfs_entry
  rw [split_msfs_line_fields e h0 h1 h3 hh hfb hab]
  show (match bytes_fromhex (bytes_hex e.header),
      (split_char ',' (join_char ',' (e.frames.map bytes_hex))).mapM bytes_fromhex,
      (split_char ',' (join_char ',' (e.animations.map bytes_hex))).mapM bytes_fromhex with
    | some header, some frames, some animations =>
      some { fullname := e.fullname, ms_export_order := e.ms_export_order,
             header := header, pattern := e.pattern, frames := frames,
             animations := animations }
    | _, _, _ => Option.none) = some e
  rw [bytes_fromhex_bytes_hex e.header hh, split_join_hex e.frames hf hfb,
    split_join_hex e.animations ha hab]

theorem msfs_lines_mapM :
    ∀ (es : List MsFsEntry),
      (∀ e ∈ es, (∀ ch ∈ e.fullname, ch ≠ ' ') ∧
        (∀ ch ∈ e.ms_export_order, ch ≠ ' ') ∧
        (∀ ch ∈ e.pattern, ch ≠ ' ') ∧ e.frames ≠ [] ∧ e.animations ≠ [] ∧
        (∀ b ∈ e.header, b < 256) ∧ (∀ f ∈ e.frames, ∀ b ∈ f, b < 256) ∧
        (∀ a ∈ e.animations, ∀ b ∈ a, b < 256)) →
      (es.map msfs_line).mapM text_to_msfs_entry = some es := by
  intro es
  induction es with
  | nil => intro _; rfl
  | cons e l ih =>
    intro h
    obtain ⟨p0, p1, p3, pf, pa, phh, pfb, pab⟩ := h e (List.mem_cons_self e l)
    have hl := fun x hx => h x (List.mem_cons_of_mem e hx)
    rw [List.map_cons, List.mapM_cons,
      text_to_msfs_entry_line e p0 p1 p3 pf pa phh pfb pab, ih hl]
    rfl

/-- C10 (amended): for entries whose fullname, export-order name and pattern
name contain no space and no newline characters, whose frames and
animations lists are non-empty, and whose byte strings hold bytes below
256, serialising with `msfs_entries_to_text` and parsing the lines back
with `text_to_msfs_entries` returns exactly the original entry list. -/
theorem msfs_text_roundtrip (es : List MsFsEntry)
    (h : ∀ e ∈ es,
      (∀ ch ∈ e.fullname, ch ≠ ' ' ∧ ch ≠ '\n') ∧
      (∀ ch ∈ e.ms_export_order, ch ≠ ' ' ∧ ch ≠ '\n') ∧
      (∀ ch ∈ e.pattern, ch ≠ ' ' ∧ ch ≠ '\n') ∧
      e.frames ≠ [] ∧ e.animations ≠ [] ∧
      (∀ b ∈ e.header, b < 256) ∧
      (∀ f ∈ e.frames, ∀ b ∈ f, b < 256) ∧
      (∀ a ∈ e.animations, ∀ b ∈ a, b < 256)) :
    text_to_msfs_entries (text_lines (msfs_entries_to_text es)) = some es := by
  have hlines : ∀ l ∈ es.map msfs_line, ∀ ch ∈ l, ch ≠ '\n' := by
    intro l hl ch hch
    rcases List.mem_map.mp hl with ⟨e, he, rfl⟩
    obtain ⟨p0, p1, p3, pf, pa, phh, pfb, pab⟩ := h e he
    exact mem_msfs_line e (fun ch hc => (p0 ch hc).2) (fun ch hc => (p1 ch hc).2)
      (fun ch hc => (p3 ch hc).2) phh pfb pab ch hch
  rw [msfs_entries_to_text_map, text_lines_flat _ hlines]
  exact msfs_lines_mapM es (fun e he =>
    let p := h e he
    ⟨fun ch hc => (p.1 ch hc).1, fun ch hc => (p.2.1 ch hc).1,
     fun ch hc => (p.2.2.1 ch hc).1, p.2.2.2.1, p.2.2.2.2.1,
     p.2.2.2.2.2.1, p.2.2.2.2.2.2.1, p.2.2.2.2.2.2.2⟩)

/-- Witness for C10: a one-entry list round-trips through the text format. -/
theorem msfs_text_roundtrip_witness :
    (∀ e ∈ [({ fullname := ['s', '.', 'f'], ms_export_order := ['e'],
               header := [0, 255], pattern := ['p'], frames := [[0], [171]],
               animations := [[16]] } : MsFsEntry)],
      (∀ ch ∈ e.fullname, ch ≠ ' ' ∧ ch ≠ '\n') ∧
      (∀ ch ∈ e.ms_export_order, ch ≠ ' ' ∧ ch ≠ '\n') ∧
      (∀ ch ∈ e.pattern, ch ≠ ' ' ∧ ch ≠ '\n') ∧
      e.frames ≠ [] ∧ e.animations ≠ [] ∧
      (∀ b ∈ e.header, b < 256) ∧
      (∀ f ∈ e.frames, ∀ b ∈ f, b < 256) ∧
      (∀ a ∈ e.animations, ∀ b ∈ a, b < 256)) ∧
    text_to_msfs_entries (text_lines (msfs_entries_to_text
      [({ fullname := ['s', '.', 'f'], ms_export_order := ['e'],
          header := [0, 255], pattern := ['p'], frames := [[0], [171]],
          animations := [[16]] } : MsFsEntry)])) =
      some [({ fullname := ['s', '.', 'f'], ms_export_order := ['e'],
               header := [0, 255], pattern := ['p'], frames := [[0], [171]],
               animations := [[16]] } : MsFsEntry)] :=
  ⟨by decide, msfs_text_roundtrip _ (by decide)⟩

/-- C10 counterexample: an entry satisfying the claim's stated conditions
(no space characters in the three names, non-empty frames and animations)
whose fullname contains a newline; the serialised text splits into two
lines and parsing fails, so the round-trip does not return the original
list. -/
theorem msfs_roundtrip_newline_counterexample :
    (∀ ch ∈ (['a', '\n', 'b'] : List Char), ch ≠ ' ') ∧
    (([[1]] : List (List Nat)) ≠ [] ∧ ([[2]] : List (List Nat)) ≠ []) ∧
    text_to_msfs_entries (text_lines (msfs_entries_to_text
      [({ fullname := ['a', '\n', 'b'], ms_export_order := ['e'],
          header := [1], pattern := ['p'], frames := [[1]],
          animations := [[2]] } : MsFsEntry)])) = Option.none := by
  decide

/-! ### Pattern matcher lemmas (C1) -/

theorem cellList_zero (w : Nat) : cellList 0 w = [] := rfl

theorem cellList_succ (h w : Nat) :
    cellList (h + 1) w = cellList h w ++ (List.range w).map (fun x => (x, h)) := by
  simp [cellList, List.range_succ]

theorem mem_cellList (h w : Nat) (c : Nat × Nat) :
    c ∈ cellList h w ↔ c.1 < w ∧ c.2 < h := by
  constructor
  · intro hc
    rcases List.mem_flatMap.mp hc with ⟨y, hy, hc2⟩
    rcases List.mem_map.mp hc2 with ⟨x, hx, hcx⟩
    subst hcx
    exact ⟨List.mem_range.mp hx, List.mem_range.mp hy⟩
  · intro ⟨h1, h2⟩
    exact List.mem_flatMap.mpr ⟨c.2, List.mem_range.mpr h2,
      List.mem_map.mpr ⟨c.1, List.mem_range.mpr h1, rfl⟩⟩

theorem cellList_length (h w : Nat) : (cellList h w).length = h * w := by
  induction h with
  | zero => simp [cellList_zero]
  | succ h ih =>
    rw [cellList_succ, List.length_append, ih, List.length_map, List.length_range]
    ring

theorem countP_split {α : Type} (l : List α) (q r : α → Bool) :
    l.countP q = l.countP (fun a => q a && r a) + l.countP (fun a => q a && !r a) := by
  induction l with
  | nil => rfl
  | cons a l ih =>
    simp only [List.countP_cons]
    cases hq : q a <;> cases hr : r a <;> simp [hq, hr] <;> omega

theorem countP_flatMap {α β : Type} (l : List α) (f : α → List β) (p : β → Bool) :
    (l.flatMap f).countP p = (l.map (fun a => (f a).countP p)).sum := by
  induction l with
  | nil => rfl
  | cons a l ih =>
    simp [List.flatMap_cons, List.countP_append, ih]

theorem count_segment (l : List Bool) :
    ∀ (w s : Nat), s + w ≤ l.length →
      ((l.drop s).take w).count true = (List.range w).countP (fun x => l.getD (s + x) false) := by
  intro w
  induction w with
  | zero => intro s _; rfl
  | succ w ih =>
    intro s hs
    rw [List.take_succ, List.count_append, ih s (by omega), List.range_succ,
      List.countP_append]
    have hget : (l.drop s)[w]? = some (l.getD (s + w) false) := by
      rw [List.getElem?_drop]
      rw [List.getElem?_eq_getElem (by omega)]
      rw [List.getD_eq_getElem?_getD, List.getElem?_eq_getElem (by omega)]
      rfl
    rw [hget]
    cases hv : l.getD (s + w) false <;>
      simp [hv, List.countP_cons, ← List.getD_eq_getElem?_getD]

theorem countP_cellList_take (w : Nat) :
    ∀ (h : Nat) (l : List Bool), h * w ≤ l.length →
      (cellList h w).countP (fun c => l.getD (c.2 * w + c.1) false) =
        (l.take (h * w)).count true := by
  intro h
  induction h with
  | zero => intro l _; simp [cellList_zero]
  | succ h ih =>
    intro l hl
    rw [cellList_succ, List.countP_append, List.countP_map,
      ih l (le_trans (by nlinarith) hl)]
    have hsucc : (h + 1) * w = h * w + w := by ring
    rw [hsucc, List.take_add, List.count_append,
      count_segment l w (h * w) (by omega)]
    have hcong : (List.range w).countP
        ((fun c => l.getD (c.2 * w + c.1) false) ∘ (fun x => (x, h))) =
        (List.range w).countP (fun x => l.getD (h * w + x) false) := by
      apply List.countP_congr
      intro x _
      simp [Function.comp, Nat.add_comm]
    rw [hcong]

theorem countP_range_window (W w xo : Nat) (q : Nat → Bool) (h : xo + w ≤ W) :
    (List.range W).countP (fun x => decide (xo ≤ x) && decide (x < xo + w) && q x) =
      (List.range w).countP (fun dx => q (xo + dx)) := by
  have hW : W = (xo + w) + (W - xo - w) := by omega
  rw [hW, List.range_add, List.range_add, List.countP_append, List.countP_append]
  have hz1 : (List.range xo).countP
      (fun x => decide (xo ≤ x) && decide (x < xo + w) && q x) = 0 := by
    rw [List.countP_eq_zero]
    intro x hx
    have := List.mem_range.mp hx
    simp [Nat.not_le.mpr this]
  have hz2 : ((List.range (W - xo - w)).map (fun x => xo + w + x)).countP
      (fun x => decide (xo ≤ x) && decide (x < xo + w) && q x) = 0 := by
    rw [List.countP_eq_zero]
    intro x hx
    rcases List.mem_map.mp hx with ⟨y, _, rfl⟩
    simp [show ¬(xo + w + y < xo + w) by omega]
  have hmid : ((List.range w).map (fun x => xo + x)).countP
      (fun x => decide (xo ≤ x) && decide (x < xo + w) && q x) =
      (List.range w).countP (fun dx => q (xo + dx)) := by
    rw [List.countP_map]
    apply List.countP_congr
    intro dx hdx
    have := List.mem_range.mp hdx
    simp [Function.comp, Nat.le_add_right, show xo + dx < xo + w by omega]
  rw [hz1, hz2, hmid]
  omega

theorem sum_range_window (ih ph yo : Nat) (g : Nat → Nat) (h : yo + ph ≤ ih)
    (h1 : ∀ y, y < yo → g y = 0) (h2 : ∀ y, yo + ph ≤ y → g y = 0) :
    ((List.range ih).map g).sum = ((List.range ph).map (fun dy => g (yo + dy))).sum := by
  have hW : ih = (yo + ph) + (ih - yo - ph) := by omega
  rw [hW, List.range_add, List.range_add, List.map_append, List.map_append,
    List.sum_append, List.sum_append]
  have hz1 : ((List.range yo).map g).sum = 0 := by
    apply List.sum_eq_zero
    intro x hx
    rcases List.mem_map.mp hx with ⟨y, hy, rfl⟩
    exact h1 y (List.mem_range.mp hy)
  have hz2 : (((List.range (ih - yo - ph)).map (fun x => yo + ph + x)).map g).sum = 0 := by
    apply List.sum_eq_zero
    intro x hx
    rcases List.mem_map.mp hx with ⟨z, hz, rfl⟩
    rcases List.mem_map.mp hz with ⟨y, _, rfl⟩
    exact h2 _ (by omega)
  rw [hz1, hz2, List.map_map]
  show 0 + (List.map (fun dy => g (yo + dy)) (List.range ph)).sum + 0 = _
  omega

theorem countP_window_eq (ihh iw ph pw xo yo : Nat) (l : List Bool)
    (hb1 : xo + pw ≤ iw) (hb2 : yo + ph ≤ ihh) :
    (cellList ihh iw).countP (fun c =>
        decide (xo ≤ c.1) && decide (c.1 < xo + pw) && decide (yo ≤ c.2) &&
        decide (c.2 < yo + ph) && l.getD (c.2 * iw + c.1) false) =
      (cellList ph pw).countP (fun c => l.getD ((c.2 + yo) * iw + (c.1 + xo)) false) := by
  unfold cellList
  rw [countP_flatMap, countP_flatMap]
  simp only [List.countP_map]
  rw [sum_range_window ihh ph yo _ hb2 ?z1 ?z2]
  case z1 =>
    intro y hy
    rw [List.countP_eq_zero]
    intro x _
    simp [Function.comp, Nat.not_le.mpr hy]
  case z2 =>
    intro y hy
    rw [List.countP_eq_zero]
    intro x _
    simp [Function.comp, show ¬(y < yo + ph) by omega]
  congr 1
  apply List.map_congr_left
  intro dy hdy
  have hdy' := List.mem_range.mp hdy
  have hstep1 : (List.range iw).countP
      ((fun c => decide (xo ≤ c.1) && decide (c.1 < xo + pw) && decide (yo ≤ c.2) &&
        decide (c.2 < yo + ph) && l.getD (c.2 * iw + c.1) false) ∘ (fun x => (x, yo + dy))) =
      (List.range iw).countP
        (fun x => decide (xo ≤ x) && decide (x < xo + pw) &&
          l.getD ((yo + dy) * iw + x) false) := by
    apply List.countP_congr
    intro x _
    simp [Function.comp, Nat.le_add_right, show yo + dy < yo + ph by omega, Bool.and_assoc]
  rw [hstep1, countP_range_window iw pw xo _ hb1]
  apply List.countP_congr
  intro dx _
  simp only [Function.comp]
  rw [show (dy + yo) * iw + (dx + xo) = (yo + dy) * iw + (xo + dx) by ring]

theorem tpg_loop_bad (p i : PatternGrid) (xo yo : Nat) :
    ∀ (cells : List (Nat × Nat)) (n u : Nat),
      (∃ c ∈ cells, iTileAt i xo yo c = true ∧ pTileAt p c = false) →
      test_pattern_grid_loop p i xo yo cells n u = Option.none := by
  intro cells
  induction cells with
  | nil => intro n u h; simp at h
  | cons c rest ih =>
    intro n u h
    unfold test_pattern_grid_loop
    cases hi : i.data.getD ((c.2 + yo) * i.width + (c.1 + xo)) false with
    | true =>
      cases hp : p.data.getD (c.2 * p.width + c.1) false with
      | true =>
        simp only [hi, hp, if_true]
        apply ih
        rcases h with ⟨c', hc', h1, h2⟩
        rcases List.mem_cons.mp hc' with hcc | hcc
        · subst hcc
          rw [pTileAt] at h2
          rw [h2] at hp
          cases hp
        · exact ⟨c', hcc, h1, h2⟩
      | false => simp only [hi, hp, if_true, Bool.false_eq_true, if_false]
    | false =>
      have hrest : ∃ c' ∈ rest, iTileAt i xo yo c' = true ∧ pTileAt p c' = false := by
        rcases h with ⟨c', hc', h1, h2⟩
        rcases List.mem_cons.mp hc' with hcc | hcc
        · subst hcc
          rw [iTileAt] at h1
          rw [h1] at hi
          cases hi
        · exact ⟨c', hcc, h1, h2⟩
      cases hp : p.data.getD (c.2 * p.width + c.1) false with
      | true =>
        simp only [hi, hp, Bool.false_eq_true, if_false, if_true]
        exact ih _ _ hrest
      | false =>
        simp only [hi, hp, Bool.false_eq_true, if_false]
        exact ih _ _ hrest

theorem tpg_loop_good (p i : PatternGrid) (xo yo : Nat) :
    ∀ (cells : List (Nat × Nat)) (n u : Nat),
      (∀ c ∈ cells, iTileAt i xo yo c = true → pTileAt p c = true) →
      test_pattern_grid_loop p i xo yo cells n u =
        some (n + cells.countP (iTileAt i xo yo),
          u + cells.countP (fun c => pTileAt p c && !iTileAt i xo yo c)) := by
  intro cells
  induction cells with
  | nil => intro n u _; simp [test_pattern_grid_loop]
  | cons c rest ih =>
    intro n u h
    have hrest : ∀ c' ∈ rest, iTileAt i xo yo c' = true → pTileAt p c' = true :=
      fun c' hc' => h c' (List.mem_cons_of_mem c hc')
    unfold test_pattern_grid_loop
    rw [List.countP_cons, List.countP_cons]
    by_cases hi : i.data.getD ((c.2 + yo) * i.width + (c.1 + xo)) false = true
    · have hp : pTileAt p c = true := h c (List.mem_cons_self c rest) hi
      have hp' : p.data.getD (c.2 * p.width + c.1) false = true := hp
      rw [if_pos hi, if_pos hp', ih (n + 1) u hrest]
      simp only [show iTileAt i xo yo c = true from hi, hp]
      simp
      omega
    · have hif : i.data.getD ((c.2 + yo) * i.width + (c.1 + xo)) false = false := by
        revert hi
        cases i.data.getD ((c.2 + yo) * i.width + (c.1 + xo)) false <;> simp
      rw [if_neg hi]
      by_cases hp : p.data.getD (c.2 * p.width + c.1) false = true
      · rw [if_pos hp, ih n (u + 1) hrest]
        simp only [show iTileAt i xo yo c = false from hif,
          show pTileAt p c = true from hp]
        simp
        omega
      · have hpf : p.data.getD (c.2 * p.width + c.1) false = false := by
          revert hp
          cases p.data.getD (c.2 * p.width + c.1) false <;> simp
        rw [if_neg hp, ih n u hrest]
        simp only [show iTileAt i xo yo c = false from hif,
          show pTileAt p c = false from hpf]
        simp

theorem tpg_bad (p i : PatternGrid) (xo yo : Nat)
    (h : ∃ c ∈ cellList p.height p.width, iTileAt i xo yo c = true ∧ pTileAt p c = false) :
    test_pattern_grid p i xo yo = (false, -1) := by
  unfold test_pattern_grid
  rw [tpg_loop_bad p i xo yo _ 0 0 h]

theorem tpg_good (p i : PatternGrid) (xo yo : Nat)
    (h : ∀ c ∈ cellList p.height p.width, iTileAt i xo yo c = true → pTileAt p c = true) :
    test_pattern_grid p i xo yo =
      (((cellList p.height p.width).countP (iTileAt i xo yo) == i.tile_count),
       (((cellList p.height p.width).countP
          (fun c => pTileAt p c && !iTileAt i xo yo c) : Nat) : Int)) := by
  unfold test_pattern_grid
  rw [tpg_loop_good p i xo yo _ 0 0 h]
  simp

theorem tpg_valid_equiv (p i : PatternGrid) (xo yo : Nat)
    (hil : i.data.length = i.height * i.width)
    (hit : i.tile_count = i.data.count true)
    (hb1 : xo + p.width ≤ i.width) (hb2 : yo + p.height ≤ i.height) :
    ((test_pattern_grid p i xo yo).1 = true ↔ ValidPlacement p i xo yo) ∧
    (ValidPlacement p i xo yo →
      (test_pattern_grid p i xo yo).2 = (Waste p i xo yo : Int)) ∧
    (ValidPlacement p i xo yo →
      (cellList p.height p.width).countP (iTileAt i xo yo) = i.tile_count) ∧
    (ValidPlacement p i xo yo →
      ∀ c ∈ cellList p.height p.width, iTileAt i xo yo c = true → pTileAt p c = true) := by
  have htotal : (cellList i.height i.width).countP
      (fun c => i.data.getD (c.2 * i.width + c.1) false) = i.data.count true := by
    have h1 := countP_cellList_take i.width i.height i.data (by omega)
    rw [← hil, List.take_length] at h1
    exact h1
  have hwindow : (cellList i.height i.width).countP (fun c =>
      decide (xo ≤ c.1) && decide (c.1 < xo + p.width) && decide (yo ≤ c.2) &&
      decide (c.2 < yo + p.height) && i.data.getD (c.2 * i.width + c.1) false) =
      (cellList p.height p.width).countP (iTileAt i xo yo) := by
    rw [countP_window_eq i.height i.width p.height p.width xo yo i.data hb1 hb2]
    rfl
  have hsplit := countP_split (cellList i.height i.width)
    (fun c => i.data.getD (c.2 * i.width + c.1) false)
    (fun c => decide (xo ≤ c.1) && decide (c.1 < xo + p.width) && decide (yo ≤ c.2) &&
      decide (c.2 < yo + p.height))
  have hcomm : (cellList i.height i.width).countP (fun c =>
      i.data.getD (c.2 * i.width + c.1) false &&
      (decide (xo ≤ c.1) && decide (c.1 < xo + p.width) && decide (yo ≤ c.2) &&
        decide (c.2 < yo + p.height))) =
      (cellList i.height i.width).countP (fun c =>
      decide (xo ≤ c.1) && decide (c.1 < xo + p.width) && decide (yo ≤ c.2) &&
      decide (c.2 < yo + p.height) && i.data.getD (c.2 * i.width + c.1) false) := by
    apply List.countP_congr
    intro c _
    rw [Bool.and_comm]
  have hbridge : ∀ (hcov : ∀ c ∈ cellList p.height p.width,
      iTileAt i xo yo c = true → pTileAt p c = true),
      ValidPlacement p i xo yo →
      (cellList i.height i.width).countP (fun c =>
        i.data.getD (c.2 * i.width + c.1) false &&
        !(decide (xo ≤ c.1) && decide (c.1 < xo + p.width) && decide (yo ≤ c.2) &&
          decide (c.2 < yo + p.height))) = 0 := by
    intro hcov hvp
    rw [List.countP_eq_zero]
    intro c hc
    rcases (mem_cellList i.height i.width c).mp hc with ⟨hcw, hch⟩
    cases hocc : i.data.getD (c.2 * i.width + c.1) false with
    | false => simp
    | true =>
      have := hvp.2.2 c.1 c.2 hcw hch hocc
      simp [this.1, this.2.1, this.2.2.1, this.2.2.2.1]
  have hcov_of_valid : ValidPlacement p i xo yo →
      ∀ c ∈ cellList p.height p.width, iTileAt i xo yo c = true → pTileAt p c = true := by
    intro hvp c hc hic
    rcases (mem_cellList p.height p.width c).mp hc with ⟨hcw, hch⟩
    have hoc : OccCell i (c.1 + xo) (c.2 + yo) = true := hic
    have := hvp.2.2 (c.1 + xo) (c.2 + yo) (by omega) (by omega) hoc
    have hpc := this.2.2.2.2
    rw [show c.1 + xo - xo = c.1 from by omega, show c.2 + yo - yo = c.2 from by omega] at hpc
    exact hpc
  refine ⟨?_, ?_, ?_, hcov_of_valid⟩
  · constructor
    · intro hv
      have hcov : ∀ c ∈ cellList p.height p.width,
          iTileAt i xo yo c = true → pTileAt p c = true := by
        by_contra hbad
        push_neg at hbad
        rcases hbad with ⟨c, hc, hic, hpc⟩
        have hpf : pTileAt p c = false := by
          revert hpc
          cases pTileAt p c <;> simp
        rw [tpg_bad p i xo yo ⟨c, hc, hic, hpf⟩] at hv
        cases hv
      have hcount : (cellList p.height p.width).countP (iTileAt i xo yo) =
          i.tile_count := by
        rw [tpg_good p i xo yo hcov] at hv
        have hv2 : ((cellList p.height p.width).countP (iTileAt i xo yo) ==
            i.tile_count) = true := hv
        simpa using hv2
      have houtside : (cellList i.height i.width).countP (fun c =>
          i.data.getD (c.2 * i.width + c.1) false &&
          !(decide (xo ≤ c.1) && decide (c.1 < xo + p.width) && decide (yo ≤ c.2) &&
            decide (c.2 < yo + p.height))) = 0 := by
        rw [htotal, hcomm, hwindow, hcount] at hsplit
        omega
      refine ⟨hb1, hb2, ?_⟩
      intro cx cy hcx hcy hocc
      have hwin : (decide (xo ≤ cx) && decide (cx < xo + p.width) && decide (yo ≤ cy) &&
          decide (cy < yo + p.height)) = true := by
        by_contra hnw
        have hnwf : (decide (xo ≤ cx) && decide (cx < xo + p.width) && decide (yo ≤ cy) &&
            decide (cy < yo + p.height)) = false := by
          revert hnw
          cases (decide (xo ≤ cx) && decide (cx < xo + p.width) && decide (yo ≤ cy) &&
            decide (cy < yo + p.height)) <;> simp
        have hpos : 0 < (cellList i.height i.width).countP (fun c =>
            i.data.getD (c.2 * i.width + c.1) false &&
            !(decide (xo ≤ c.1) && decide (c.1 < xo + p.width) && decide (yo ≤ c.2) &&
              decide (c.2 < yo + p.height))) := by
          rw [List.countP_pos_iff]
          refine ⟨(cx, cy), (mem_cellList i.height i.width (cx, cy)).mpr ⟨hcx, hcy⟩, ?_⟩
          have hoc : i.data.getD (cy * i.width + cx) false = true := hocc
          simp only [hoc, hnwf]
          rfl
        omega
      simp only [Bool.and_eq_true, decide_eq_true_eq] at hwin
      obtain ⟨⟨⟨hw1, hw2⟩, hw3⟩, hw4⟩ := hwin
      refine ⟨hw1, hw2, hw3, hw4, ?_⟩
      have hc0 : (cx - xo, cy - yo) ∈ cellList p.height p.width :=
        (mem_cellList p.height p.width _).mpr ⟨by omega, by omega⟩
      have hic : iTileAt i xo yo (cx - xo, cy - yo) = true := by
        show i.data.getD ((cy - yo + yo) * i.width + (cx - xo + xo)) false = true
        rw [show cy - yo + yo = cy from by omega, show cx - xo + xo = cx from by omega]
        exact hocc
      exact hcov _ hc0 hic
    · intro hvp
      have hcov := hcov_of_valid hvp
      have houtside := hbridge hcov hvp
      rw [htotal, hcomm, hwindow, houtside] at hsplit
      have hwc : (cellList p.height p.width).countP (iTileAt i xo yo) = i.tile_count := by
        omega
      rw [tpg_good p i xo yo hcov]
      show ((cellList p.height p.width).countP (iTileAt i xo yo) == i.tile_count) = true
      simp [hwc]
  · intro hvp
    have hcov := hcov_of_valid hvp
    rw [tpg_good p i xo yo hcov]
    rfl
  · intro hvp
    have hcov := hcov_of_valid hvp
    have houtside := hbridge hcov hvp
    rw [htotal, hcomm, hwindow, houtside] at hsplit
    omega

theorem sum_const_range (n c : Nat) : ((List.range n).map (fun _ => c)).sum = n * c := by
  induction n with
  | zero => simp
  | succ n ih =>
    rw [List.range_succ, List.map_append, List.sum_append, ih]
    simp
    ring

theorem frame_i_grid_wf (occ : Nat → Nat → Bool) (xo yo fw fh : Nat) :
    (frame_i_grid occ xo yo fw fh).data.length =
      (frame_i_grid occ xo yo fw fh).height * (frame_i_grid occ xo yo fw fh).width ∧
    (frame_i_grid occ xo yo fw fh).tile_count =
      (frame_i_grid occ xo yo fw fh).data.count true := by
  refine ⟨?_, rfl⟩
  show ((List.range (fh / 8)).flatMap fun ry => (List.range (fw / 8)).map fun rx =>
    occ (xo + 8 * rx) (yo + 8 * ry)).length = (fh / 8) * (fw / 8)
  rw [List.length_flatMap]
  have : ∀ ry : Nat, ((List.range (fw / 8)).map fun rx =>
      occ (xo + 8 * rx) (yo + 8 * ry)).length = fw / 8 := by
    intro ry
    rw [List.length_map, List.length_range]
  calc ((List.range (fh / 8)).map fun ry => ((List.range (fw / 8)).map fun rx =>
          occ (xo + 8 * rx) (yo + 8 * ry)).length).sum
      = ((List.range (fh / 8)).map fun _ => fw / 8).sum := by
        apply congrArg
        apply List.map_congr_left
        intro ry _
        exact this ry
    _ = (fh / 8) * (fw / 8) := sum_const_range _ _

theorem list_getD_mem {α : Type} (l : List α) (j : Nat) (d : α) (h : j < l.length) :
    l.getD j d ∈ l := by
  rw [List.getD_eq_getElem?_getD, List.getElem?_eq_getElem h]
  exact List.getElem_mem h

theorem mem_candidates (pgs : List PatternGrid) (i : PatternGrid) (pg : PatternGrid)
    (x y : Nat) :
    (pg, x, y) ∈ find_best_pattern_candidates pgs i ↔
      pg ∈ pgs ∧ i.tile_count ≤ pg.tile_count ∧ pg.width ≤ i.width ∧
      pg.height ≤ i.height ∧ x + pg.width ≤ i.width ∧ y + pg.height ≤ i.height := by
  unfold find_best_pattern_candidates
  rw [List.mem_flatMap]
  constructor
  · rintro ⟨q, hq, hmem⟩
    by_cases hcond : i.tile_count ≤ q.tile_count ∧ q.width ≤ i.width ∧ q.height ≤ i.height
    · rw [if_pos hcond] at hmem
      rw [List.mem_flatMap] at hmem
      rcases hmem with ⟨y', hy', hmem2⟩
      rcases List.mem_map.mp hmem2 with ⟨x', hx', heq⟩
      have h3 : q = pg ∧ x' = x ∧ y' = y := by
        simpa [Prod.ext_iff] using heq
      obtain ⟨rfl, rfl, rfl⟩ := h3
      have hxr := List.mem_range.mp hx'
      have hyr := List.mem_range.mp hy'
      exact ⟨hq, hcond.1, hcond.2.1, hcond.2.2, by omega, by omega⟩
    · rw [if_neg hcond] at hmem
      simp at hmem
  · rintro ⟨hpg, h1, h2, h3, h4, h5⟩
    refine ⟨pg, hpg, ?_⟩
    rw [if_pos ⟨h1, h2, h3⟩, List.mem_flatMap]
    exact ⟨y, List.mem_range.mpr (by omega),
      List.mem_map.mpr ⟨x, List.mem_range.mpr (by omega), rfl⟩⟩

theorem find_best_pattern_fold_eq (i : PatternGrid) (cands : List (PatternGrid × Nat × Nat)) :
    find_best_pattern_fold i cands = cands.foldl (fun best c =>
      if (test_pattern_grid c.1 i c.2.1 c.2.2).1 = true ∧
          (test_pattern_grid c.1 i c.2.1 c.2.2).2 < best.1 then
        ((test_pattern_grid c.1 i c.2.1 c.2.2).2, c.1.pattern, c.2.1 * 8, c.2.2 * 8)
      else best) (0xffff, Option.none, 0, 0) := rfl

theorem fbp_fold_no_update (i : PatternGrid) :
    ∀ (cands : List (PatternGrid × Nat × Nat)) (acc : Int × Option MsPattern × Nat × Nat),
      (∀ c ∈ cands, ¬((test_pattern_grid c.1 i c.2.1 c.2.2).1 = true ∧
        (test_pattern_grid c.1 i c.2.1 c.2.2).2 < acc.1)) →
      cands.foldl (fun best c =>
        if (test_pattern_grid c.1 i c.2.1 c.2.2).1 = true ∧
            (test_pattern_grid c.1 i c.2.1 c.2.2).2 < best.1 then
          ((test_pattern_grid c.1 i c.2.1 c.2.2).2, c.1.pattern, c.2.1 * 8, c.2.2 * 8)
        else best) acc = acc := by
  intro cands
  induction cands with
  | nil => intro acc _; rfl
  | cons c rest ih =>
    intro acc h
    simp only [List.foldl_cons]
    rw [if_neg (h c (List.mem_cons_self c rest))]
    exact ih acc (fun c' hc' => h c' (List.mem_cons_of_mem c hc'))

theorem fbp_fold_char (i : PatternGrid) :
    ∀ (cands : List (PatternGrid × Nat × Nat)) (acc : Int × Option MsPattern × Nat × Nat),
      (cands.foldl (fun best c =>
        if (test_pattern_grid c.1 i c.2.1 c.2.2).1 = true ∧
            (test_pattern_grid c.1 i c.2.1 c.2.2).2 < best.1 then
          ((test_pattern_grid c.1 i c.2.1 c.2.2).2, c.1.pattern, c.2.1 * 8, c.2.2 * 8)
        else best) acc = acc ∧
        ∀ c ∈ cands, (test_pattern_grid c.1 i c.2.1 c.2.2).1 = true →
          acc.1 ≤ (test_pattern_grid c.1 i c.2.1 c.2.2).2) ∨
      (∃ pre cur post, cands = pre ++ cur :: post ∧
        (test_pattern_grid cur.1 i cur.2.1 cur.2.2).1 = true ∧
        (test_pattern_grid cur.1 i cur.2.1 cur.2.2).2 < acc.1 ∧
        cands.foldl (fun best c =>
          if (test_pattern_grid c.1 i c.2.1 c.2.2).1 = true ∧
              (test_pattern_grid c.1 i c.2.1 c.2.2).2 < best.1 then
            ((test_pattern_grid c.1 i c.2.1 c.2.2).2, c.1.pattern, c.2.1 * 8, c.2.2 * 8)
          else best) acc =
          ((test_pattern_grid cur.1 i cur.2.1 cur.2.2).2, cur.1.pattern,
            cur.2.1 * 8, cur.2.2 * 8) ∧
        (∀ c ∈ pre, (test_pattern_grid c.1 i c.2.1 c.2.2).1 = true →
          (test_pattern_grid cur.1 i cur.2.1 cur.2.2).2 <
            (test_pattern_grid c.1 i c.2.1 c.2.2).2) ∧
        (∀ c ∈ post, (test_pattern_grid c.1 i c.2.1 c.2.2).1 = true →
          (test_pattern_grid cur.1 i cur.2.1 cur.2.2).2 ≤
            (test_pattern_grid c.1 i c.2.1 c.2.2).2)) := by
  intro cands
  induction cands with
  | nil => intro acc; left; exact ⟨rfl, by simp⟩
  | cons c rest ih =>
    intro acc
    simp only [List.foldl_cons]
    by_cases hstep : (test_pattern_grid c.1 i c.2.1 c.2.2).1 = true ∧
        (test_pattern_grid c.1 i c.2.1 c.2.2).2 < acc.1
    · rw [if_pos hstep]
      rcases ih ((test_pattern_grid c.1 i c.2.1 c.2.2).2, c.1.pattern,
          c.2.1 * 8, c.2.2 * 8) with ⟨hres, hall⟩ | ⟨pre, cur, post, heq, hvc, hlt, hres, hpre, hpost⟩
      · right
        exact ⟨[], c, rest, rfl, hstep.1, hstep.2, hres, by simp, hall⟩
      · right
        refine ⟨c :: pre, cur, post, by rw [heq, List.cons_append], hvc, ?_, hres, ?_, hpost⟩
        · exact lt_trans hlt hstep.2
        · intro c' hc' hv'
          rcases List.mem_cons.mp hc' with hcc | hcc
          · subst hcc
            exact hlt
          · exact hpre c' hcc hv'
    · rw [if_neg hstep]
      rcases ih acc with ⟨hres, hall⟩ | ⟨pre, cur, post, heq, hvc, hlt, hres, hpre, hpost⟩
      · left
        refine ⟨hres, ?_⟩
        intro c' hc' hv'
        rcases List.mem_cons.mp hc' with hcc | hcc
        · subst hcc
          by_contra hnot
          exact hstep ⟨hv', by omega⟩
        · exact hall c' hcc hv'
      · right
        refine ⟨c :: pre, cur, post, by rw [heq, List.cons_append], hvc, hlt, hres, ?_, hpost⟩
        intro c' hc' hv'
        rcases List.mem_cons.mp hc' with hcc | hcc
        · subst hcc
          have hge : acc.1 ≤ (test_pattern_grid c'.1 i c'.2.1 c'.2.2).2 := by
            by_contra hnot
            exact hstep ⟨hv', by omega⟩
          exact lt_of_lt_of_le hlt hge
        · exact hpre c' hcc hv'

theorem candidates_complete (pgs : List PatternGrid) (i : PatternGrid)
    (hil : i.data.length = i.height * i.width) (hit : i.tile_count = i.data.count true)
    (pg : PatternGrid) (hpg : pg ∈ pgs)
    (hlen : pg.data.length = pg.height * pg.width)
    (hcnt : pg.data.count true ≤ pg.tile_count)
    (px py : Nat) (hvp : ValidPlacement pg i px py) :
    (pg, px, py) ∈ find_best_pattern_candidates pgs i := by
  have hb1 := hvp.1
  have hb2 := hvp.2.1
  apply (mem_candidates pgs i pg px py).mpr
  have hequiv := tpg_valid_equiv pg i px py hil hit hb1 hb2
  have hwc := hequiv.2.2.1 hvp
  have hcov := hequiv.2.2.2 hvp
  have hmono := List.countP_mono_left hcov
  have hptile : (cellList pg.height pg.width).countP (pTileAt pg) = pg.data.count true := by
    have h1 := countP_cellList_take pg.width pg.height pg.data (by omega)
    rw [← hlen, List.take_length] at h1
    exact h1
  refine ⟨hpg, ?_, by omega, by omega, hb1, hb2⟩
  calc i.tile_count = (cellList pg.height pg.width).countP (iTileAt i px py) := hwc.symm
    _ ≤ (cellList pg.height pg.width).countP (pTileAt pg) := hmono
    _ = pg.data.count true := hptile
    _ ≤ pg.tile_count := hcnt

/-- C1 (amended): for a frame whose width and height are multiples of 8,
searching a well-formed catalogue (each grid carries a pattern, its data is
`height * width` cells, and its occupied-cell count is at most its
`tile_count`): if some catalogue pattern admits a valid placement (every
occupied frame cell covered by an occupied pattern cell) with waste (unused
pattern cells) below the 0xffff sentinel, then `find_best_pattern` returns
that pattern with the pixel offset of a valid placement of minimal waste
over all valid placements, and the chosen candidate is the first in the
scan order (catalogue order, then row-major offsets) among valid candidates
to attain that waste; if no valid placement has waste below the sentinel
(in particular if no valid placement exists at all), it fails with the
per-frame error naming the frame's offset. -/
theorem find_best_pattern_spec (occ : Nat → Nat → Bool) (pgs : List PatternGrid)
    (xo yo fw fh : Nat)
    (hw : fw % 8 = 0) (hh : fh % 8 = 0)
    (hcat : ∀ pg ∈ pgs, pg.pattern.isSome ∧ pg.data.length = pg.height * pg.width ∧
      pg.data.count true ≤ pg.tile_count) :
    ((∃ pg ∈ pgs, ∃ px py, ValidPlacement pg (frame_i_grid occ xo yo fw fh) px py ∧
        Waste pg (frame_i_grid occ xo yo fw fh) px py < 0xffff) →
      ∃ pg px py p,
        pg ∈ pgs ∧ pg.pattern = some p ∧
        find_best_pattern occ pgs xo yo fw fh = .ok (p, px * 8, py * 8) ∧
        ValidPlacement pg (frame_i_grid occ xo yo fw fh) px py ∧
        Waste pg (frame_i_grid occ xo yo fw fh) px py < 0xffff ∧
        (∀ pg' ∈ pgs, ∀ px' py',
          ValidPlacement pg' (frame_i_grid occ xo yo fw fh) px' py' →
          Waste pg (frame_i_grid occ xo yo fw fh) px py ≤
            Waste pg' (frame_i_grid occ xo yo fw fh) px' py') ∧
        (∃ pre post,
          find_best_pattern_candidates pgs (frame_i_grid occ xo yo fw fh) =
            pre ++ (pg, px, py) :: post ∧
          ∀ c ∈ pre, ValidPlacement c.1 (frame_i_grid occ xo yo fw fh) c.2.1 c.2.2 →
            Waste pg (frame_i_grid occ xo yo fw fh) px py <
              Waste c.1 (frame_i_grid occ xo yo fw fh) c.2.1 c.2.2)) ∧
    ((¬∃ pg ∈ pgs, ∃ px py, ValidPlacement pg (frame_i_grid occ xo yo fw fh) px py ∧
        Waste pg (frame_i_grid occ xo yo fw fh) px py < 0xffff) →
      find_best_pattern occ pgs xo yo fw fh =
        .error (cannot_find_pattern_msg xo yo)) := by
  obtain ⟨hil, hit⟩ := frame_i_grid_wf occ xo yo fw fh
  have hcond : ¬(fw % 8 ≠ 0 ∨ fh % 8 ≠ 0) := by simp [hw, hh]
  have hsound : ∀ c ∈ find_best_pattern_candidates pgs (frame_i_grid occ xo yo fw fh),
      c.1 ∈ pgs ∧ c.2.1 + c.1.width ≤ (frame_i_grid occ xo yo fw fh).width ∧
      c.2.2 + c.1.height ≤ (frame_i_grid occ xo yo fw fh).height := by
    intro c hc
    have hm := (mem_candidates pgs (frame_i_grid occ xo yo fw fh) c.1 c.2.1 c.2.2).mp hc
    exact ⟨hm.1, hm.2.2.2.2.1, hm.2.2.2.2.2⟩
  have hcompl : ∀ pg ∈ pgs, ∀ px py,
      ValidPlacement pg (frame_i_grid occ xo yo fw fh) px py →
      (pg, px, py) ∈ find_best_pattern_candidates pgs (frame_i_grid occ xo yo fw fh) := by
    intro pg hpg px py hvp
    exact candidates_complete pgs (frame_i_grid occ xo yo fw fh) hil hit pg hpg
      (hcat pg hpg).2.1 (hcat pg hpg).2.2 px py hvp
  constructor
  · intro hex
    obtain ⟨pg0, hpg0, px0, py0, hvp0, hwl0⟩ := hex
    have hc0 := hcompl pg0 hpg0 px0 py0 hvp0
    have hequiv0 := tpg_valid_equiv pg0 (frame_i_grid occ xo yo fw fh) px0 py0 hil hit
      hvp0.1 hvp0.2.1
    have hvalid0 : (test_pattern_grid pg0 (frame_i_grid occ xo yo fw fh) px0 py0).1 =
        true := hequiv0.1.mpr hvp0
    have hw0 := hequiv0.2.1 hvp0
    rcases fbp_fold_char (frame_i_grid occ xo yo fw fh)
        (find_best_pattern_candidates pgs (frame_i_grid occ xo yo fw fh))
        (0xffff, Option.none, 0, 0) with
      ⟨hres, hall⟩ | ⟨pre, cur, post, heq, hvc, hlt, hres, hpre, hpost⟩
    · exfalso
      have h1 := hall (pg0, px0, py0) hc0 hvalid0
      rw [hw0] at h1
      have hacc : ((0xffff, Option.none, 0, 0) :
          Int × Option MsPattern × Nat × Nat).1 = (65535 : Int) := rfl
      rw [hacc] at h1
      omega
    · have hcur_mem : cur ∈ find_best_pattern_candidates pgs
          (frame_i_grid occ xo yo fw fh) := by
        rw [heq]
        exact List.mem_append.mpr (Or.inr (List.mem_cons_self cur post))
      obtain ⟨hcur_pgs, hcb1, hcb2⟩ := hsound cur hcur_mem
      have hequivc := tpg_valid_equiv cur.1 (frame_i_grid occ xo yo fw fh) cur.2.1 cur.2.2
        hil hit hcb1 hcb2
      have hvp_cur : ValidPlacement cur.1 (frame_i_grid occ xo yo fw fh) cur.2.1 cur.2.2 :=
        hequivc.1.mp hvc
      have hw_cur := hequivc.2.1 hvp_cur
      obtain ⟨p, hp⟩ := Option.isSome_iff_exists.mp (hcat cur.1 hcur_pgs).1
      have hfold : find_best_pattern_fold (frame_i_grid occ xo yo fw fh)
          (find_best_pattern_candidates pgs (frame_i_grid occ xo yo fw fh)) =
          ((test_pattern_grid cur.1 (frame_i_grid occ xo yo fw fh) cur.2.1 cur.2.2).2,
            cur.1.pattern, cur.2.1 * 8, cur.2.2 * 8) :=
        (find_best_pattern_fold_eq _ _).trans hres
      have hok : find_best_pattern occ pgs xo yo fw fh =
          .ok (p, cur.2.1 * 8, cur.2.2 * 8) := by
        unfold find_best_pattern
        rw [if_neg hcond]
        show (match (find_best_pattern_fold (frame_i_grid occ xo yo fw fh)
            (find_best_pattern_candidates pgs (frame_i_grid occ xo yo fw fh))).2.1 with
          | Option.none => Except.error (cannot_find_pattern_msg xo yo)
          | some q => Except.ok (q,
              (find_best_pattern_fold (frame_i_grid occ xo yo fw fh)
                (find_best_pattern_candidates pgs (frame_i_grid occ xo yo fw fh))).2.2.1,
              (find_best_pattern_fold (frame_i_grid occ xo yo fw fh)
                (find_best_pattern_candidates pgs (frame_i_grid occ xo yo fw fh))).2.2.2)) =
          Except.ok (p, cur.2.1 * 8, cur.2.2 * 8)
        rw [hfold]
        show (match cur.1.pattern with
          | Option.none => Except.error (cannot_find_pattern_msg xo yo)
          | some q => Except.ok (q, cur.2.1 * 8, cur.2.2 * 8)) =
          Except.ok (p, cur.2.1 * 8, cur.2.2 * 8)
        rw [hp]
      have hwlt : Waste cur.1 (frame_i_grid occ xo yo fw fh) cur.2.1 cur.2.2 < 0xffff := by
        rw [hw_cur] at hlt
        have hacc : ((0xffff, Option.none, 0, 0) :
            Int × Option MsPattern × Nat × Nat).1 = (65535 : Int) := rfl
        rw [hacc] at hlt
        omega
      refine ⟨cur.1, cur.2.1, cur.2.2, p, hcur_pgs, hp, hok, hvp_cur, hwlt, ?_, pre, post,
        heq, ?_⟩
      · intro pg' hpg' px' py' hvp'
        have hmem' := hcompl pg' hpg' px' py' hvp'
        have hequiv' := tpg_valid_equiv pg' (frame_i_grid occ xo yo fw fh) px' py' hil hit
          hvp'.1 hvp'.2.1
        have hv' : (test_pattern_grid pg' (frame_i_grid occ xo yo fw fh) px' py').1 =
            true := hequiv'.1.mpr hvp'
        have hwaste' := hequiv'.2.1 hvp'
        rw [heq] at hmem'
        rcases List.mem_append.mp hmem' with hcc | hcc
        · have := hpre (pg', px', py') hcc hv'
          rw [hw_cur, hwaste'] at this
          omega
        · rcases List.mem_cons.mp hcc with hcc2 | hcc2
          · have h3 : pg' = cur.1 ∧ px' = cur.2.1 ∧ py' = cur.2.2 := by
              rw [← hcc2]
              exact ⟨rfl, rfl, rfl⟩
            rw [h3.1, h3.2.1, h3.2.2]
          · have := hpost (pg', px', py') hcc2 hv'
            rw [hw_cur, hwaste'] at this
            omega
      · intro c hc hvpc
        have hcmem : c ∈ find_best_pattern_candidates pgs
            (frame_i_grid occ xo yo fw fh) := by
          rw [heq]
          exact List.mem_append.mpr (Or.inl hc)
        obtain ⟨_, hcb1', hcb2'⟩ := hsound c hcmem
        have hequivp := tpg_valid_equiv c.1 (frame_i_grid occ xo yo fw fh) c.2.1 c.2.2
          hil hit hcb1' hcb2'
        have hvcb : (test_pattern_grid c.1 (frame_i_grid occ xo yo fw fh) c.2.1 c.2.2).1 =
            true := hequivp.1.mpr hvpc
        have := hpre c hc hvcb
        rw [hw_cur, hequivp.2.1 hvpc] at this
        omega
  · intro hnex
    have hnoup : ∀ c ∈ find_best_pattern_candidates pgs (frame_i_grid occ xo yo fw fh),
        ¬((test_pattern_grid c.1 (frame_i_grid occ xo yo fw fh) c.2.1 c.2.2).1 = true ∧
          (test_pattern_grid c.1 (frame_i_grid occ xo yo fw fh) c.2.1 c.2.2).2 <
            ((0xffff, Option.none, 0, 0) :
              Int × Option MsPattern × Nat × Nat).1) := by
      rintro c hc ⟨hv, hlt⟩
      obtain ⟨hcin, hb1c, hb2c⟩ := hsound c hc
      have hequivc := tpg_valid_equiv c.1 (frame_i_grid occ xo yo fw fh) c.2.1 c.2.2
        hil hit hb1c hb2c
      have hvpc := hequivc.1.mp hv
      have hwc := hequivc.2.1 hvpc
      apply hnex
      refine ⟨c.1, hcin, c.2.1, c.2.2, hvpc, ?_⟩
      rw [hwc] at hlt
      have hbound : (((0xffff, Option.none, 0, 0) :
        Int × Option MsPattern × Nat × Nat).1 : Int) = 65535 := rfl
      omega
    have hnu := fbp_fold_no_update (frame_i_grid occ xo yo fw fh)
      (find_best_pattern_candidates pgs (frame_i_grid occ xo yo fw fh))
      (0xffff, Option.none, 0, 0) hnoup
    have hfold0 : find_best_pattern_fold (frame_i_grid occ xo yo fw fh)
        (find_best_pattern_candidates pgs (frame_i_grid occ xo yo fw fh)) =
        (0xffff, Option.none, 0, 0) := (find_best_pattern_fold_eq _ _).trans hnu
    unfold find_best_pattern
    rw [if_neg hcond]
    show (match (find_best_pattern_fold (frame_i_grid occ xo yo fw fh)
        (find_best_pattern_candidates pgs (frame_i_grid occ xo yo fw fh))).2.1 with
      | Option.none => Except.error (cannot_find_pattern_msg xo yo)
      | some q => Except.ok (q,
          (find_best_pattern_fold (frame_i_grid occ xo yo fw fh)
            (find_best_pattern_candidates pgs (frame_i_grid occ xo yo fw fh))).2.2.1,
          (find_best_pattern_fold (frame_i_grid occ xo yo fw fh)
            (find_best_pattern_candidates pgs (frame_i_grid occ xo yo fw fh))).2.2.2)) =
      Except.error (cannot_find_pattern_msg xo yo)
    rw [hfold0]

theorem getD_false_of_all_false (l : List Bool) (h : ∀ b ∈ l, b = false) (n : Nat) :
    l.getD n false = false := by
  rw [List.getD_eq_getElem?_getD]
  cases hg : l[n]? with
  | none => rfl
  | some b =>
    have hb : b ∈ l := List.getElem?_mem hg
    simp [h b hb]

theorem find_best_pattern_match_form (occ : Nat → Nat → Bool) (pgs : List PatternGrid)
    (xo yo fw fh : Nat) (hc : ¬(fw % 8 ≠ 0 ∨ fh % 8 ≠ 0)) :
    find_best_pattern occ pgs xo yo fw fh =
      (match (find_best_pattern_fold (frame_i_grid occ xo yo fw fh)
          (find_best_pattern_candidates pgs (frame_i_grid occ xo yo fw fh))).2.1 with
      | Option.none => Except.error (cannot_find_pattern_msg xo yo)
      | some p => Except.ok (p,
          (find_best_pattern_fold (frame_i_grid occ xo yo fw fh)
            (find_best_pattern_candidates pgs (frame_i_grid occ xo yo fw fh))).2.2.1,
          (find_best_pattern_fold (frame_i_grid occ xo yo fw fh)
            (find_best_pattern_candidates pgs (frame_i_grid occ xo yo fw fh))).2.2.2)) := by
  unfold find_best_pattern
  rw [if_neg hc]

/-- C1 counterexample: an all-unoccupied 2048×2048 frame and a catalogue
holding one 256×256 fully-occupied pattern.  Placing the pattern at offset
(0, 0) is a valid placement (vacuously: no frame cell is occupied), but its
waste is 65536 ≥ 0xffff, the sentinel the search initialises
`best_n_unused_tiles` with; the strict `<` comparison therefore never
updates the best candidate and `find_best_pattern` raises the
cannot-find-pattern error even though a valid placement exists. -/
theorem find_best_pattern_sentinel_counterexample :
    ValidPlacement
      { tile_count := 65536, width := 256, height := 256,
        data := List.replicate 65536 true, pattern := some { id := 0, objects := [] } }
      (frame_i_grid (fun _ _ => false) 0 0 2048 2048) 0 0 ∧
    0xffff ≤ Waste
      { tile_count := 65536, width := 256, height := 256,
        data := List.replicate 65536 true, pattern := some { id := 0, objects := [] } }
      (frame_i_grid (fun _ _ => false) 0 0 2048 2048) 0 0 ∧
    find_best_pattern (fun _ _ => false)
      [{ tile_count := 65536, width := 256, height := 256,
         data := List.replicate 65536 true, pattern := some { id := 0, objects := [] } }]
      0 0 2048 2048 = .error (cannot_find_pattern_msg 0 0) := by
  set P : PatternGrid :=
    { tile_count := 65536, width := 256, height := 256,
      data := List.replicate 65536 true, pattern := some { id := 0, objects := [] } }
    with hPdef
  set I : PatternGrid := frame_i_grid (fun _ _ => false) 0 0 2048 2048 with hIdef
  obtain ⟨hil, hit⟩ := frame_i_grid_wf (fun _ _ => false) 0 0 2048 2048
  rw [← hIdef] at hil hit
  have hdata_false : ∀ b ∈ I.data, b = false := by
    intro b hb
    rw [hIdef] at hb
    rcases List.mem_flatMap.mp hb with ⟨ry, _, hb2⟩
    rcases List.mem_map.mp hb2 with ⟨rx, _, rfl⟩
    rfl
  have hocc_false : ∀ x y, OccCell I x y = false := by
    intro x y
    exact getD_false_of_all_false _ hdata_false _
  have htc : I.tile_count = 0 := by
    rw [hit, List.count_eq_zero]
    intro hmem
    exact absurd (hdata_false true hmem) (by decide)
  have hiw : I.width = 256 := rfl
  have hih : I.height = 256 := rfl
  have hvp : ValidPlacement P I 0 0 := by
    refine ⟨?_, ?_, ?_⟩
    · show 0 + 256 ≤ I.width
      rw [hiw]
    · show 0 + 256 ≤ I.height
      rw [hih]
    · intro cx cy h1 h2 hocc
      rw [hocc_false cx cy] at hocc
      cases hocc
  have hall : ∀ c ∈ cellList 256 256,
      (OccCell P c.1 c.2 && !OccCell I (c.1 + 0) (c.2 + 0)) = true := by
    intro c hc
    rcases (mem_cellList 256 256 c).mp hc with ⟨h1, h2⟩
    have hP : OccCell P c.1 c.2 = true := by
      show (List.replicate 65536 true).getD (c.2 * 256 + c.1) false = true
      rw [List.getD_eq_getElem?_getD, List.getElem?_replicate,
        if_pos (show c.2 * 256 + c.1 < 65536 by omega)]
      rfl
    rw [hP, hocc_false (c.1 + 0) (c.2 + 0)]
    rfl
  have hwaste : Waste P I 0 0 = 65536 := by
    unfold Waste
    rw [show P.height = 256 from rfl, show P.width = 256 from rfl,
      List.countP_eq_length.mpr hall, cellList_length]
  have hb1 : 0 + P.width ≤ I.width := by
    show 0 + 256 ≤ I.width
    rw [hiw]
  have hb2 : 0 + P.height ≤ I.height := by
    show 0 + 256 ≤ I.height
    rw [hih]
  have hequiv := tpg_valid_equiv P I 0 0 hil hit hb1 hb2
  have htest2 := hequiv.2.1 hvp
  rw [hwaste] at htest2
  have hcand : find_best_pattern_candidates [P] I = [(P, 0, 0)] := by
    unfold find_best_pattern_candidates
    rw [List.flatMap_cons, List.flatMap_nil,
      if_pos ⟨by rw [htc]; omega, by rw [hiw], by rw [hih]⟩]
    rw [show I.height - P.height + 1 = 1 from by rw [hih]; rfl,
      show I.width - P.width + 1 = 1 from by rw [hiw]; rfl]
    rfl
  have hnoup : ∀ c ∈ find_best_pattern_candidates [P] I,
      ¬((test_pattern_grid c.1 I c.2.1 c.2.2).1 = true ∧
        (test_pattern_grid c.1 I c.2.1 c.2.2).2 <
          ((0xffff, Option.none, 0, 0) : Int × Option MsPattern × Nat × Nat).1) := by
    rw [hcand]
    rintro c hc ⟨_, hlt⟩
    rcases List.mem_singleton.mp hc with rfl
    rw [htest2] at hlt
    have hacc : ((0xffff, Option.none, 0, 0) :
        Int × Option MsPattern × Nat × Nat).1 = (65535 : Int) := rfl
    rw [hacc] at hlt
    omega
  have hfold0 : find_best_pattern_fold I (find_best_pattern_candidates [P] I) =
      (0xffff, Option.none, 0, 0) :=
    (find_best_pattern_fold_eq _ _).trans
      (fbp_fold_no_update I _ (0xffff, Option.none, 0, 0) hnoup)
  refine ⟨hvp, by rw [hwaste]; omega, ?_⟩
  rw [find_best_pattern_match_form (fun _ _ => false) [P] 0 0 2048 2048 (by simp),
    ← hIdef, hfold0]

/-- Witness for C1: a fully-occupied 8×8 frame and a catalogue holding one
1×1 fully-occupied pattern; the search must return it at offset (0, 0). -/
theorem find_best_pattern_spec_witness :
    ((8 : Nat) % 8 = 0) ∧
    (∀ pg ∈ [({ tile_count := 1, width := 1, height := 1, data := [true], pattern := some { id := 1, objects := [] } } : PatternGrid)],
      pg.pattern.isSome ∧ pg.data.length = pg.height * pg.width ∧
      pg.data.count true ≤ pg.tile_count) ∧
    (∃ pg ∈ [({ tile_count := 1, width := 1, height := 1, data := [true], pattern := some { id := 1, objects := [] } } : PatternGrid)], ∃ px py,
      ValidPlacement pg (frame_i_grid (fun _ _ => true) 0 0 8 8) px py ∧
      Waste pg (frame_i_grid (fun _ _ => true) 0 0 8 8) px py < 0xffff) ∧
    (∃ pg px py p,
      pg ∈ [({ tile_count := 1, width := 1, height := 1, data := [true], pattern := some { id := 1, objects := [] } } : PatternGrid)] ∧
      pg.pattern = some p ∧
      find_best_pattern (fun _ _ => true)
        [({ tile_count := 1, width := 1, height := 1, data := [true], pattern := some { id := 1, objects := [] } } : PatternGrid)] 0 0 8 8 =
        .ok (p, px * 8, py * 8) ∧
      ValidPlacement pg (frame_i_grid (fun _ _ => true) 0 0 8 8) px py ∧
      Waste pg (frame_i_grid (fun _ _ => true) 0 0 8 8) px py < 0xffff ∧
      (∀ pg' ∈ [({ tile_count := 1, width := 1, height := 1, data := [true], pattern := some { id := 1, objects := [] } } : PatternGrid)], ∀ px' py',
        ValidPlacement pg' (frame_i_grid (fun _ _ => true) 0 0 8 8) px' py' →
        Waste pg (frame_i_grid (fun _ _ => true) 0 0 8 8) px py ≤
          Waste pg' (frame_i_grid (fun _ _ => true) 0 0 8 8) px' py') ∧
      (∃ pre post,
        find_best_pattern_candidates
          [({ tile_count := 1, width := 1, height := 1, data := [true], pattern := some { id := 1, objects := [] } } : PatternGrid)]
          (frame_i_grid (fun _ _ => true) 0 0 8 8) =
          pre ++ (pg, px, py) :: post ∧
        ∀ c ∈ pre, ValidPlacement c.1 (frame_i_grid (fun _ _ => true) 0 0 8 8)
            c.2.1 c.2.2 →
          Waste pg (frame_i_grid (fun _ _ => true) 0 0 8 8) px py <
            Waste c.1 (frame_i_grid (fun _ _ => true) 0 0 8 8) c.2.1 c.2.2)) := by
  have hvp : ValidPlacement
      ({ tile_count := 1, width := 1, height := 1, data := [true], pattern := some { id := 1, objects := [] } } : PatternGrid)
      (frame_i_grid (fun _ _ => true) 0 0 8 8) 0 0 := by
    refine ⟨by decide, by decide, ?_⟩
    intro cx cy h1 h2 hocc
    have hw1 : (frame_i_grid (fun _ _ => true) 0 0 8 8).width = 1 := rfl
    have hh1 : (frame_i_grid (fun _ _ => true) 0 0 8 8).height = 1 := rfl
    have hcx : cx = 0 := by omega
    have hcy : cy = 0 := by omega
    subst hcx
    subst hcy
    exact ⟨Nat.le_refl 0, by decide, Nat.le_refl 0, by decide, by decide⟩
  have hex : ∃ pg ∈ [({ tile_count := 1, width := 1, height := 1, data := [true], pattern := some { id := 1, objects := [] } } : PatternGrid)], ∃ px py,
      ValidPlacement pg (frame_i_grid (fun _ _ => true) 0 0 8 8) px py ∧
      Waste pg (frame_i_grid (fun _ _ => true) 0 0 8 8) px py < 0xffff :=
    ⟨_, List.mem_singleton.mpr rfl, 0, 0, hvp, by decide⟩
  exact ⟨rfl, by decide, hex,
    (find_best_pattern_spec (fun _ _ => true)
      [({ tile_count := 1, width := 1, height := 1, data := [true], pattern := some { id := 1, objects := [] } } : PatternGrid)]
      0 0 8 8 rfl rfl (by decide)).1 hex⟩
